import Mathlib

/-!
# Control (xournalpp): document lock, change aggregation, undo log, jobs

A shallow embedding of `src/control/Control.cpp`.

* Objects that the C++ code handles through pointers (`XojPage*`, `XojPageView*`)
  are addresses, modelled as natural numbers; pointer comparison is equality
  of addresses.
* `size_t` values are natural numbers and `npos` is `2 ^ 64 - 1`.  The `int p`
  of `checkChangedDocument`, which receives the `size_t` that `indexOf` returns,
  is the 32-bit value `toInt` of it, and is converted back with `toSizeT` when
  it is passed on; so is the `int pageNr` of `clipboardPasteImage`.  The `int` that
  receives `getCurrentPageNo()` in `clipboardPaste` and the page operations is
  kept as the `size_t` value, so that the test against `-1` reads `= npos` there.
* Calls into collaborators whose code is not part of `Control.cpp` (document,
  listeners, scheduler, window) are recorded, in call order, in `Control.trace`.
* `double` values that are computed with or compared (the sizes of pages and of
  images in `clipboardPasteImage` and `paperFormat`) are values of `Double`, a
  model of IEEE 754 binary64 with rounding to nearest, ties to even.  The zoom of
  a metadata entry, which is only stored and passed on, is a rational number.
* What the user and the environment answer during an operation (dialog
  responses, chosen files, results of jobs and of loading) is a parameter of the
  operation.  Default arguments declared in `Control.h` are the fields of
  `Defaults`.
* A window that is only handed to a dialog or a widget call is not looked at;
  where the code needs data of the window (`getViewFor`) and there is none, the
  operation has no result (`none`).
-/

namespace Xournalpp

/-! ## Data model -/

/-- Address of a page object (`XojPage*`). -/
abbrev XojPage := Nat

/-- The value `npos` of `size_t`: "no such index". -/
def npos : Nat := 2 ^ 64 - 1

/-! ### The type `double` -/

/-- A `double` (IEEE 754 binary64): `finite negative m e` is the number
`(-1)^negative * m * 2^e`; the results of the operations have `m < 2 ^ 53` and
`-1074 ≤ e ≤ 971`, with `2 ^ 52 ≤ m` unless `e = -1074`. -/
inductive Double
  | finite (negative : Bool) (mantissa : Nat) (exponent : Int)
  | infinite (negative : Bool)
  | nan
  deriving DecidableEq, Repr

/-- The integer nearest to `n / d`, the even one of two that are equally near
(`d` is positive). -/
def roundHalfEven (n d : Nat) : Nat :=
  if 2 * (n % d) < d then n / d
  else if d < 2 * (n % d) then n / d + 1
  else if (n / d) % 2 = 0 then n / d
  else n / d + 1

/-- Binary search for the position of the highest bit of a number below
`2 ^ (2 ^ j)`. -/
def log2Search : Nat → Nat → Nat
  | 0, _ => 0
  | j + 1, n =>
    if n >>> (2 ^ j) = 0 then log2Search j n else 2 ^ j + log2Search j (n >>> (2 ^ j))

/-- The largest `k` with `2 ^ k ≤ n`, for positive `n`. -/
def log2Floor (n : Nat) : Nat :=
  if n >>> (2 ^ 12) = 0 then log2Search 12 n else Nat.log2 n

/-- The largest `k` with `2 ^ k ≤ n / d`, for positive `n` and `d`. -/
def log2Ratio (n d : Nat) : Int :=
  if d * 2 ^ log2Floor n ≤ n * 2 ^ log2Floor d then (log2Floor n : Int) - (log2Floor d : Int)
  else (log2Floor n : Int) - (log2Floor d : Int) - 1

/-- The `double` nearest to `(-1)^negative * (n / d) * 2^e` (`d` is positive), in the
rounding mode "to nearest, ties to even": the exponent of the result is that of
the last place of a 53 bit mantissa, and at least `-1074`; a result beyond the
largest `double` is infinite. -/
def Double.round (negative : Bool) (n d : Nat) (e : Int) : Double :=
  if n = 0 then Double.finite negative 0 (-1074)
  else
    let x : Int := max (log2Ratio n d + e - 52) (-1074)
    let m : Nat :=
      if 0 ≤ e - x then roundHalfEven (n * 2 ^ (e - x).toNat) d
      else roundHalfEven n (d * 2 ^ (x - e).toNat)
    if m = 2 ^ 53 then
      if 971 < x + 1 then Double.infinite negative else Double.finite negative (2 ^ 52) (x + 1)
    else if 971 < x then Double.infinite negative
    else Double.finite negative m x

/-- Conversion of an `int` to `double`. -/
def Double.ofInt (i : Int) : Double :=
  Double.round (decide (i < 0)) i.natAbs 1 0

/-- Multiplication of `double` values. -/
def Double.mul : Double → Double → Double
  | Double.nan, _ => Double.nan
  | _, Double.nan => Double.nan
  | Double.infinite s, Double.infinite t => Double.infinite (xor s t)
  | Double.infinite s, Double.finite t m _ =>
    if m = 0 then Double.nan else Double.infinite (xor s t)
  | Double.finite s m _, Double.infinite t =>
    if m = 0 then Double.nan else Double.infinite (xor s t)
  | Double.finite s m e, Double.finite t m2 e2 => Double.round (xor s t) (m * m2) 1 (e + e2)

/-- Division of `double` values. -/
def Double.div : Double → Double → Double
  | Double.nan, _ => Double.nan
  | _, Double.nan => Double.nan
  | Double.infinite _, Double.infinite _ => Double.nan
  | Double.infinite s, Double.finite t _ _ => Double.infinite (xor s t)
  | Double.finite s _ _, Double.infinite t => Double.finite (xor s t) 0 (-1074)
  | Double.finite s m e, Double.finite t m2 e2 =>
    if m2 = 0 then
      if m = 0 then Double.nan else Double.infinite (xor s t)
    else Double.round (xor s t) m m2 (e - e2)

/-- The mantissa with its sign, scaled to the exponent `lo`. -/
def Double.scaled (negative : Bool) (m : Nat) (e lo : Int) : Int :=
  if negative then -((m <<< (e - lo).toNat : Nat) : Int) else ((m <<< (e - lo).toNat : Nat) : Int)

/-- The comparison `a > b` of `double` values. -/
def Double.gt : Double → Double → Bool
  | Double.nan, _ => false
  | _, Double.nan => false
  | Double.infinite s, Double.infinite t => !s && t
  | Double.infinite s, Double.finite _ _ _ => !s
  | Double.finite _ _ _, Double.infinite t => t
  | Double.finite s m e, Double.finite t m2 e2 =>
    decide (Double.scaled t m2 e2 (min e e2) < Double.scaled s m e (min e e2))

/-- The rational number that a finite `double` stands for (0 for the others). -/
def Double.toRat : Double → ℚ
  | Double.finite s m e => (if s then -(m : ℚ) else (m : ℚ)) * (2 : ℚ) ^ e
  | _ => 0

/-- A finite `double` above zero. -/
def Double.Positive (x : Double) : Prop :=
  ∃ m e, x = Double.finite false m e ∧ 0 < m

/-- A finite `double` above zero whose value lies between `2 ^ lo` and `2 ^ hi`. -/
def Double.InRange (x : Double) (lo hi : Int) : Prop :=
  x.Positive ∧ (2 : ℚ) ^ lo ≤ x.toRat ∧ x.toRat ≤ 2 ^ hi

/-- The unit roundoff of `double`: `2 ^ (-53)`. -/
def unitRoundoff : ℚ := 2 ^ (-53 : Int)

/-! ### Elements, pages, documents -/

/-- Element variants that can be created by `clipboardPasteXournal`. -/
inductive ElementKind
  | Stroke
  | Image
  | TexImage
  | Text
  deriving DecidableEq, Repr

/-- An element of a layer; `size` is the width and the height that
`clipboardPasteImage` sets on an image. -/
structure Element where
  kind : ElementKind
  size : Option (Double × Double) := none
  deriving DecidableEq, Repr

/-- What a page owns: size, background kind, layers (each a sequence of elements)
and the index of the selected layer.  `specialBackground` is
`getBackgroundType().isSpecial()`, `backgroundColor` the colour of the paper. -/
structure PageData where
  width : Double
  height : Double
  pdfBackground : Bool
  layers : List (List Element)
  selectedLayer : Nat
  specialBackground : Bool := false
  backgroundColor : Int := 0
  deriving DecidableEq, Repr

/-- A `Layer*`: the layer of a page, by position. -/
structure LayerRef where
  page : XojPage
  index : Nat
  deriving DecidableEq, Repr

/-- Who holds the mutex of the document. -/
inductive LockHolder
  | free
  | control
  | other
  deriving DecidableEq, Repr

/-- Modelled from the spec: class `Document` is not part of `Control.cpp`.
An ordered, index-addressable sequence of pages, what each page owns, a
filename, the name of an attached PDF file, and a single lock. -/
structure Document where
  pages : List XojPage
  pageData : XojPage → PageData
  filename : String
  pdfFilename : String
  holder : LockHolder

/-- Actions that `Control.cpp` pushes to the undo log, and `DeleteUndoAction`, whose
header it includes.  `InsertDeletePageUndoAction(page, pos, inserted)` keeps the
`PageRef` it is given (`none` is an invalid `PageRef`); `AddUndoAction(page, eraser)`
and `DeleteUndoAction(page, eraser)` collect `(layer, element, position)`
entries. -/
inductive UndoAction
  | InsertDeletePageUndoAction (page : Option XojPage) (pos : Nat) (inserted : Bool)
  | AddUndoAction (page : XojPage) (eraser : Bool) (entries : List (LayerRef × Element × Int))
  | InsertUndoAction (page : XojPage) (layer : LayerRef) (element : Element)
  | DeleteUndoAction (page : XojPage) (eraser : Bool)
      (entries : List (LayerRef × Element × Int))
  deriving DecidableEq, Repr

/-- Modelled from the spec: class `UndoRedoHandler` (the ActionLog) is not part of
`Control.cpp`.  An ordered sequence of actions, a cursor, and the two flags
`isChanged` and `isChangedAutosave`. -/
structure UndoRedoHandler where
  actions : List UndoAction
  cursor : Nat
  changed : Bool
  changedAutosave : Bool
  deriving DecidableEq, Repr

/-- Jobs that `Control.cpp` creates. -/
inductive Job
  | AutosaveJob
  | SaveJob
  | PdfExportJob
  | CustomExportJob
  deriving DecidableEq, Repr

/-- Priorities of a job.  `Control.cpp` passes `JOB_PRIORITY_URGENT` and
`JOB_PRIORITY_NONE` to `addJob`; the enumeration itself is not part of
`Control.cpp` and the tier between them is taken from the spec, which names the
tiers Urgent, Normal and None. -/
inductive JobPriority
  | JOB_PRIORITY_URGENT
  | JOB_PRIORITY_NORMAL
  | JOB_PRIORITY_NONE
  deriving DecidableEq, Repr

/-- A selection object (`EditSelection`) built for a page and a view. -/
structure EditSelection where
  page : XojPage
  view : Nat
  elements : List Element
  deriving DecidableEq, Repr

/-- The part of `MainWindow` / `XournalView` that `Control.cpp` consults:
the current page number, the view of a page number (`none` is `nullptr`)
and the selection installed on the view. -/
structure MainWindow where
  currentPage : Nat
  viewFor : Nat → Option Nat
  selection : Option EditSelection

/-- An entry of the metadata store: whether it is valid, the zoom and the page. -/
structure MetadataEntry where
  valid : Bool
  zoom : ℚ
  page : Int
  deriving DecidableEq, Repr

/-- Sizes of a tool (`ToolSize`), as `Control.cpp` names them. -/
inductive ToolSize
  | TOOL_SIZE_VERY_FINE
  | TOOL_SIZE_FINE
  | TOOL_SIZE_MEDIUM
  | TOOL_SIZE_THICK
  | TOOL_SIZE_VERY_THICK
  | TOOL_SIZE_NONE
  deriving DecidableEq, Repr

/-- Tools (`ToolType`) that `Control.cpp` names. -/
inductive ToolType
  | TOOL_PEN
  | TOOL_ERASER
  | TOOL_HILIGHTER
  | TOOL_TEXT
  | TOOL_IMAGE
  | TOOL_SELECT_RECT
  | TOOL_SELECT_REGION
  | TOOL_SELECT_OBJECT
  | TOOL_PLAY_OBJECT
  | TOOL_VERTICAL_SPACE
  | TOOL_HAND
  | TOOL_DRAW_RECT
  | TOOL_DRAW_CIRCLE
  | TOOL_DRAW_ARROW
  | TOOL_DRAW_COORDINATE_SYSTEM
  | TOOL_FLOATING_TOOLBOX
  deriving DecidableEq, Repr

/-- The action groups of the tool sizes. -/
inductive ActionGroup
  | GROUP_SIZE
  | GROUP_PEN_SIZE
  | GROUP_ERASER_SIZE
  | GROUP_HILIGHTER_SIZE
  deriving DecidableEq, Repr

/-- The action types of the tool sizes, `ACTION_QUIT` and `ACTION_NONE`. -/
inductive ActionType
  | ACTION_NONE
  | ACTION_QUIT
  | ACTION_SIZE_VERY_THIN
  | ACTION_SIZE_FINE
  | ACTION_SIZE_MEDIUM
  | ACTION_SIZE_THICK
  | ACTION_SIZE_VERY_THICK
  | ACTION_TOOL_ERASER_SIZE_FINE
  | ACTION_TOOL_ERASER_SIZE_MEDIUM
  | ACTION_TOOL_ERASER_SIZE_THICK
  | ACTION_TOOL_PEN_SIZE_VERY_THIN
  | ACTION_TOOL_PEN_SIZE_FINE
  | ACTION_TOOL_PEN_SIZE_MEDIUM
  | ACTION_TOOL_PEN_SIZE_THICK
  | ACTION_TOOL_PEN_SIZE_VERY_THICK
  | ACTION_TOOL_HILIGHTER_SIZE_FINE
  | ACTION_TOOL_HILIGHTER_SIZE_MEDIUM
  | ACTION_TOOL_HILIGHTER_SIZE_THICK
  deriving DecidableEq, Repr

/-- Calls into collaborators, in the order in which they are made. -/
inductive Event
  | docLock
  | docTryLock (ok : Bool)
  | docUnlock
  | docGetPageCount
  | docGetPage (n : Nat)
  | docIndexOf (page : XojPage)
  | docDeletePage (n : Nat)
  | docSetPageSize (page : XojPage) (width height : Double)
  | docGetFilename
  | docGetPdfFilename
  | docSetFilename (name : String)
  | docGetEvMetadataFilename
  | docCreateSaveName
  | pageReference (page : XojPage)
  | pageUnreference (page : XojPage)
  | firePageChanged (n : Nat)
  | firePageDeleted (n : Nat)
  | firePageSizeChanged (n : Nat)
  | scrollToPage (n : Nat)
  | setDeletePageSensitive (sensitive : Bool)
  | clearSelection
  | endTextAllPages
  | addUndoAction (action : UndoAction)
  | documentSaved
  | addJob (job : Job) (priority : JobPriority)
  | saveJobSave (ok : Bool)
  | addRecentFile (name : String)
  | setWindowTitle (starred : Bool)
  | winUpdatePageNumbers (page count pdfPage : Nat)
  | storeMetadata (page : Nat)
  | fireEnableAction (action : String) (enabled : Bool)
  | showFormatDialog
  | showSaveDialog
  | warning
  | setSelection
  | schedulerLock
  | schedulerUnlock
  | schedulerRemoveAllJobs
  | gtkMainQuit
  | emergencySave
  | showCloseDialog (fileRemoved allowCancel : Bool)
  | undoRedoClearContents
  | docClearDocument
  | docReplace
  | docAddPage (page : XojPage)
  | docInsertPage (page : XojPage) (position : Nat)
  | docReadPdf (name : String) (ok : Bool)
  | showErrorToUser (inUiThread : Bool)
  | loadMetadata (valid : Bool) (page : Int)
  | gFileCopy (source target : String)
  | gFileDelete (name : String)
  | call (name : String)
  | callAt (name : String) (n : Nat)
  | fireActionSelected (group : ActionGroup) (action : ActionType)
  | toolHandlerSetSize (group : ActionGroup) (size : ToolSize)
  deriving Repr

/-- An argument of a call. -/
inductive EventArg
  | nat (n : Nat)
  | int (i : Int)
  | bool (b : Bool)
  | str (s : String)
  | action (a : UndoAction)
  | job (j : Job)
  | priority (p : JobPriority)
  | group (g : ActionGroup)
  | actionType (a : ActionType)
  | toolSize (t : ToolSize)
  | double (x : Double)
  deriving DecidableEq, Repr

/-- The number of the constructor of an event, and its arguments. -/
def Event.code : Event → Nat × List EventArg
  | Event.docLock => (0, [])
  | Event.docTryLock ok => (1, [EventArg.bool ok])
  | Event.docUnlock => (2, [])
  | Event.docGetPageCount => (3, [])
  | Event.docGetPage n => (4, [EventArg.nat n])
  | Event.docIndexOf page => (5, [EventArg.nat page])
  | Event.docDeletePage n => (6, [EventArg.nat n])
  | Event.docSetPageSize page width height => (7, [EventArg.nat page, EventArg.double width, EventArg.double height])
  | Event.docGetFilename => (8, [])
  | Event.docGetPdfFilename => (9, [])
  | Event.docSetFilename name => (10, [EventArg.str name])
  | Event.docGetEvMetadataFilename => (11, [])
  | Event.docCreateSaveName => (12, [])
  | Event.pageReference page => (13, [EventArg.nat page])
  | Event.pageUnreference page => (14, [EventArg.nat page])
  | Event.firePageChanged n => (15, [EventArg.nat n])
  | Event.firePageDeleted n => (16, [EventArg.nat n])
  | Event.firePageSizeChanged n => (17, [EventArg.nat n])
  | Event.scrollToPage n => (18, [EventArg.nat n])
  | Event.setDeletePageSensitive sensitive => (19, [EventArg.bool sensitive])
  | Event.clearSelection => (20, [])
  | Event.endTextAllPages => (21, [])
  | Event.addUndoAction action => (22, [EventArg.action action])
  | Event.documentSaved => (23, [])
  | Event.addJob job priority => (24, [EventArg.job job, EventArg.priority priority])
  | Event.saveJobSave ok => (25, [EventArg.bool ok])
  | Event.addRecentFile name => (26, [EventArg.str name])
  | Event.setWindowTitle starred => (27, [EventArg.bool starred])
  | Event.winUpdatePageNumbers page count pdfPage => (28, [EventArg.nat page, EventArg.nat count, EventArg.nat pdfPage])
  | Event.storeMetadata page => (29, [EventArg.nat page])
  | Event.fireEnableAction action enabled => (30, [EventArg.str action, EventArg.bool enabled])
  | Event.showFormatDialog => (31, [])
  | Event.showSaveDialog => (32, [])
  | Event.warning => (33, [])
  | Event.setSelection => (34, [])
  | Event.schedulerLock => (35, [])
  | Event.schedulerUnlock => (36, [])
  | Event.schedulerRemoveAllJobs => (37, [])
  | Event.gtkMainQuit => (38, [])
  | Event.emergencySave => (39, [])
  | Event.showCloseDialog fileRemoved allowCancel => (40, [EventArg.bool fileRemoved, EventArg.bool allowCancel])
  | Event.undoRedoClearContents => (41, [])
  | Event.docClearDocument => (42, [])
  | Event.docReplace => (43, [])
  | Event.docAddPage page => (44, [EventArg.nat page])
  | Event.docInsertPage page position => (45, [EventArg.nat page, EventArg.nat position])
  | Event.docReadPdf name ok => (46, [EventArg.str name, EventArg.bool ok])
  | Event.showErrorToUser inUiThread => (47, [EventArg.bool inUiThread])
  | Event.loadMetadata valid page => (48, [EventArg.bool valid, EventArg.int page])
  | Event.gFileCopy source target => (49, [EventArg.str source, EventArg.str target])
  | Event.gFileDelete name => (50, [EventArg.str name])
  | Event.call name => (51, [EventArg.str name])
  | Event.callAt name n => (52, [EventArg.str name, EventArg.nat n])
  | Event.fireActionSelected group action =>
    (53, [EventArg.group group, EventArg.actionType action])
  | Event.toolHandlerSetSize group size => (54, [EventArg.group group, EventArg.toolSize size])

/-- The event with a given constructor number and arguments. -/
def Event.ofCode : Nat × List EventArg → Option Event
  | (0, []) => some Event.docLock
  | (1, [EventArg.bool ok]) => some (Event.docTryLock ok)
  | (2, []) => some Event.docUnlock
  | (3, []) => some Event.docGetPageCount
  | (4, [EventArg.nat n]) => some (Event.docGetPage n)
  | (5, [EventArg.nat page]) => some (Event.docIndexOf page)
  | (6, [EventArg.nat n]) => some (Event.docDeletePage n)
  | (7, [EventArg.nat page, EventArg.double width, EventArg.double height]) => some (Event.docSetPageSize page width height)
  | (8, []) => some Event.docGetFilename
  | (9, []) => some Event.docGetPdfFilename
  | (10, [EventArg.str name]) => some (Event.docSetFilename name)
  | (11, []) => some Event.docGetEvMetadataFilename
  | (12, []) => some Event.docCreateSaveName
  | (13, [EventArg.nat page]) => some (Event.pageReference page)
  | (14, [EventArg.nat page]) => some (Event.pageUnreference page)
  | (15, [EventArg.nat n]) => some (Event.firePageChanged n)
  | (16, [EventArg.nat n]) => some (Event.firePageDeleted n)
  | (17, [EventArg.nat n]) => some (Event.firePageSizeChanged n)
  | (18, [EventArg.nat n]) => some (Event.scrollToPage n)
  | (19, [EventArg.bool sensitive]) => some (Event.setDeletePageSensitive sensitive)
  | (20, []) => some Event.clearSelection
  | (21, []) => some Event.endTextAllPages
  | (22, [EventArg.action action]) => some (Event.addUndoAction action)
  | (23, []) => some Event.documentSaved
  | (24, [EventArg.job job, EventArg.priority priority]) => some (Event.addJob job priority)
  | (25, [EventArg.bool ok]) => some (Event.saveJobSave ok)
  | (26, [EventArg.str name]) => some (Event.addRecentFile name)
  | (27, [EventArg.bool starred]) => some (Event.setWindowTitle starred)
  | (28, [EventArg.nat page, EventArg.nat count, EventArg.nat pdfPage]) => some (Event.winUpdatePageNumbers page count pdfPage)
  | (29, [EventArg.nat page]) => some (Event.storeMetadata page)
  | (30, [EventArg.str action, EventArg.bool enabled]) => some (Event.fireEnableAction action enabled)
  | (31, []) => some Event.showFormatDialog
  | (32, []) => some Event.showSaveDialog
  | (33, []) => some Event.warning
  | (34, []) => some Event.setSelection
  | (35, []) => some Event.schedulerLock
  | (36, []) => some Event.schedulerUnlock
  | (37, []) => some Event.schedulerRemoveAllJobs
  | (38, []) => some Event.gtkMainQuit
  | (39, []) => some Event.emergencySave
  | (40, [EventArg.bool fileRemoved, EventArg.bool allowCancel]) => some (Event.showCloseDialog fileRemoved allowCancel)
  | (41, []) => some Event.undoRedoClearContents
  | (42, []) => some Event.docClearDocument
  | (43, []) => some Event.docReplace
  | (44, [EventArg.nat page]) => some (Event.docAddPage page)
  | (45, [EventArg.nat page, EventArg.nat position]) => some (Event.docInsertPage page position)
  | (46, [EventArg.str name, EventArg.bool ok]) => some (Event.docReadPdf name ok)
  | (47, [EventArg.bool inUiThread]) => some (Event.showErrorToUser inUiThread)
  | (48, [EventArg.bool valid, EventArg.int page]) => some (Event.loadMetadata valid page)
  | (49, [EventArg.str source, EventArg.str target]) => some (Event.gFileCopy source target)
  | (50, [EventArg.str name]) => some (Event.gFileDelete name)
  | (51, [EventArg.str name]) => some (Event.call name)
  | (52, [EventArg.str name, EventArg.nat n]) => some (Event.callAt name n)
  | (53, [EventArg.group group, EventArg.actionType action]) =>
    some (Event.fireActionSelected group action)
  | (54, [EventArg.group group, EventArg.toolSize size]) =>
    some (Event.toolHandlerSetSize group size)
  | _ => none

/-- Equality of events is decided on their codes. -/
instance : DecidableEq Event := fun a b =>
  decidable_of_iff (a.code = b.code)
    ⟨fun h => by
      have ha : Event.ofCode a.code = some a := by cases a <;> rfl
      have hb : Event.ofCode b.code = some b := by cases b <;> rfl
      rw [h, hb] at ha
      exact (Option.some.inj ha).symm,
     fun h => by rw [h]⟩


/-- The fields of `Control` that the modelled operations read or write. -/
structure Control where
  doc : Document
  undoRedo : UndoRedoHandler
  changedPages : List XojPage
  win : Option MainWindow
  isBlocking : Bool
  controlTmpDisabled : Bool
  cursorBusy : Bool
  sidebarTmpDisabled : Bool
  statusbarVisible : Bool
  lbState : String
  maxState : Int
  trace : List Event
  lastAutosaveFilename : String := ""
  idleCallbacks : List MetadataEntry := []
  autosaveTimeout : Nat := 0

/-! ## Collaborators -/

/-- Record a call. -/
def Control.emit (s : Control) (e : Event) : Control :=
  { s with trace := s.trace ++ [e] }

/-- Events recorded between two states of one run. -/
def emitted (before after : Control) : List Event :=
  after.trace.drop before.trace.length

/-- Modelled from the spec: `Document::getPageCount`. -/
def Document.getPageCount (doc : Document) : Nat :=
  doc.pages.length

/-- Modelled from the spec: `Document::indexOf`, the first index of the page in
the page sequence, or `npos` when the page is not in the document. -/
def Document.indexOf (doc : Document) (page : XojPage) : Nat :=
  if page ∈ doc.pages then doc.pages.indexOf page else npos

/-- Modelled from the spec: `Document::getPage`, the page at an index, or an
invalid `PageRef` when there is none. -/
def Document.getPage (doc : Document) (n : Nat) : Option XojPage :=
  if n = npos then none else doc.pages.get? n

/-- Modelled from the spec: `Document::deletePage`, removes the page at an index
and keeps the others in order. -/
def Document.deletePage (doc : Document) (n : Nat) : Document :=
  { doc with pages := doc.pages.eraseIdx n }

/-- Modelled from the spec: `Document::lock`, blocking acquisition; the call returns
once the calling context holds the lock. -/
def Control.docLock (s : Control) : Control :=
  { s with doc := { s.doc with holder := LockHolder.control }, trace := s.trace ++ [Event.docLock] }

/-- Modelled from the spec: `Document::tryLock`, non-blocking; succeeds exactly
when nobody holds the lock. -/
def Control.docTryLock (s : Control) : Control × Bool :=
  if s.doc.holder = LockHolder.free then
    ({ s with doc := { s.doc with holder := LockHolder.control },
              trace := s.trace ++ [Event.docTryLock true] }, true)
  else
    ({ s with trace := s.trace ++ [Event.docTryLock false] }, false)

/-- Modelled from the spec: `Document::unlock`. -/
def Control.docUnlock (s : Control) : Control :=
  { s with doc := { s.doc with holder := LockHolder.free }, trace := s.trace ++ [Event.docUnlock] }

/-- Number of `reference()` calls minus number of `unreference()` calls made on a
page in a sequence of events. -/
def refBalance (evs : List Event) (page : XojPage) : Int :=
  (evs.count (Event.pageReference page) : Int) - (evs.count (Event.pageUnreference page) : Int)

/-- Page numbers passed to `firePageChanged`, in call order. -/
def firedPageChanged (evs : List Event) : List Nat :=
  evs.filterMap fun e =>
    match e with
    | Event.firePageChanged n => some n
    | _ => none

/-! ## Change aggregation -/

/-- `Control::undoRedoPageChanged(PageRef page)`. -/
def undoRedoPageChanged (s : Control) (page : XojPage) : Control :=
  if s.changedPages.any (fun p => p == page) then
    s
  else
    { s with changedPages := s.changedPages ++ [page],
             trace := s.trace ++ [Event.pageReference page] }

/-- The `int` (32 bits, two's complement) that a `size_t` value is converted to. -/
def toInt (n : Nat) : Int :=
  if n % 2 ^ 32 < 2 ^ 31 then ((n % 2 ^ 32 : Nat) : Int)
  else ((n % 2 ^ 32 : Nat) : Int) - 2 ^ 32

/-- The `size_t` value that an `int` is converted to. -/
def toSizeT (i : Int) : Nat :=
  (i % 2 ^ 64).toNat

/-- Body of the loop of `Control::checkChangedDocument`, for one pending page:
`int p = indexOf(page); if (p != -1) firePageChanged(p); page->unreference()`.
The parameter of `firePageChanged` is a `size_t`, as that of `firePageSelected`. -/
def checkChangedPage (s : Control) (page : XojPage) : Control :=
  let p : Int := toInt (s.doc.indexOf page)
  let s1 := s.emit (Event.docIndexOf page)
  let s2 := if p ≠ -1 then s1.emit (Event.firePageChanged (toSizeT p)) else s1
  s2.emit (Event.pageUnreference page)

/-- `Control::checkChangedDocument(Control* control)`; the result is the value
returned to the timer (`true`: call again). -/
def checkChangedDocument (s : Control) : Control × Bool :=
  match s.docTryLock with
  | (s1, false) => (s1, true)
  | (s1, true) =>
    let s2 := s.changedPages.foldl checkChangedPage s1
    let s3 := { s2 with changedPages := [] }
    (s3.docUnlock, true)

/-- Events of one iteration of the loop of `checkChangedDocument` for a page,
given the document at drain time. -/
def checkChangedEvents (doc : Document) (page : XojPage) : List Event :=
  [Event.docIndexOf page]
    ++ (if toInt (doc.indexOf page) ≠ -1 then
          [Event.firePageChanged (toSizeT (toInt (doc.indexOf page)))]
        else [])
    ++ [Event.pageUnreference page]

/-! ## Undo log and window -/

/-- Modelled from the spec: `UndoRedoHandler::addUndoAction` (the ActionLog's
`push`), absent from `Control.cpp`: appends at the cursor, discards the actions
beyond the cursor, advances the cursor past the new action and sets `isChanged`
and `isChangedAutosave`. -/
def UndoRedoHandler.addUndoAction (u : UndoRedoHandler) (a : UndoAction) : UndoRedoHandler :=
  { actions := u.actions.take u.cursor ++ [a],
    cursor := u.cursor + 1,
    changed := true,
    changedAutosave := true }

/-- Modelled from the spec: `UndoRedoHandler::documentSaved`, absent from
`Control.cpp`: clears `isChanged` without touching the stack contents. -/
def UndoRedoHandler.documentSaved (u : UndoRedoHandler) : UndoRedoHandler :=
  { u with changed := false }

/-- The call `undoRedo->addUndoAction(action)`. -/
def Control.addUndoAction (s : Control) (a : UndoAction) : Control :=
  { s with undoRedo := s.undoRedo.addUndoAction a,
           trace := s.trace ++ [Event.addUndoAction a] }

/-- Actions passed to `addUndoAction`, in call order. -/
def pushedActions (evs : List Event) : List UndoAction :=
  evs.filterMap fun e =>
    match e with
    | Event.addUndoAction a => some a
    | _ => none

/-- `Control::getCurrentPageNo()`. -/
def getCurrentPageNo (s : Control) : Nat :=
  match s.win with
  | some w => w.currentPage
  | none => 0

/-- `Control::clearSelection()` followed by `endTextAllPages()`, that is
`Control::clearSelectionEndText()`.  Both are done only when there is a window.
Clearing removes the selection of the view; ending a text edit that is in
progress is the window's business and is recorded as a call only. -/
def clearSelectionEndText (s : Control) : Control :=
  match s.win with
  | some w =>
    { s with win := some { w with selection := none },
             trace := s.trace ++ [Event.clearSelection, Event.endTextAllPages] }
  | none => s

/-- The call `win->getXournal()->setSelection(selection)`. -/
def setSelection (s : Control) (w : MainWindow) (selection : EditSelection) : Control :=
  { s with win := some { w with selection := some selection },
           trace := s.trace ++ [Event.setSelection] }

/-! ## Clipboard paste -/

/-- Items of a serialized clipboard payload. -/
inductive StreamItem
  | string (value : String)
  | int (value : Int)
  | selection
  | object (name : String) (wellFormed : Bool)
  deriving DecidableEq, Repr

/-- Modelled from the spec: class `ObjectInputStream` is not part of `Control.cpp`.
A payload is a sequence of items; a read either yields a value and the rest of
the payload, or throws (`none`). -/
abbrev ObjectInputStream := List StreamItem

/-- Modelled from the spec: `ObjectInputStream::readString`. -/
def ObjectInputStream.readString : ObjectInputStream → Option (String × ObjectInputStream)
  | StreamItem.string v :: rest => some (v, rest)
  | _ => none

/-- Modelled from the spec: `ObjectInputStream::readInt`. -/
def ObjectInputStream.readInt : ObjectInputStream → Option (Int × ObjectInputStream)
  | StreamItem.int v :: rest => some (v, rest)
  | _ => none

/-- Modelled from the spec: `ObjectInputStream::getNextObjectName`, the name of the
object that comes next; the payload is not advanced. -/
def ObjectInputStream.getNextObjectName : ObjectInputStream → Option String
  | StreamItem.object name _ :: _ => some name
  | _ => none

/-- Modelled from the spec: `Element::readSerialized`, reads the object that comes
next and throws when it is not well formed. -/
def Element.readSerialized : ObjectInputStream → Option ObjectInputStream
  | StreamItem.object _ true :: rest => some rest
  | _ => none

/-- Modelled from the spec: `EditSelection::readSerialized`. -/
def EditSelection.readSerialized : ObjectInputStream → Option ObjectInputStream
  | StreamItem.selection :: rest => some rest
  | _ => none

/-- The `if` / `else if` chain of `clipboardPasteXournal` on the object name;
`none` is the `throw InputStreamException` of the last branch. -/
def elementForName (name : String) : Option Element :=
  if name = "Stroke" then some { kind := ElementKind.Stroke }
  else if name = "Image" then some { kind := ElementKind.Image }
  else if name = "TexImage" then some { kind := ElementKind.TexImage }
  else if name = "Text" then some { kind := ElementKind.Text }
  else none

/-- The `for` loop of `clipboardPasteXournal`, with `count` iterations left:
the entries of `pasteAddUndoAction` and the selection grow by one element per
iteration; `none` when an exception is thrown.  The element is new, so
`layer->indexOf(element)` is `-1`. -/
def pasteLoop : Nat → LayerRef → ObjectInputStream → List (LayerRef × Element × Int) →
    EditSelection → Option (List (LayerRef × Element × Int) × EditSelection)
  | 0, _, _, entries, selection => some (entries, selection)
  | count + 1, layer, input, entries, selection =>
    match input.getNextObjectName with
    | none => none
    | some name =>
      match elementForName name with
      | none => none
      | some element =>
        match Element.readSerialized input with
        | none => none
        | some rest =>
          pasteLoop count layer rest (entries ++ [(layer, element, -1)])
            { selection with elements := selection.elements ++ [element] }

/-- The `try` block of `clipboardPasteXournal`.  The result is the state when the
block is left and whether it was left by an exception. -/
def pasteTry (projectString : String) (s : Control) (w : MainWindow) (page : XojPage)
    (layer : LayerRef) (view : Nat) (input : ObjectInputStream) : Control × Bool :=
  match input.readString with
  | none => (s, true)
  | some (version, in1) =>
    let s1 := if version ≠ projectString then s.emit Event.warning else s
    let selection : EditSelection := { page := page, view := view, elements := [] }
    match EditSelection.readSerialized in1 with
    | none => (s1, true)
    | some in2 =>
      let s2 := s1.docUnlock
      match in2.readInt with
      | none => (s2, true)
      | some (count, in3) =>
        match pasteLoop count.toNat layer in3 [] selection with
        | none => (s2, true)
        | some (entries, selection1) =>
          let s3 := s2.addUndoAction (UndoAction.AddUndoAction page false entries)
          (setSelection s3 w selection1, false)

/-- `Control::clipboardPasteXournal(ObjectInputStream& in)`.  `projectString` is the
constant `PROJECT_STRING`.  The result is `none` when the function dereferences
a null pointer: `page->getSelectedLayer()` on an invalid `PageRef`, or
`win->getXournal()` without a window. -/
def clipboardPasteXournal (projectString : String) (s : Control) (input : ObjectInputStream) :
    Option Control :=
  let pNr := getCurrentPageNo s
  if pNr = npos ∧ s.win.isSome then
    some s
  else
    let s1 := (s.docLock).emit (Event.docGetPage pNr)
    match s1.doc.getPage pNr with
    | none => none
    | some page =>
      let layer : LayerRef := { page := page, index := (s1.doc.pageData page).selectedLayer }
      match s1.win with
      | none => none
      | some w =>
        match w.viewFor pNr with
        | none => some s1.docUnlock
        | some view =>
          match pasteTry projectString s1 w page layer view input with
          | (s2, true) => some (s2.emit Event.warning)
          | (s2, false) => some s2

/-- Whether the objects of a payload can be read: `count` objects, each with a
known name and well formed. -/
def objectsDeserialize : Nat → ObjectInputStream → Bool
  | 0, _ => true
  | count + 1, input =>
    match input.getNextObjectName with
    | none => false
    | some name =>
      match elementForName name with
      | none => false
      | some _ =>
        match Element.readSerialized input with
        | none => false
        | some rest => objectsDeserialize count rest

/-- Whether a payload deserializes: a version string, a serialized selection, a
count, and that many objects. -/
def payloadDeserializes (input : ObjectInputStream) : Bool :=
  match input.readString with
  | none => false
  | some (_, in1) =>
    match EditSelection.readSerialized in1 with
    | none => false
    | some in2 =>
      match in2.readInt with
      | none => false
      | some (count, in3) => objectsDeserialize count.toNat in3

/-! ## Page operations -/

/-- Modelled from the spec: `Document::setPageSize`, absent from `Control.cpp`:
sets the width and the height of a page. -/
def Document.setPageSize (doc : Document) (page : XojPage) (width height : Double) :
    Document :=
  { doc with pageData := fun p =>
      if p = page then { doc.pageData p with width := width, height := height }
      else doc.pageData p }

/-- `Control::updateDeletePageButton()`. -/
def updateDeletePageButton (s : Control) : Control :=
  match s.win with
  | some _ =>
    (s.emit Event.docGetPageCount).emit
      (Event.setDeletePageSensitive (decide (s.doc.getPageCount > 1)))
  | none => s

/-- `Control::deletePage()`.  The page count after the removal is at least 1, so
`getPageCount() - 1` does not wrap. -/
def deletePage (s : Control) : Control :=
  let s1 := (clearSelectionEndText s).emit Event.docGetPageCount
  if s1.doc.getPageCount < 2 then
    s1
  else
    let pNr := getCurrentPageNo s1
    if pNr = npos then
      s1
    else
      let s2 := s1.emit Event.docGetPageCount
      if pNr > s2.doc.getPageCount then
        s2
      else
        let s3 := s2.docLock.emit (Event.docGetPage pNr)
        let page := s3.doc.getPage pNr
        let s4 := s3.docUnlock
        let s5 := s4.emit (Event.firePageDeleted pNr)
        let s6 := s5.docLock
        let s7 := { s6 with doc := s6.doc.deletePage pNr,
                            trace := s6.trace ++ [Event.docDeletePage pNr] }
        let s8 := s7.docUnlock
        let s9 := updateDeletePageButton s8
        let s10 := s9.addUndoAction (UndoAction.InsertDeletePageUndoAction page pNr false)
        let s11 := s10.emit Event.docGetPageCount
        if pNr ≥ s11.doc.getPageCount then
          (s11.emit Event.docGetPageCount).emit (Event.scrollToPage (s11.doc.getPageCount - 1))
        else
          s11.emit (Event.scrollToPage pNr)

/-- `Control::getCurrentPage()`. -/
def getCurrentPage (s : Control) : Control × Option XojPage :=
  let s1 := s.docLock.emit (Event.docGetPage (getCurrentPageNo s))
  (s1.docUnlock, s1.doc.getPage (getCurrentPageNo s))

/-- `Control::paperFormat()`; `width` and `height` are the values that the format
dialog returns.  The result is `none` when `this->win->getWindow()` is reached
without a window. -/
def paperFormat (s : Control) (width height : Double) : Option Control :=
  match getCurrentPage s with
  | (s1, none) => some s1
  | (s1, some page) =>
    if (s1.doc.pageData page).pdfBackground then
      some s1
    else
      let s2 := clearSelectionEndText s1
      match s2.win with
      | none => none
      | some _ =>
        let s3 := s2.emit Event.showFormatDialog
        let s4 :=
          if width.gt (Double.ofInt 0) then
            let l := s3.docLock
            ({ l with doc := l.doc.setPageSize page width height,
                      trace := l.trace ++ [Event.docSetPageSize page width height] }).docUnlock
          else s3
        let s5 := s4.emit (Event.docIndexOf page)
        let pageNo := s5.doc.indexOf page
        if pageNo ≠ npos then
          let s6 := s5.emit Event.docGetPageCount
          if pageNo < s6.doc.getPageCount then
            some (s6.emit (Event.firePageSizeChanged pageNo))
          else
            some s6
        else
          some s5

/-- `Control::updatePageNumbers(size_t page, size_t pdfPage)`; `current` and `count`
are `int` there, and the page numbers and counts are below `2 ^ 31`. -/
def updatePageNumbers (s : Control) (page pdfPage : Nat) : Control :=
  match s.win with
  | none => s
  | some _ =>
    let s1 := s.emit Event.docGetPageCount
    let s2 := s1.emit (Event.winUpdatePageNumbers page s1.doc.getPageCount pdfPage)
    let s3 := (s2.emit Event.docGetEvMetadataFilename).emit (Event.storeMetadata page)
    let current : Int := getCurrentPageNo s3
    let s4 := s3.emit Event.docGetPageCount
    let count : Int := s4.doc.getPageCount
    { s4 with trace := s4.trace ++
        [Event.fireEnableAction "ACTION_GOTO_FIRST" (decide (current ≠ 0)),
         Event.fireEnableAction "ACTION_GOTO_BACK" (decide (current ≠ 0)),
         Event.fireEnableAction "ACTION_GOTO_PREVIOUS_ANNOTATED_PAGE" (decide (current ≠ 0)),
         Event.fireEnableAction "ACTION_GOTO_PAGE" (decide (count > 1)),
         Event.fireEnableAction "ACTION_GOTO_NEXT" (decide (current < count - 1)),
         Event.fireEnableAction "ACTION_GOTO_LAST" (decide (current < count - 1)),
         Event.fireEnableAction "ACTION_GOTO_NEXT_ANNOTATED_PAGE" (decide (current < count - 1))] }

/-! ## Lock discipline of a sequence of calls -/

/-- The steps of a page removal: the page-deleted event, the removal itself and
the push of an undo action. -/
def isDeletePageStep : Event → Bool
  | Event.firePageDeleted _ => true
  | Event.docDeletePage _ => true
  | Event.addUndoAction _ => true
  | _ => false

/-! ## Saving -/

/-- Jobs passed to `addJob`, with their priorities, in call order. -/
def addedJobs (evs : List Event) : List (Job × JobPriority) :=
  evs.filterMap fun e =>
    match e with
    | Event.addJob job priority => some (job, priority)
    | _ => none

/-- The assignments of `Control::unblock()` behind the test of `isBlocking`: the
controls and the sidebar are enabled again, the busy cursor is cleared, the
status bar is hidden and `isBlocking` is reset.  The widgets reached through the
window, the cursor and the sidebar are the fields of `Control` of the model. -/
def unblocked (s : Control) : Control :=
  { s with controlTmpDisabled := false,
           cursorBusy := false,
           sidebarTmpDisabled := false,
           statusbarVisible := false,
           isBlocking := false }

/-- `Control::unblock()`.  The result is `none` when `this->win->setControlTmpDisabled`
is reached without a window; the sidebar that `disableSidebarTmp` dereferences is
created together with the window (`initWindow`). -/
def unblock (s : Control) : Option Control :=
  if !s.isBlocking then
    some s
  else
    match s.win with
    | none => none
    | some _ => some (unblocked s)

/-- The call `unblock()` that `save` and `exportBase` make.  `isBlocking` is set by
`block` only, which needs the window; as with the other widget calls that are
made inside an operation, the window is not looked at here. -/
def unblockCall (s : Control) : Control :=
  if !s.isBlocking then s else unblocked s

/-- `Control::updateWindowTitle()`; of the title only the star that marks an
unsaved change is kept.  `getPdfFilename` is called only when there is no
filename. -/
def updateWindowTitle (s : Control) : Control :=
  let s1 := s.docLock.emit Event.docGetFilename
  if s1.doc.filename.isEmpty then
    let s2 := s1.emit Event.docGetPdfFilename
    if s2.doc.pdfFilename.isEmpty then
      s2.docUnlock.emit (Event.setWindowTitle false)
    else
      s2.docUnlock.emit (Event.setWindowTitle s2.undoRedo.changed)
  else
    s1.docUnlock.emit (Event.setWindowTitle s1.undoRedo.changed)

/-- `Control::resetSavedStatus()`. -/
def resetSavedStatus (s : Control) : Control :=
  let s1 := (s.docLock.emit Event.docGetFilename).docUnlock
  let filename := s.doc.filename
  let s2 := { s1 with undoRedo := s1.undoRedo.documentSaved,
                      trace := s1.trace ++ [Event.documentSaved] }
  updateWindowTitle (s2.emit (Event.addRecentFile filename))

/-- `Control::showSaveDialog()`; `choice` is what the user does in the file
chooser: `none` when the dialog is left without a file, `some name` for the
file name accepted at the end of the loop. -/
def showSaveDialog (s : Control) (choice : Option String) : Control × Bool :=
  let s1 := ((s.docLock.emit Event.docCreateSaveName).docUnlock).emit Event.showSaveDialog
  match choice with
  | none => (s1, false)
  | some filename =>
    let l := s1.docLock
    (({ l with doc := { l.doc with filename := filename },
               trace := l.trace ++ [Event.docSetFilename filename] }).docUnlock, true)

/-- The part of `Control::save` that follows the filename check.  `jobResult` is
the value that `SaveJob::save()` returns. -/
def saveWithJob (s : Control) (synchron : Bool) (jobResult : Bool) : Control × Bool :=
  if synchron then
    let s1 := s.emit (Event.saveJobSave jobResult)
    (resetSavedStatus (unblockCall s1), jobResult)
  else
    (s.emit (Event.addJob Job.SaveJob JobPriority.JOB_PRIORITY_URGENT), true)

/-- `Control::save(bool synchron)`; `choice` is the outcome of the save dialog, if
it is shown, and `jobResult` the value that `SaveJob::save()` returns, if it is
called. -/
def save (s : Control) (synchron : Bool) (choice : Option String) (jobResult : Bool) :
    Control × Bool :=
  let s0 := clearSelectionEndText s
  let s1 := (s0.docLock.emit Event.docGetFilename).docUnlock
  if s1.doc.filename.isEmpty then
    match showSaveDialog s1 choice with
    | (s2, false) => (s2, false)
    | (s2, true) => saveWithJob s2 synchron jobResult
  else
    saveWithJob s1 synchron jobResult

/-- `Control::autosaveCallback(Control* control)`; the result is the value returned
to the timer (`true`: call again). -/
def autosaveCallback (s : Control) : Control × Bool :=
  if !s.undoRedo.changedAutosave then
    (s, true)
  else
    (s.emit (Event.addJob Job.AutosaveJob JobPriority.JOB_PRIORITY_NONE), true)

/-! ## Blocking the user interface, exporting, autosave files -/

/-- `Control::block(string name)`.  The widgets reached through the window, the
cursor and the sidebar are the fields of `Control` of the model.  The result is
`none` when `win->setControlTmpDisabled` is reached without a window; the sidebar
that `disableSidebarTmp` dereferences is created together with the window. -/
def block (s : Control) (name : String) : Option Control :=
  if s.isBlocking then
    some s
  else
    match s.win with
    | none => none
    | some _ =>
      some { s with controlTmpDisabled := true,
                    cursorBusy := true,
                    sidebarTmpDisabled := true,
                    lbState := name,
                    statusbarVisible := true,
                    maxState := 100,
                    isBlocking := true }

/-- `Control::exportBase(BaseExportJob* job)`; `showFilechooser` is the value that
`job->showFilechooser()` returns. -/
def exportBase (s : Control) (job : Job) (showFilechooser : Bool) : Control :=
  if showFilechooser then
    s.emit (Event.addJob job JobPriority.JOB_PRIORITY_NONE)
  else
    unblockCall s

/-- What the environment answers during one call of `renameLastAutosaveFile`:
the value of `Util::getAutosaveFilename()` after `clearExtensions()`, the function
`Path::getFilename`, whether the last autosave file exists, whether `g_file_copy`
and `g_file_delete` succeed, and the answers for the `save(false)` that is made
when the file does not exist. -/
structure RenameAnswers where
  autosaveBase : String
  fileNameOf : String → String
  fileExists : Bool
  copyOk : Bool
  deleteOk : Bool
  saveChoice : Option String
  saveJobResult : Bool

/-- The name that `renameLastAutosaveFile` copies the last autosave file to.
`filename.str().find_first_of(".") != 0` holds when the path does not start
with a dot. -/
def renamedAutosaveFile (a : RenameAnswers) (filename : String) : String :=
  if filename.data.head? ≠ some '.' then
    a.autosaveBase ++ ".old.autosave.xopp"
  else
    a.autosaveBase ++ a.fileNameOf filename

/-- The second half of `Control::renameLastAutosaveFile()`: the copy with
`g_file_copy`, the deletion of the source with `g_file_delete` when the copy
succeeded, and the report.  The vector `errors` holds at most one message; when
it is not empty one report is handed to `Util::execInUiThread`. -/
def moveAutosaveFile (s : Control) (a : RenameAnswers) (filename renamed : String) : Control :=
  let s1 := s.emit (Event.gFileCopy filename renamed)
  let s2 := if a.copyOk then s1.emit (Event.gFileDelete filename) else s1
  let failed := !a.copyOk || !a.deleteOk
  if failed then s2.emit (Event.showErrorToUser true) else s2

/-- `Control::renameLastAutosaveFile()`. -/
def renameLastAutosaveFile (s : Control) (a : RenameAnswers) : Control :=
  if s.lastAutosaveFilename.isEmpty then
    s
  else
    let filename := s.lastAutosaveFilename
    let renamed := renamedAutosaveFile a filename
    let s1 := s.emit (Event.call "g_message")
    let s2 := if !a.fileExists then (save s1 false a.saveChoice a.saveJobResult).1 else s1
    moveAutosaveFile s2 a filename renamed

/-- Error reports to the user in a sequence of events; `true` marks a report handed
to `Util::execInUiThread`, `false` one shown from the calling context. -/
def errorReports (evs : List Event) : List Bool :=
  evs.filterMap fun e =>
    match e with
    | Event.showErrorToUser inUiThread => some inUiThread
    | _ => none

/-! ## Runs: what a sequence of calls does to the document lock -/

/-- The number of document locks that `Control` holds after a sequence of calls,
starting with `depth` locks held; `none` when `unlock` is called while no lock is
held.  A failed `tryLock` acquires nothing. -/
def lockBalance : Nat → List Event → Option Nat
  | depth, [] => some depth
  | depth, Event.docLock :: rest => lockBalance (depth + 1) rest
  | depth, Event.docTryLock true :: rest => lockBalance (depth + 1) rest
  | depth, Event.docUnlock :: rest => if depth = 0 then none else lockBalance (depth - 1) rest
  | depth, _ :: rest => lockBalance depth rest

/-- Whether a call is a call to the lock of the document. -/
def isLockCall : Event → Bool
  | Event.docLock => true
  | Event.docTryLock _ => true
  | Event.docUnlock => true
  | _ => false

/-- A run from state `s` to state `t`: the trace of `t` is the trace of `s` followed
by calls that all belong to the class `q` and that take the number of held
document locks from `d` to `d'`, with no `unlock` while no lock is held. -/
def RunD (q : Event → Bool) (d d' : Nat) (s t : Control) : Prop :=
  ∃ evs, t.trace = s.trace ++ evs ∧ lockBalance d evs = some d' ∧ ∀ e ∈ evs, q e = true

/-- A run that releases the document lock as often as it acquires it. -/
def Run (q : Event → Bool) (s t : Control) : Prop :=
  RunD q 0 0 s t

/-- Every call except the calls of the shutdown: the calls to the lock of the
scheduler, `removeAllJobs` and `gtk_main_quit`. -/
def notShutdownCall : Event → Bool
  | Event.schedulerLock => false
  | Event.schedulerUnlock => false
  | Event.schedulerRemoveAllJobs => false
  | Event.gtkMainQuit => false
  | _ => true

/-- The calls that `save` can make: no call of the shutdown, no error report, and
of the `addJob` calls only the one for a `SaveJob` with priority
`JOB_PRIORITY_URGENT`. -/
def saveCalls : Event → Bool
  | Event.schedulerLock => false
  | Event.schedulerUnlock => false
  | Event.schedulerRemoveAllJobs => false
  | Event.gtkMainQuit => false
  | Event.showErrorToUser _ => false
  | Event.addJob job priority =>
    decide (job = Job.SaveJob ∧ priority = JobPriority.JOB_PRIORITY_URGENT)
  | _ => true

/-! ## ActionLog: undo and redo -/

/-- Modelled from the spec: `apply()` (redo) and `revert()` (undo) of the
`UndoAction` classes, which are not part of `Control.cpp`: what an action does
to the document. -/
structure UndoSemantics where
  apply : UndoAction → Document → Document
  revert : UndoAction → Document → Document

/-- Modelled from the spec: `UndoRedoHandler::undo`, absent from `Control.cpp`: a
no-op if the cursor is at the start; otherwise calls `revert()` on the action
immediately before the cursor and moves the cursor back one. -/
def UndoRedoHandler.undo (sem : UndoSemantics) (st : UndoRedoHandler × Document) :
    UndoRedoHandler × Document :=
  if st.1.cursor = 0 then
    st
  else
    match st.1.actions[st.1.cursor - 1]? with
    | none => st
    | some a => ({ st.1 with cursor := st.1.cursor - 1 }, sem.revert a st.2)

/-- Modelled from the spec: `UndoRedoHandler::redo`, absent from `Control.cpp`: a
no-op if the cursor is at the end; otherwise calls `apply()` on the action at the
cursor and advances the cursor. -/
def UndoRedoHandler.redo (sem : UndoSemantics) (st : UndoRedoHandler × Document) :
    UndoRedoHandler × Document :=
  match st.1.actions[st.1.cursor]? with
  | none => st
  | some a => ({ st.1 with cursor := st.1.cursor + 1 }, sem.apply a st.2)

/-- The actions that `redo` can replay: those at and beyond the cursor. -/
def UndoRedoHandler.redoable (u : UndoRedoHandler) : List UndoAction :=
  u.actions.drop u.cursor

/-- The actions that `undo` can revert: those before the cursor. -/
def UndoRedoHandler.undoable (u : UndoRedoHandler) : List UndoAction :=
  u.actions.take u.cursor

/-- Change the elements of a layer of a page. -/
def Document.modifyLayer (doc : Document) (layer : LayerRef)
    (f : List Element → List Element) : Document :=
  { doc with pageData := fun p =>
      if p = layer.page then
        { doc.pageData p with layers := (doc.pageData p).layers.modify f layer.index }
      else doc.pageData p }

/-- Put an element into a layer at a position; a negative position is the end. -/
def insertElementAt (pos : Int) (e : Element) (elements : List Element) : List Element :=
  if pos < 0 then elements ++ [e] else elements.insertIdx pos.toNat e

/-- Take the element at a position out of a layer; a negative position is the
end. -/
def removeElementAt (pos : Int) (elements : List Element) : List Element :=
  if pos < 0 then elements.dropLast else elements.eraseIdx pos.toNat

/-- Modelled from the spec: what the actions do to the document.  An insert-page
action inserts its page on `apply()` and removes it on `revert()`; a delete-page
action removes the page on `apply()` and reinserts the page it holds on
`revert()`; insert-element and delete-element actions do the same with the
elements they hold. -/
def documentSemantics : UndoSemantics where
  apply := fun a doc =>
    match a with
    | UndoAction.InsertDeletePageUndoAction (some page) pos true =>
      { doc with pages := doc.pages.insertIdx pos page }
    | UndoAction.InsertDeletePageUndoAction none _ true => doc
    | UndoAction.InsertDeletePageUndoAction _ pos false =>
      { doc with pages := doc.pages.eraseIdx pos }
    | UndoAction.AddUndoAction _ _ entries =>
      entries.foldl (fun d x => d.modifyLayer x.1 (insertElementAt x.2.2 x.2.1)) doc
    | UndoAction.InsertUndoAction _ layer element =>
      doc.modifyLayer layer (insertElementAt (-1) element)
    | UndoAction.DeleteUndoAction _ _ entries =>
      entries.foldl (fun d x => d.modifyLayer x.1 (removeElementAt x.2.2)) doc
  revert := fun a doc =>
    match a with
    | UndoAction.InsertDeletePageUndoAction (some _) pos true =>
      { doc with pages := doc.pages.eraseIdx pos }
    | UndoAction.InsertDeletePageUndoAction none _ true => doc
    | UndoAction.InsertDeletePageUndoAction (some page) pos false =>
      { doc with pages := doc.pages.insertIdx pos page }
    | UndoAction.InsertDeletePageUndoAction none _ false => doc
    | UndoAction.AddUndoAction _ _ entries =>
      entries.foldr (fun x d => d.modifyLayer x.1 (removeElementAt x.2.2)) doc
    | UndoAction.InsertUndoAction _ layer _ =>
      doc.modifyLayer layer (removeElementAt (-1))
    | UndoAction.DeleteUndoAction _ _ entries =>
      entries.foldr (fun x d => d.modifyLayer x.1 (insertElementAt x.2.2 x.2.1)) doc

/-- Modelled from the spec: a job in the queue of the JobScheduler (class
`XournalScheduler` is not part of the sources): the job, its priority, and
whether it is a blocking or a background job. -/
structure QueuedJob where
  job : Job
  priority : JobPriority
  blocking : Bool
  deriving DecidableEq, Repr

/-- The tier of a priority: Urgent before Normal before None. -/
def JobPriority.rank : JobPriority → Nat
  | JobPriority.JOB_PRIORITY_URGENT => 0
  | JobPriority.JOB_PRIORITY_NORMAL => 1
  | JobPriority.JOB_PRIORITY_NONE => 2

/-- Modelled from the spec: `addJob(job, priority)` of the JobScheduler: the job is
queued behind the queued jobs that are at least as urgent and ahead of the less
urgent ones.  The head of the queue is the job that starts next. -/
def schedulerAddJob : List QueuedJob → QueuedJob → List QueuedJob
  | [], j => [j]
  | x :: rest, j =>
    if x.priority.rank ≤ j.priority.rank then x :: schedulerAddJob rest j else j :: x :: rest

/-- The order in which jobs start that were submitted in the given order while
none of them had started. -/
def startOrder (submissions : List QueuedJob) : List QueuedJob :=
  submissions.foldl schedulerAddJob []

/-- The jobs of one priority, in the order of the list. -/
def ofPriority (p : JobPriority) (jobs : List QueuedJob) : List QueuedJob :=
  jobs.filter (fun j => decide (j.priority = p))

/-! ## Closing, quitting, new and loaded documents -/

/-- Default arguments that are declared in `Control.h`, which is not part of the
sources: of `save(bool synchron)`, of `close(allowDestroy, allowCancel)`, of
`fileLoaded(int scrollToPage)` and of `quit(bool allowCancel)`. -/
structure Defaults where
  saveSynchron : Bool
  closeAllowCancel : Bool
  fileLoadedScrollToPage : Int
  quitAllowCancel : Bool

/-- Responses of the dialog that `close` runs. -/
inductive DialogResponse
  | GTK_RESPONSE_ACCEPT
  | GTK_RESPONSE_REJECT
  | GTK_RESPONSE_CANCEL
  | GTK_RESPONSE_DELETE_EVENT
  deriving DecidableEq, Repr

/-- What the user and the environment answer during one call of `close`: whether
the file of the document exists, the response to the dialog, the file chosen
in the save dialog of `saveAs` and of `save`, and the value that
`SaveJob::save()` returns. -/
structure CloseAnswers where
  fileExists : Bool
  response : DialogResponse
  saveAsChoice : Option String
  saveChoice : Option String
  saveJobResult : Bool

/-- What a document that was loaded or is newly built holds, that is what
`*doc = *other` copies. -/
structure LoadedDocument where
  pages : List XojPage
  pageData : XojPage → PageData
  filename : String
  pdfFilename : String

/-- Modelled from the spec: `UndoRedoHandler::canUndo`, absent from `Control.cpp`: there
is an action before the cursor. -/
def UndoRedoHandler.canUndo (u : UndoRedoHandler) : Bool :=
  decide (0 < u.cursor)

/-- Modelled from the spec: `UndoRedoHandler::canRedo`, absent from `Control.cpp`: there
is an action at the cursor. -/
def UndoRedoHandler.canRedo (u : UndoRedoHandler) : Bool :=
  decide (u.cursor < u.actions.length)

/-- Modelled from the spec: `UndoRedoHandler::clearContents`, absent from
`Control.cpp`: empties the ActionLog; with no action left nothing counts as
changed. -/
def UndoRedoHandler.clearContents (_u : UndoRedoHandler) : UndoRedoHandler :=
  { actions := [], cursor := 0, changed := false, changedAutosave := false }

/-- Modelled from the spec: `Document::clearDocument`, absent from `Control.cpp`:
removes the pages and the names of the files. -/
def Document.clearDocument (doc : Document) : Document :=
  { doc with pages := [], filename := "", pdfFilename := "" }

/-- Modelled from the spec: `Document::operator=`, absent from `Control.cpp`: the whole
document is replaced; the lock is not part of what is copied. -/
def Document.assign (doc : Document) (other : LoadedDocument) : Document :=
  { doc with pages := other.pages, pageData := other.pageData, filename := other.filename,
             pdfFilename := other.pdfFilename }

/-- Modelled from the spec: `Document::addPage`, absent from `Control.cpp`: appends the
page; `data` is what the new page owns. -/
def Document.addPage (doc : Document) (page : XojPage) (data : PageData) : Document :=
  { doc with pages := doc.pages ++ [page],
             pageData := fun p => if p = page then data else doc.pageData p }

/-- Modelled from the spec: `Document::insertPage`, absent from `Control.cpp`: inserts
the page at a position. -/
def Document.insertPage (doc : Document) (page : XojPage) (position : Nat) : Document :=
  { doc with pages := doc.pages.insertIdx position page }

/-- Modelled from the spec: `Document::getEvMetadataFilename`, absent from
`Control.cpp`: the filename of the document or, when it has none, the name of the
attached PDF file. -/
def Document.getEvMetadataFilename (doc : Document) : String :=
  if doc.filename.isEmpty then doc.pdfFilename else doc.filename

/-- A new, empty document (`Document newDoc(this)`). -/
def emptyDocument (doc : Document) : LoadedDocument :=
  { pages := [], pageData := doc.pageData, filename := "", pdfFilename := "" }

/-- `Control::undoRedoChanged()`. -/
def undoRedoChanged (s : Control) : Control :=
  let s1 := s.emit (Event.fireEnableAction "ACTION_UNDO" s.undoRedo.canUndo)
  let s2 := s1.emit (Event.fireEnableAction "ACTION_REDO" s.undoRedo.canRedo)
  let s3 := (s2.emit (Event.call "win->setUndoDescription")).emit
    (Event.call "win->setRedoDescription")
  updateWindowTitle s3

/-- `Control::closeDocument()`. -/
def closeDocument (s : Control) : Control :=
  let s1 := { s with undoRedo := s.undoRedo.clearContents,
                     trace := s.trace ++ [Event.undoRedoClearContents] }
  let l := s1.docLock
  let s2 := ({ l with doc := l.doc.clearDocument,
                      trace := l.trace ++ [Event.docClearDocument] }).docUnlock
  undoRedoChanged s2

/-- `Control::saveAs()`; `saveAsChoice` is the outcome of its save dialog, the other
answers are for the `save()` it ends with. -/
def saveAs (s : Control) (dflt : Defaults) (saveAsChoice : Option String)
    (saveChoice : Option String) (jobResult : Bool) : Control × Bool :=
  match showSaveDialog s saveAsChoice with
  | (s1, false) => (s1, false)
  | (s1, true) =>
    let s2 := (s1.docLock.emit Event.docGetFilename).docUnlock
    if s2.doc.filename.isEmpty then
      (s2, false)
    else
      save (s2.emit (Event.call "doc->setCreateBackupOnSave")) dflt.saveSynchron saveChoice
        jobResult

/-- The start of `Control::close`: the selection is cleared, the metadata store is
told, and the filename is read, without the lock, once or, when it is not empty,
twice (`exists()` is evaluated only for a non-empty filename). -/
def closeReadFilename (s : Control) : Control :=
  let s1 := ((clearSelectionEndText s).emit (Event.call "metadata->documentChanged")).emit
    Event.docGetFilename
  if s1.doc.filename.isEmpty then s1 else s1.emit Event.docGetFilename

/-- The decision of `Control::close`, after the filename was read. -/
def closeDecide (s : Control) (dflt : Defaults) (allowDestroy allowCancel : Bool)
    (a : CloseAnswers) : Control × Bool :=
  let fileRemoved := !s.doc.filename.isEmpty && !a.fileExists
  if s.undoRedo.changed then
    let s4 := s.emit (Event.showCloseDialog fileRemoved allowCancel)
    match a.response with
    | DialogResponse.GTK_RESPONSE_ACCEPT =>
      if fileRemoved then
        saveAs s4 dflt a.saveAsChoice a.saveChoice a.saveJobResult
      else
        save s4 true a.saveChoice a.saveJobResult
    | DialogResponse.GTK_RESPONSE_REJECT =>
      if allowDestroy then (closeDocument s4, true) else (s4, true)
    | _ => (s4, false)
  else
    (s, true)

/-- `Control::close(const bool allowDestroy, const bool allowCancel)`. -/
def close (s : Control) (dflt : Defaults) (allowDestroy allowCancel : Bool)
    (a : CloseAnswers) : Control × Bool :=
  closeDecide (closeReadFilename s) dflt allowDestroy allowCancel a

/-- `Control::closeAndDestroy(bool allowCancel)`. -/
def closeAndDestroy (s : Control) (dflt : Defaults) (allowCancel : Bool) (a : CloseAnswers) :
    Control × Bool :=
  match close s dflt false allowCancel a with
  | (s1, retval) => (closeDocument s1, retval)

/-- The end of `Control::quit`, after `closeDocument`: the scheduler is locked, the
recording is stopped, the settings are saved, the queued jobs are removed, the
scheduler is unlocked and the main loop is left. -/
def quitShutdown (s : Control) : Control :=
  let s1 := s.emit Event.schedulerLock
  let s2 := (s1.emit (Event.call "audioController->stopRecording")).emit
    (Event.call "settings->save")
  ((s2.emit Event.schedulerRemoveAllJobs).emit Event.schedulerUnlock).emit Event.gtkMainQuit

/-- `Control::quit(bool allowCancel)`. -/
def quit (s : Control) (dflt : Defaults) (allowCancel : Bool) (a : CloseAnswers) : Control :=
  match close s dflt false allowCancel a with
  | (s1, false) => if !allowCancel then s1.emit Event.emergencySave else s1
  | (s1, true) => quitShutdown (closeDocument s1)

/-- The page is added under the lock (`lock(); addPage(page); unlock()`). -/
def addPageLocked (s : Control) (page : XojPage) (data : PageData) : Control :=
  let l := s.docLock
  ({ l with doc := l.doc.addPage page data,
            trace := l.trace ++ [Event.docAddPage page] }).docUnlock

/-- `Control::addDefaultPage(string pageTemplate)`; `page` is the address of the new
page and `data` what the template gives it. -/
def addDefaultPage (s : Control) (page : XojPage) (data : PageData) : Control :=
  updateDeletePageButton (addPageLocked s page data)

/-- `Control::loadMetadata(MetadataEntry md)`: the callback `loadMetadataCallback` is
registered with `g_idle_add` and runs later. -/
def loadMetadata (s : Control) (md : MetadataEntry) : Control :=
  { s with idleCallbacks := s.idleCallbacks ++ [md],
           trace := s.trace ++ [Event.loadMetadata md.valid md.page] }

/-- The first part of `Control::fileLoaded`: the metadata filename is read under
the lock; with a non-empty filename the stored metadata are adjusted and handed
to `loadMetadata`, otherwise the zoom is set to fit. -/
def fileLoadedMetadata (s : Control) (scrollToPage : Int) (stored : MetadataEntry) :
    Control :=
  let s1 := (s.docLock.emit Event.docGetEvMetadataFilename).docUnlock
  let file := s.doc.getEvMetadataFilename
  if !file.isEmpty then
    let md1 : MetadataEntry := if !stored.valid then { stored with zoom := -1, page := 0 }
      else stored
    let md2 : MetadataEntry := if scrollToPage ≥ 0 then { md1 with page := scrollToPage }
      else md1
    (loadMetadata (s1.emit (Event.call "metadata->getForFile")) md2).emit
      (Event.addRecentFile file)
  else
    (s1.emit (Event.call "zoom->updateZoomFitValue")).emit (Event.call "zoom->setZoomFitMode")

/-- The calls of `Control::fileLoaded` between `updateWindowTitle` and
`updateDeletePageButton`. -/
def fileLoadedRefresh (s : Control) : Control :=
  (s.emit (Event.call "forceUpdatePagenumbers")).emit (Event.call "cursor->updateCursor")

/-- `Control::fileLoaded(int scrollToPage)`; `stored` is the entry that
`metadata->getForFile` returns. -/
def fileLoaded (s : Control) (scrollToPage : Int) (stored : MetadataEntry) : Control :=
  updateDeletePageButton
    (fileLoadedRefresh (updateWindowTitle (fileLoadedMetadata s scrollToPage stored)))

/-- What the user and the environment answer during one call of `newFile`. -/
structure NewFileAnswers where
  close : CloseAnswers
  page : XojPage
  pageData : PageData
  stored : MetadataEntry

/-- The document is replaced by a new, empty one under the lock
(`lock(); *doc = newDoc; unlock()`). -/
def replaceByEmptyDocument (s : Control) : Control :=
  let l := s.docLock
  ({ l with doc := l.doc.assign (emptyDocument l.doc),
            trace := l.trace ++ [Event.docReplace] }).docUnlock

/-- `Control::newFile(string pageTemplate)`. -/
def newFile (s : Control) (dflt : Defaults) (a : NewFileAnswers) : Control × Bool :=
  match close s dflt true dflt.closeAllowCancel a.close with
  | (s1, false) => (s1, false)
  | (s1, true) =>
    (fileLoaded
      ((addDefaultPage (replaceByEmptyDocument s1) a.page a.pageData).emit
        (Event.call "fireDocumentChanged"))
      dflt.fileLoadedScrollToPage a.stored, true)

/-! ## Page and clipboard operations that take the lock -/

/-- `Control::firePageSelected(PageRef page)`; the result is the page number or
`npos`. -/
def firePageSelected (s : Control) (page : XojPage) : Control × Nat :=
  let s1 := (s.docLock.emit (Event.docIndexOf page)).docUnlock
  let pageId := s.doc.indexOf page
  if pageId = npos then
    (s1, npos)
  else
    (s1.emit (Event.callAt "firePageSelected" pageId), pageId)

/-- The first part of `Control::insertPage`: the page is inserted under the lock,
the page-inserted event is fired, the cursor is updated, and the view is
scrolled to the page when less than 10 of it is visible. -/
def insertPageLocked (s : Control) (page : XojPage) (position : Nat) (visibleHeight : Int) :
    Control :=
  let l := s.docLock
  let s1 := ({ l with doc := l.doc.insertPage page position,
                      trace := l.trace ++ [Event.docInsertPage page position] }).docUnlock
  let s2 := ((s1.emit (Event.callAt "firePageInserted" position)).emit
    (Event.call "cursor->updateCursor")).emit (Event.callAt "isPageVisible" position)
  let s3 := if visibleHeight < 10 then
      s2.emit (Event.callAt "execInUiThread scrollToPage" position)
    else s2
  s3.emit (Event.callAt "firePageSelected" position)

/-- `Control::insertPage(const PageRef& page, size_t position)`; `visibleHeight` is
the value that `isPageVisible` writes. -/
def insertPage (s : Control) (page : XojPage) (position : Nat) (visibleHeight : Int) :
    Control :=
  (updateDeletePageButton (insertPageLocked s page position visibleHeight)).addUndoAction
    (UndoAction.InsertDeletePageUndoAction (some page) position true)

/-- The end of `Control::changePageBackgroundColor`, for a page with a plain
background: the dialog, and the new colour when one was chosen. -/
def chooseBackgroundColor (s : Control) (p : XojPage) (pNr : Nat) (color : Int) : Control :=
  let s3 := s.emit (Event.call "SelectBackgroundColorDialog")
  if color ≠ -1 then
    { s3 with
      doc := { s3.doc with pageData := fun q =>
        if q = p then { s3.doc.pageData q with backgroundColor := color }
        else s3.doc.pageData q },
      trace := s3.trace ++ [Event.firePageChanged pNr] }
  else
    s3

/-- `Control::changePageBackgroundColor()`; `color` is the colour that the dialog
returns (`-1`: none). -/
def changePageBackgroundColor (s : Control) (color : Int) : Control :=
  let pNr := getCurrentPageNo s
  let s1 := (s.docLock.emit (Event.docGetPage pNr)).docUnlock
  match s.doc.getPage pNr with
  | none => s1
  | some p =>
    if ((clearSelectionEndText s1).doc.pageData p).specialBackground then
      clearSelectionEndText s1
    else
      chooseBackgroundColor (clearSelectionEndText s1) p pNr color

/-- `Control::print()`. -/
def print (s : Control) : Control :=
  ((s.docLock).emit (Event.callAt "print" (getCurrentPageNo s))).docUnlock

/-- The part of `Control::clipboardPaste` between `lock()` and `setSelection`, for a
valid page: the element is added to the selected layer under the lock, an
`InsertUndoAction` is pushed and a selection with the element is installed. -/
def pasteElement (s : Control) (w : MainWindow) (page : XojPage) (view : Nat) (e : Element) :
    Control :=
  let layer : LayerRef := { page := page, index := (s.doc.pageData page).selectedLayer }
  let s2 := s.emit (Event.call "getPasteTarget")
  let s3 := { s2 with doc := s2.doc.modifyLayer layer (fun es => es ++ [e]),
                      trace := s2.trace ++ [Event.call "layer->addElement"] }
  let s4 := s3.docUnlock.addUndoAction (UndoAction.InsertUndoAction page layer e)
  setSelection s4 w { page := page, view := view, elements := [e] }

/-- `Control::clipboardPaste(Element* e)`.  The result is `none` when the function
dereferences a null pointer: `win->getXournal()` without a window, or
`page->getSelectedLayer()` on an invalid `PageRef`. -/
def clipboardPaste (s : Control) (e : Element) : Option Control :=
  let pageNr := getCurrentPageNo s
  if pageNr = npos then
    some s
  else
    match s.win with
    | none => none
    | some w =>
      match w.viewFor pageNr with
      | none => some s
      | some view =>
        match s.doc.getPage pageNr with
        | none => none
        | some page =>
          some (pasteElement (s.docLock.emit (Event.docGetPage pageNr)) w page view e)

/-- The bound `pageWidth * 3.0 / 4.0` of `clipboardPasteImage`. -/
def threeQuarters (x : Double) : Double :=
  (x.mul (Double.ofInt 3)).div (Double.ofInt 4)

/-- The size in points of a number of pixels at a resolution:
`static_cast<double>(pixels) / dpi * 72.0`. -/
def pixelsToPoints (pixels dpi : Int) : Double :=
  ((Double.ofInt pixels).div (Double.ofInt dpi)).mul (Double.ofInt 72)

/-- The size that `clipboardPasteImage` gives an image of a given size on a page of
a given size. -/
def scaledImageSize (width height pageWidth pageHeight : Double) : Double × Double :=
  let pw := ((pageWidth.mul (Double.ofInt 3)).div (Double.ofInt 4))
  let ph := ((pageHeight.mul (Double.ofInt 3)).div (Double.ofInt 4))
  let first : Double × Double :=
    if width.gt pw then (pw, (pw.mul height).div width) else (width, height)
  if first.2.gt ph then ((ph.mul width).div height, ph) else first

/-- `Control::clipboardPasteImage(GdkPixbuf* img)`; `imgWidth` and `imgHeight` are the
size of the image in pixels and `dpi` the display resolution of the settings.
The result is `none` when `page->getWidth()` is called on an invalid `PageRef`. -/
def clipboardPasteImage (s : Control) (imgWidth imgHeight dpi : Int) : Option Control :=
  let width : Double := pixelsToPoints imgWidth dpi
  let height : Double := pixelsToPoints imgHeight dpi
  let pageNr : Int := toInt (getCurrentPageNo s)
  if pageNr = -1 then
    some s
  else
    let s1 := s.docLock.emit (Event.docGetPage (toSizeT pageNr))
    match s1.doc.getPage (toSizeT pageNr) with
    | none => none
    | some page =>
      let pageWidth : Double := (s1.doc.pageData page).width
      let pageHeight : Double := (s1.doc.pageData page).height
      clipboardPaste s1.docUnlock
        { kind := ElementKind.Image,
          size := some (scaledImageSize width height pageWidth pageHeight) }

/-! ## Opening files -/

/-- The bytes of a string: a `std::string` is a sequence of bytes, and `size()` and
`substr` count bytes. -/
def utf8Bytes (s : String) : List Nat :=
  s.data.flatMap (fun c => (String.utf8EncodeChar c).map UInt8.toNat)

/-- `Control::shouldFileOpen(string filename)`; `toLowerCase` is
`StringUtils::toLowerCase` and `configFolder` the value of
`Util::getConfigSubfolder("")`. -/
def shouldFileOpen (toLowerCase : String → String) (configFolder : String) (s : Control)
    (filename : String) : Control × Bool :=
  let name := utf8Bytes (toLowerCase filename)
  let basename := utf8Bytes (toLowerCase configFolder)
  if basename.length > name.length then
    (s, true)
  else if name.take basename.length = basename then
    (s.emit (Event.showErrorToUser false), false)
  else
    (s, true)

/-- What the user and the environment answer during one call of `annotatePdf`:
the answers for `close`, the file chosen in the open dialog, the document that
`readPdf` builds (`none`: it fails), and the stored metadata. -/
structure AnnotateAnswers where
  close : CloseAnswers
  dialogFile : String
  pdf : Option LoadedDocument
  stored : MetadataEntry

/-- The document is read from the PDF file, with the busy cursor set:
`setFilename("")` and `readPdf`, both without the lock; after a successful read
the file is added to the recent files and the metadata are loaded, after a
failed one the error message is fetched under the lock and shown. -/
def annotatePdfRead (s : Control) (name : String) (a : AnnotateAnswers) : Control :=
  let s2 := s.emit (Event.call "cursor->setCursorBusy true")
  let s3 := { s2 with doc := { s2.doc with filename := "" },
                      trace := s2.trace ++ [Event.docSetFilename ""] }
  match a.pdf with
  | some loaded =>
    let r := { s3 with doc := s3.doc.assign loaded,
                       trace := s3.trace ++ [Event.docReadPdf name true] }
    let r1 := r.emit (Event.addRecentFile name)
    let r2 := (r1.docLock.emit Event.docGetEvMetadataFilename).docUnlock
    loadMetadata (r2.emit (Event.call "metadata->getForFile")) a.stored
  | none =>
    let r := s3.emit (Event.docReadPdf name false)
    let r1 := (r.docLock.emit (Event.call "doc->getLastErrorMsg")).docUnlock
    r1.emit (Event.showErrorToUser false)

/-- The last calls of `Control::annotatePdf`. -/
def annotatePdfFinish (s : Control) : Control :=
  ((s.emit (Event.call "cursor->setCursorBusy false")).emit
    (Event.call "fireDocumentChanged")).emit (Event.call "cursor->updateCursor")

/-- The part of `Control::annotatePdf` after `close`: the file is asked for when none
was given. -/
def annotatePdfChoose (s : Control) (filename : String) (a : AnnotateAnswers) :
    Control × Bool :=
  if filename.isEmpty then
    if a.dialogFile.isEmpty then
      (s.emit (Event.call "showOpenDialog"), false)
    else
      (annotatePdfFinish
        (annotatePdfRead (closeDocument (s.emit (Event.call "showOpenDialog")))
          a.dialogFile a), true)
  else
    (annotatePdfFinish (annotatePdfRead (closeDocument s) filename a), true)

/-- `Control::annotatePdf(Path filename, bool attachPdf, bool attachToDocument)`.
`setFilename` and `readPdf` are called without the lock; the two flags are only
handed on to the open dialog and to `readPdf`. -/
def annotatePdf (s : Control) (dflt : Defaults) (filename : String) (a : AnnotateAnswers) :
    Control × Bool :=
  match close s dflt false dflt.closeAllowCancel a.close with
  | (s1, false) => (s1, false)
  | (s1, true) => annotatePdfChoose s1 filename a

/-- What the user and the environment answer during one call of `loadPdf`. -/
structure LoadPdfAnswers where
  autoloadPdfXoj : Bool
  xopp : Option LoadedDocument
  xoj : Option LoadedDocument
  annotate : AnnotateAnswers
  stored : MetadataEntry

/-- The autoload of `Control::loadPdf`: with the setting on, the `.xopp` file next to
the PDF file is loaded and, when there is none, the `.xoj` file. -/
def loadPdfAutoload (s : Control) (a : LoadPdfAnswers) : Control × Option LoadedDocument :=
  if a.autoloadPdfXoj then
    let s1 := s.emit (Event.call "loadHandler.loadDocument xopp")
    match a.xopp with
    | some d => (s1, some d)
    | none => (s1.emit (Event.call "loadHandler.loadDocument xoj"), a.xoj)
  else (s, none)

/-- The document is replaced by a loaded one under the lock
(`lock(); clearDocument(); *doc = *loaded; unlock()`). -/
def replaceDocument (s : Control) (loaded : LoadedDocument) : Control :=
  let l := s.docLock
  ({ l with doc := (l.doc.clearDocument).assign loaded,
            trace := l.trace ++ [Event.docClearDocument, Event.docReplace] }).docUnlock

/-- `Control::loadPdf(const Path& filename, int scrollToPage)`. -/
def loadPdf (s : Control) (dflt : Defaults) (filename : String) (scrollToPage : Int)
    (a : LoadPdfAnswers) : Control × Bool :=
  match loadPdfAutoload s a with
  | (s2, some tmp) => (fileLoaded (replaceDocument s2 tmp) scrollToPage a.stored, true)
  | (s2, none) =>
    match annotatePdf s2 dflt filename a.annotate with
    | (s3, an) => (fileLoaded s3 scrollToPage a.stored, an)

/-- `Control::loadXoptTemplate(Path filename)`; `contents` is what
`PathUtil::readString` reads (`none`: it fails). -/
def loadXoptTemplate (s : Control) (dflt : Defaults) (contents : Option String)
    (a : NewFileAnswers) : Control × Bool :=
  match contents with
  | none => (s.emit (Event.call "PathUtil::readString"), false)
  | some _ => ((newFile (s.emit (Event.call "PathUtil::readString")) dflt a).1, true)

/-- What the user and the environment answer during one call of `openFile`. -/
structure OpenAnswers where
  toLowerCase : String → String
  configFolder : String
  hasExtension : String → String → Bool
  close : CloseAnswers
  dialogFile : String
  templateContents : Option String
  newFile : NewFileAnswers
  loadPdf : LoadPdfAnswers
  firstLoad : Option LoadedDocument
  attachedPdfMissing : Bool
  missingPdfFilename : String
  missingPdfResponse : Int
  replacementPdf : String
  secondLoad : Option LoadedDocument
  stored : MetadataEntry

/-- The loading of a `.xopp` or `.xoj` file in `Control::openFile`, with the second
chance when a background PDF is missing. -/
def openFileLoadTry (s : Control) (filename : String) (a : OpenAnswers) :
    Control × Option LoadedDocument :=
  let s1 := s.emit (Event.call ("loadHandler.loadDocument " ++ filename))
  if (a.firstLoad.isSome && a.attachedPdfMissing) || !a.missingPdfFilename.isEmpty then
    let s2 := s1.emit (Event.call "missing PDF dialog")
    if a.missingPdfResponse = 2 then
      (s2.emit (Event.call "loadHandler.loadDocument"), a.secondLoad)
    else if a.missingPdfResponse = 1 then
      let s3 := s2.emit (Event.call "showOpenDialog")
      if !a.replacementPdf.isEmpty then
        (s3.emit (Event.call "loadHandler.loadDocument"), a.secondLoad)
      else (s3, a.firstLoad)
    else (s2, a.firstLoad)
  else (s1, a.firstLoad)

/-- The part of `Control::openFile` that loads a `.xopp` or `.xoj` file, after the
current document was closed. -/
def openFileLoad (s : Control) (filename : String) (scrollToPage : Int) (a : OpenAnswers) :
    Control × Bool :=
  match openFileLoadTry s filename a with
  | (s4, none) =>
    (fileLoaded (s4.emit (Event.showErrorToUser false)) scrollToPage a.stored, false)
  | (s4, some loaded) =>
    (fileLoaded ((replaceDocument s4 loaded).emit (Event.call "settings->setLastSavePath"))
      scrollToPage a.stored, true)

/-- The part of `Control::openFile` after the file name is known: the document is
closed and the file is loaded according to its extension. -/
def openFileDispatch (s : Control) (dflt : Defaults) (name : String) (scrollToPage : Int)
    (a : OpenAnswers) : Control × Bool :=
  if a.hasExtension name ".xopt" then
    loadXoptTemplate (closeDocument s) dflt a.templateContents a.newFile
  else if a.hasExtension name ".pdf" then
    loadPdf (closeDocument s) dflt name scrollToPage a.loadPdf
  else
    openFileLoad (closeDocument s) name scrollToPage a

/-- The part of `Control::openFile` after `close`: the file is asked for when none was
given, and the chosen file is checked with `shouldFileOpen`. -/
def openFileChoose (s : Control) (dflt : Defaults) (filename : String) (scrollToPage : Int)
    (a : OpenAnswers) : Control × Bool :=
  if filename.isEmpty then
    if a.dialogFile.isEmpty then
      ((s.emit (Event.call "showOpenDialog")).emit (Event.call "g_message"), false)
    else
      match shouldFileOpen a.toLowerCase a.configFolder
          ((s.emit (Event.call "showOpenDialog")).emit (Event.call "g_message"))
          a.dialogFile with
      | (s3, false) => (s3, false)
      | (s3, true) => openFileDispatch s3 dflt a.dialogFile scrollToPage a
  else
    openFileDispatch s dflt filename scrollToPage a

/-- The part of `Control::openFile` after the first check. -/
def openFileClose (s : Control) (dflt : Defaults) (filename : String) (scrollToPage : Int)
    (a : OpenAnswers) : Control × Bool :=
  match close s dflt false dflt.closeAllowCancel a.close with
  | (s1, false) => (s1, false)
  | (s1, true) => openFileChoose s1 dflt filename scrollToPage a

/-- `Control::openFile(Path filename, int scrollToPage, bool forceOpen)`. -/
def openFile (s : Control) (dflt : Defaults) (filename : String) (scrollToPage : Int)
    (forceOpen : Bool) (a : OpenAnswers) : Control × Bool :=
  if forceOpen then
    openFileClose s dflt filename scrollToPage a
  else
    match shouldFileOpen a.toLowerCase a.configFolder s filename with
    | (s1, false) => (s1, false)
    | (s1, true) => openFileClose s1 dflt filename scrollToPage a

/-! ## Lock order at shutdown -/

/-- The lock order of the shutdown, checked on a sequence of calls; `depth` counts
the document locks that `Control` holds and `held` tells whether it holds the lock
of the scheduler.  The lock of the scheduler is acquired only while `Control` holds
neither a document lock nor the lock of the scheduler; no `lock` and no `tryLock`
of the document is requested while the lock of the scheduler is held; the lock of
the scheduler is released only while it is held; `gtk_main_quit` is called only
while it is not held; and it is not held at the end. -/
def shutdownOrder : Nat → Bool → List Event → Bool
  | _, held, [] => !held
  | depth, held, Event.schedulerLock :: rest =>
    !held && decide (depth = 0) && shutdownOrder depth true rest
  | depth, held, Event.schedulerUnlock :: rest => held && shutdownOrder depth false rest
  | depth, held, Event.gtkMainQuit :: rest => !held && shutdownOrder depth held rest
  | depth, held, Event.docLock :: rest => !held && shutdownOrder (depth + 1) held rest
  | depth, held, Event.docTryLock true :: rest => !held && shutdownOrder (depth + 1) held rest
  | depth, held, Event.docTryLock false :: rest => !held && shutdownOrder depth held rest
  | depth, held, Event.docUnlock :: rest => shutdownOrder (depth - 1) held rest
  | depth, held, _ :: rest => shutdownOrder depth held rest

/-- The calls at the end of `quit`, from `scheduler->lock()` on. -/
def shutdownCalls : List Event :=
  [Event.schedulerLock, Event.call "audioController->stopRecording",
   Event.call "settings->save", Event.schedulerRemoveAllJobs, Event.schedulerUnlock,
   Event.gtkMainQuit]

/-- Whether an operation that takes the state from `s` to `t` acquires the lock of
the scheduler. -/
def acquiresSchedulerLock (s t : Control) : Prop :=
  Event.schedulerLock ∈ emitted s t

/-! ## The destructor and sequences of calls to the change aggregation -/

/-- `Control::enableAutosave(bool enable)`; `source` is the id that
`g_timeout_add_seconds` returns.  The field `autosaveTimeout` is 0 when there is
no timer. -/
def enableAutosave (s : Control) (enable : Bool) (source : Nat) : Control :=
  let s1 := if s.autosaveTimeout ≠ 0 then
      { s.emit (Event.call "g_source_remove") with autosaveTimeout := 0 }
    else s
  if enable then
    { (s1.emit (Event.call "settings->getAutosaveTimeout")).emit
        (Event.call "g_timeout_add_seconds") with autosaveTimeout := source }
  else s1

/-- `Control::deleteLastAutosaveFile(Path newAutosaveFile)`. -/
def deleteLastAutosaveFile (s : Control) (newAutosaveFile : String) : Control :=
  let s1 := if !s.lastAutosaveFilename.isEmpty then s.emit (Event.call "g_unlink") else s
  { s1 with lastAutosaveFilename := newAutosaveFile }

/-- `Control::~Control()`: the timers are removed, the last autosave file is deleted,
the scheduler is stopped, every page that is still pending is unreferenced, and
four collaborators are deleted. -/
def Control.destructor (s : Control) : Control :=
  let s1 := s.emit (Event.call "g_source_remove")
  let s2 := deleteLastAutosaveFile (enableAutosave s1 false 0) ""
  let s3 := s2.emit (Event.call "scheduler->stop")
  let s4 := s3.changedPages.foldl (fun t page => t.emit (Event.pageUnreference page)) s3
  (((s4.emit (Event.call "delete pluginController")).emit
    (Event.call "delete clipboardHandler")).emit (Event.call "delete recent")).emit
    (Event.call "delete fullscreenHandler")

/-- A call that reaches the change aggregation: `undoRedoPageChanged(page)` after an
edit, or `checkChangedDocument` from the timer at a moment at which the document
lock has the given holder. -/
inductive AggregatorCall
  | undoRedoPageChanged (page : XojPage)
  | checkChangedDocument (holder : LockHolder)
  deriving DecidableEq, Repr

/-- One call to the change aggregation. -/
def aggregatorStep (s : Control) : AggregatorCall → Control
  | AggregatorCall.undoRedoPageChanged page => undoRedoPageChanged s page
  | AggregatorCall.checkChangedDocument holder =>
    (checkChangedDocument { s with doc := { s.doc with holder := holder } }).1

/-- A sequence of calls to the change aggregation. -/
def aggregatorRun (s : Control) (calls : List AggregatorCall) : Control :=
  calls.foldl aggregatorStep s

/-- The pending pages are distinct and, in the calls made since `s0`, each has one
reference more than unreferences, every other page as many. -/
def aggregatorBalanced (s0 s : Control) : Prop :=
  s.changedPages.Nodup ∧ ∃ evs, s.trace = s0.trace ++ evs
    ∧ ∀ p, refBalance evs p = if p ∈ s.changedPages then 1 else 0

/-! ## The metadata callback -/

/-- What the zoom control answers during `loadMetadataCallback`:
`isZoomPresentationMode()` and `isZoomFitMode()`. -/
structure ZoomAnswers where
  presentationMode : Bool
  fitMode : Bool

/-- `Control::loadMetadataCallback(MetadataCallbackData* data)`, which the main loop
runs for an entry that `loadMetadata` has queued; the result is the value
returned to the main loop (`false`: do not call again).  `md.page` is an `int` and
`scrollToPage` takes a `size_t`. -/
def loadMetadataCallback (s : Control) (md : MetadataEntry) (z : ZoomAnswers) :
    Control × Bool :=
  if !md.valid then
    (s, false)
  else
    let s1 :=
      if z.presentationMode then
        s.emit (Event.call "setViewPresentationMode true")
      else if z.fitMode then
        (s.emit (Event.call "zoom->updateZoomFitValue")).emit
          (Event.call "zoom->setZoomFitMode true")
      else
        (s.emit (Event.call "zoom->setZoomFitMode false")).emit (Event.call "zoom->setZoom")
    (s1.emit (Event.scrollToPage (md.page % 2 ^ 64).toNat), false)

/-- The main loop runs the callbacks that `g_idle_add` has queued, in the order in
which they were added; a callback that returns `false` is not called again. -/
def runIdleCallbacks (s : Control) (z : ZoomAnswers) : Control :=
  s.idleCallbacks.foldl (fun t md => (loadMetadataCallback t md z).1)
    { s with idleCallbacks := [] }

/-! ## Tool sizes -/

/-- What the tool handler answers: `getToolType()`, `getSize()` (the size of the
current tool), `getPenSize()`, `getEraserSize()` and `getHilighterSize()`. -/
structure ToolAnswers where
  toolType : ToolType
  size : ToolSize
  penSize : ToolSize
  eraserSize : ToolSize
  hilighterSize : ToolSize

/-- `Control::eraserSizeChanged()`. -/
def eraserSizeChanged (s : Control) (t : ToolAnswers) : Control :=
  match t.eraserSize with
  | ToolSize.TOOL_SIZE_FINE =>
    s.emit (Event.fireActionSelected ActionGroup.GROUP_ERASER_SIZE
      ActionType.ACTION_TOOL_ERASER_SIZE_FINE)
  | ToolSize.TOOL_SIZE_MEDIUM =>
    s.emit (Event.fireActionSelected ActionGroup.GROUP_ERASER_SIZE
      ActionType.ACTION_TOOL_ERASER_SIZE_MEDIUM)
  | ToolSize.TOOL_SIZE_THICK =>
    s.emit (Event.fireActionSelected ActionGroup.GROUP_ERASER_SIZE
      ActionType.ACTION_TOOL_ERASER_SIZE_THICK)
  | _ => s

/-- `Control::penSizeChanged()`. -/
def penSizeChanged (s : Control) (t : ToolAnswers) : Control :=
  match t.penSize with
  | ToolSize.TOOL_SIZE_VERY_FINE =>
    s.emit (Event.fireActionSelected ActionGroup.GROUP_PEN_SIZE
      ActionType.ACTION_TOOL_PEN_SIZE_VERY_THIN)
  | ToolSize.TOOL_SIZE_FINE =>
    s.emit (Event.fireActionSelected ActionGroup.GROUP_PEN_SIZE
      ActionType.ACTION_TOOL_PEN_SIZE_FINE)
  | ToolSize.TOOL_SIZE_MEDIUM =>
    s.emit (Event.fireActionSelected ActionGroup.GROUP_PEN_SIZE
      ActionType.ACTION_TOOL_PEN_SIZE_MEDIUM)
  | ToolSize.TOOL_SIZE_THICK =>
    s.emit (Event.fireActionSelected ActionGroup.GROUP_PEN_SIZE
      ActionType.ACTION_TOOL_PEN_SIZE_THICK)
  | ToolSize.TOOL_SIZE_VERY_THICK =>
    s.emit (Event.fireActionSelected ActionGroup.GROUP_PEN_SIZE
      ActionType.ACTION_TOOL_PEN_SIZE_VERY_THICK)
  | _ => s

/-- `Control::hilighterSizeChanged()`. -/
def hilighterSizeChanged (s : Control) (t : ToolAnswers) : Control :=
  match t.hilighterSize with
  | ToolSize.TOOL_SIZE_FINE =>
    s.emit (Event.fireActionSelected ActionGroup.GROUP_HILIGHTER_SIZE
      ActionType.ACTION_TOOL_HILIGHTER_SIZE_FINE)
  | ToolSize.TOOL_SIZE_MEDIUM =>
    s.emit (Event.fireActionSelected ActionGroup.GROUP_HILIGHTER_SIZE
      ActionType.ACTION_TOOL_HILIGHTER_SIZE_MEDIUM)
  | ToolSize.TOOL_SIZE_THICK =>
    s.emit (Event.fireActionSelected ActionGroup.GROUP_HILIGHTER_SIZE
      ActionType.ACTION_TOOL_HILIGHTER_SIZE_THICK)
  | _ => s

/-- The action that the `switch` of `Control::toolSizeChanged()` selects in
`GROUP_SIZE` for a tool size. -/
def toolSizeAction : ToolSize → ActionType
  | ToolSize.TOOL_SIZE_NONE => ActionType.ACTION_NONE
  | ToolSize.TOOL_SIZE_VERY_FINE => ActionType.ACTION_SIZE_VERY_THICK
  | ToolSize.TOOL_SIZE_FINE => ActionType.ACTION_SIZE_FINE
  | ToolSize.TOOL_SIZE_MEDIUM => ActionType.ACTION_SIZE_MEDIUM
  | ToolSize.TOOL_SIZE_THICK => ActionType.ACTION_SIZE_THICK
  | ToolSize.TOOL_SIZE_VERY_THICK => ActionType.ACTION_SIZE_VERY_THIN

/-- `Control::toolSizeChanged()`. -/
def toolSizeChanged (s : Control) (t : ToolAnswers) : Control :=
  let s1 :=
    if t.toolType = ToolType.TOOL_PEN then penSizeChanged s t
    else if t.toolType = ToolType.TOOL_ERASER then eraserSizeChanged s t
    else if t.toolType = ToolType.TOOL_HILIGHTER then hilighterSizeChanged s t
    else s
  (s1.emit (Event.fireActionSelected ActionGroup.GROUP_SIZE (toolSizeAction t.size))).emit
    (Event.call "cursor->updateCursor")

/-- `Control::setToolSize(ToolSize size)`.  `sizeAction` is the undo action that
`sel->setSize(...)` returns (`none`: a null pointer), used when there is a
selection. -/
def setToolSize (s : Control) (size : ToolSize) (sizeAction : Option UndoAction) : Control :=
  let s1 :=
    match s.win with
    | none => s
    | some w =>
      match w.selection with
      | none => s
      | some _ =>
        match sizeAction with
        | some action => (s.emit (Event.call "sel->setSize")).addUndoAction action
        | none =>
          (s.emit (Event.call "sel->setSize")).emit (Event.call "undoRedo->addUndoAction nullptr")
  s1.emit (Event.toolHandlerSetSize ActionGroup.GROUP_SIZE size)

/-- The cases of `Control::actionPerformed` for the tool size actions and for
`ACTION_QUIT`, with the start and the end of the function; the other cases of the
`switch` are not modelled, and their action types are not among those of
`ActionType`.  `layerHandled` is the value that
`layerController->actionPerformed(type)` returns, `a` are the answers during the
`quit()` of `ACTION_QUIT`.  `ACTION_NONE` has no case and reaches `default`.  The
test after the `switch` holds for the tool actions `ACTION_TOOL_PEN` to
`ACTION_TOOL_HAND` only, which are not among the action types of this model. -/
def actionPerformed (s : Control) (t : ToolAnswers) (type : ActionType) (enabled : Bool)
    (layerHandled : Bool) (sizeAction : Option UndoAction) (dflt : Defaults)
    (a : CloseAnswers) : Control :=
  let s0 := s.emit (Event.call "layerController->actionPerformed")
  if layerHandled then
    s0
  else
    match type with
    | ActionType.ACTION_QUIT => quit s0 dflt dflt.quitAllowCancel a
    | ActionType.ACTION_SIZE_VERY_THIN =>
      if enabled then setToolSize s0 ToolSize.TOOL_SIZE_VERY_FINE sizeAction else s0
    | ActionType.ACTION_SIZE_FINE =>
      if enabled then setToolSize s0 ToolSize.TOOL_SIZE_FINE sizeAction else s0
    | ActionType.ACTION_SIZE_MEDIUM =>
      if enabled then setToolSize s0 ToolSize.TOOL_SIZE_MEDIUM sizeAction else s0
    | ActionType.ACTION_SIZE_THICK =>
      if enabled then setToolSize s0 ToolSize.TOOL_SIZE_THICK sizeAction else s0
    | ActionType.ACTION_SIZE_VERY_THICK =>
      if enabled then setToolSize s0 ToolSize.TOOL_SIZE_VERY_THICK sizeAction else s0
    | ActionType.ACTION_TOOL_ERASER_SIZE_FINE =>
      if enabled then
        eraserSizeChanged (s0.emit (Event.toolHandlerSetSize ActionGroup.GROUP_ERASER_SIZE
          ToolSize.TOOL_SIZE_FINE)) t
      else s0
    | ActionType.ACTION_TOOL_ERASER_SIZE_MEDIUM =>
      if enabled then
        eraserSizeChanged (s0.emit (Event.toolHandlerSetSize ActionGroup.GROUP_ERASER_SIZE
          ToolSize.TOOL_SIZE_MEDIUM)) t
      else s0
    | ActionType.ACTION_TOOL_ERASER_SIZE_THICK =>
      if enabled then
        eraserSizeChanged (s0.emit (Event.toolHandlerSetSize ActionGroup.GROUP_ERASER_SIZE
          ToolSize.TOOL_SIZE_THICK)) t
      else s0
    | ActionType.ACTION_TOOL_PEN_SIZE_VERY_THIN =>
      if enabled then
        penSizeChanged (s0.emit (Event.toolHandlerSetSize ActionGroup.GROUP_PEN_SIZE
          ToolSize.TOOL_SIZE_VERY_FINE)) t
      else s0
    | ActionType.ACTION_TOOL_PEN_SIZE_FINE =>
      if enabled then
        penSizeChanged (s0.emit (Event.toolHandlerSetSize ActionGroup.GROUP_PEN_SIZE
          ToolSize.TOOL_SIZE_FINE)) t
      else s0
    | ActionType.ACTION_TOOL_PEN_SIZE_MEDIUM =>
      if enabled then
        penSizeChanged (s0.emit (Event.toolHandlerSetSize ActionGroup.GROUP_PEN_SIZE
          ToolSize.TOOL_SIZE_MEDIUM)) t
      else s0
    | ActionType.ACTION_TOOL_PEN_SIZE_THICK =>
      if enabled then
        penSizeChanged (s0.emit (Event.toolHandlerSetSize ActionGroup.GROUP_PEN_SIZE
          ToolSize.TOOL_SIZE_THICK)) t
      else s0
    | ActionType.ACTION_TOOL_PEN_SIZE_VERY_THICK =>
      if enabled then
        penSizeChanged (s0.emit (Event.toolHandlerSetSize ActionGroup.GROUP_PEN_SIZE
          ToolSize.TOOL_SIZE_VERY_THICK)) t
      else s0
    | ActionType.ACTION_TOOL_HILIGHTER_SIZE_FINE =>
      if enabled then
        hilighterSizeChanged (s0.emit (Event.toolHandlerSetSize ActionGroup.GROUP_HILIGHTER_SIZE
          ToolSize.TOOL_SIZE_FINE)) t
      else s0
    | ActionType.ACTION_TOOL_HILIGHTER_SIZE_MEDIUM =>
      if enabled then
        hilighterSizeChanged (s0.emit (Event.toolHandlerSetSize ActionGroup.GROUP_HILIGHTER_SIZE
          ToolSize.TOOL_SIZE_MEDIUM)) t
      else s0
    | ActionType.ACTION_TOOL_HILIGHTER_SIZE_THICK =>
      if enabled then
        hilighterSizeChanged (s0.emit (Event.toolHandlerSetSize ActionGroup.GROUP_HILIGHTER_SIZE
          ToolSize.TOOL_SIZE_THICK)) t
      else s0
    | ActionType.ACTION_NONE => (s0.emit Event.warning).emit (Event.call "printStracktrace")

/-! ## The calls of saving and closing -/

/-- The calls that `save` and `saveAs` can make, for the decisions of `close` and
`quit`: no call of the shutdown, no emergency save, no close dialog, no clearing
of the undo log or of the document, and not `settings->save()`. -/
def savingCalls : Event → Bool
  | Event.schedulerLock => false
  | Event.schedulerUnlock => false
  | Event.schedulerRemoveAllJobs => false
  | Event.gtkMainQuit => false
  | Event.emergencySave => false
  | Event.showCloseDialog _ _ => false
  | Event.undoRedoClearContents => false
  | Event.docClearDocument => false
  | Event.call name => name != "settings->save"
  | _ => true

/-- The calls that `close` can make: no call of the shutdown, no emergency save, and
not `settings->save()`. -/
def closingCalls : Event → Bool
  | Event.schedulerLock => false
  | Event.schedulerUnlock => false
  | Event.schedulerRemoveAllJobs => false
  | Event.gtkMainQuit => false
  | Event.emergencySave => false
  | Event.call name => name != "settings->save"
  | _ => true

/-! ## The modelled operations -/

/-- The operations of `Control` that are modelled here, each with the answers of the
user and of the environment during the call; `actionPerformed` for the action
types of `ActionType`. -/
inductive Operation
  | checkChangedDocument
  | undoRedoPageChanged (page : XojPage)
  | clearSelectionEndText
  | clipboardPasteXournal (projectString : String) (input : ObjectInputStream)
  | updateDeletePageButton
  | deletePage
  | getCurrentPage
  | paperFormat (width height : Double)
  | updatePageNumbers (page pdfPage : Nat)
  | unblock
  | updateWindowTitle
  | resetSavedStatus
  | showSaveDialog (choice : Option String)
  | save (synchron : Bool) (choice : Option String) (jobResult : Bool)
  | autosaveCallback
  | block (name : String)
  | exportBase (job : Job) (showFilechooser : Bool)
  | renameLastAutosaveFile (a : RenameAnswers)
  | undoRedoChanged
  | closeDocument
  | saveAs (dflt : Defaults) (saveAsChoice saveChoice : Option String) (jobResult : Bool)
  | close (dflt : Defaults) (allowDestroy allowCancel : Bool) (a : CloseAnswers)
  | closeAndDestroy (dflt : Defaults) (allowCancel : Bool) (a : CloseAnswers)
  | quit (dflt : Defaults) (allowCancel : Bool) (a : CloseAnswers)
  | addDefaultPage (page : XojPage) (data : PageData)
  | loadMetadata (md : MetadataEntry)
  | fileLoaded (scrollToPage : Int) (stored : MetadataEntry)
  | newFile (dflt : Defaults) (a : NewFileAnswers)
  | firePageSelected (page : XojPage)
  | insertPage (page : XojPage) (position : Nat) (visibleHeight : Int)
  | changePageBackgroundColor (color : Int)
  | print
  | clipboardPaste (e : Element)
  | clipboardPasteImage (imgWidth imgHeight dpi : Int)
  | shouldFileOpen (toLowerCase : String → String) (configFolder filename : String)
  | annotatePdf (dflt : Defaults) (filename : String) (a : AnnotateAnswers)
  | loadPdf (dflt : Defaults) (filename : String) (scrollToPage : Int) (a : LoadPdfAnswers)
  | loadXoptTemplate (dflt : Defaults) (contents : Option String) (a : NewFileAnswers)
  | openFile (dflt : Defaults) (filename : String) (scrollToPage : Int) (forceOpen : Bool)
      (a : OpenAnswers)
  | enableAutosave (enable : Bool) (source : Nat)
  | deleteLastAutosaveFile (newAutosaveFile : String)
  | destructor
  | loadMetadataCallback (md : MetadataEntry) (z : ZoomAnswers)
  | eraserSizeChanged (t : ToolAnswers)
  | penSizeChanged (t : ToolAnswers)
  | hilighterSizeChanged (t : ToolAnswers)
  | toolSizeChanged (t : ToolAnswers)
  | setToolSize (size : ToolSize) (sizeAction : Option UndoAction)
  | actionPerformed (t : ToolAnswers) (type : ActionType) (enabled layerHandled : Bool)
      (sizeAction : Option UndoAction) (dflt : Defaults) (a : CloseAnswers)

/-- The state after an operation; `none` when the operation does not return. -/
def runOperation (s : Control) : Operation → Option Control
  | Operation.checkChangedDocument => some (checkChangedDocument s).1
  | Operation.undoRedoPageChanged page => some (undoRedoPageChanged s page)
  | Operation.clearSelectionEndText => some (clearSelectionEndText s)
  | Operation.clipboardPasteXournal projectString input =>
    clipboardPasteXournal projectString s input
  | Operation.updateDeletePageButton => some (updateDeletePageButton s)
  | Operation.deletePage => some (deletePage s)
  | Operation.getCurrentPage => some (getCurrentPage s).1
  | Operation.paperFormat width height => paperFormat s width height
  | Operation.updatePageNumbers page pdfPage => some (updatePageNumbers s page pdfPage)
  | Operation.unblock => unblock s
  | Operation.updateWindowTitle => some (updateWindowTitle s)
  | Operation.resetSavedStatus => some (resetSavedStatus s)
  | Operation.showSaveDialog choice => some (showSaveDialog s choice).1
  | Operation.save synchron choice jobResult => some (save s synchron choice jobResult).1
  | Operation.autosaveCallback => some (autosaveCallback s).1
  | Operation.block name => block s name
  | Operation.exportBase job showFilechooser => some (exportBase s job showFilechooser)
  | Operation.renameLastAutosaveFile a => some (renameLastAutosaveFile s a)
  | Operation.undoRedoChanged => some (undoRedoChanged s)
  | Operation.closeDocument => some (closeDocument s)
  | Operation.saveAs dflt saveAsChoice saveChoice jobResult =>
    some (saveAs s dflt saveAsChoice saveChoice jobResult).1
  | Operation.close dflt allowDestroy allowCancel a =>
    some (close s dflt allowDestroy allowCancel a).1
  | Operation.closeAndDestroy dflt allowCancel a => some (closeAndDestroy s dflt allowCancel a).1
  | Operation.quit dflt allowCancel a => some (quit s dflt allowCancel a)
  | Operation.addDefaultPage page data => some (addDefaultPage s page data)
  | Operation.loadMetadata md => some (loadMetadata s md)
  | Operation.fileLoaded scrollToPage stored => some (fileLoaded s scrollToPage stored)
  | Operation.newFile dflt a => some (newFile s dflt a).1
  | Operation.firePageSelected page => some (firePageSelected s page).1
  | Operation.insertPage page position visibleHeight =>
    some (insertPage s page position visibleHeight)
  | Operation.changePageBackgroundColor color => some (changePageBackgroundColor s color)
  | Operation.print => some (print s)
  | Operation.clipboardPaste e => clipboardPaste s e
  | Operation.clipboardPasteImage imgWidth imgHeight dpi =>
    clipboardPasteImage s imgWidth imgHeight dpi
  | Operation.shouldFileOpen toLowerCase configFolder filename =>
    some (shouldFileOpen toLowerCase configFolder s filename).1
  | Operation.annotatePdf dflt filename a => some (annotatePdf s dflt filename a).1
  | Operation.loadPdf dflt filename scrollToPage a =>
    some (loadPdf s dflt filename scrollToPage a).1
  | Operation.loadXoptTemplate dflt contents a => some (loadXoptTemplate s dflt contents a).1
  | Operation.openFile dflt filename scrollToPage forceOpen a =>
    some (openFile s dflt filename scrollToPage forceOpen a).1
  | Operation.enableAutosave enable source => some (enableAutosave s enable source)
  | Operation.deleteLastAutosaveFile newAutosaveFile =>
    some (deleteLastAutosaveFile s newAutosaveFile)
  | Operation.destructor => some s.destructor
  | Operation.loadMetadataCallback md z => some (loadMetadataCallback s md z).1
  | Operation.eraserSizeChanged t => some (eraserSizeChanged s t)
  | Operation.penSizeChanged t => some (penSizeChanged s t)
  | Operation.hilighterSizeChanged t => some (hilighterSizeChanged s t)
  | Operation.toolSizeChanged t => some (toolSizeChanged s t)
  | Operation.setToolSize size sizeAction => some (setToolSize s size sizeAction)
  | Operation.actionPerformed t type enabled layerHandled sizeAction dflt a =>
    some (actionPerformed s t type enabled layerHandled sizeAction dflt a)

/-- The calls that `close` can make when it does not call `closeDocument`: those of
saving, and the close dialog. -/
def askingCalls : Event → Bool
  | Event.showCloseDialog _ _ => true
  | e => savingCalls e

/-! ## Accesses under the document lock -/

/-- The structural reads and writes of the document other than the read of the page
count: `getPage`, `indexOf`, `addPage`, `insertPage`, `deletePage`, `setPageSize`,
`setFilename`, `readPdf`, `clearDocument` and the replacement of the whole
document. -/
def isLockedAccess : Event → Bool
  | Event.docGetPage _ => true
  | Event.docIndexOf _ => true
  | Event.docDeletePage _ => true
  | Event.docSetPageSize _ _ _ => true
  | Event.docSetFilename _ => true
  | Event.docClearDocument => true
  | Event.docReplace => true
  | Event.docAddPage _ => true
  | Event.docInsertPage _ _ => true
  | Event.docReadPdf _ _ => true
  | _ => false

/-- The accesses of `isLockedAccess` other than `indexOf`. -/
def isLockedAccessOfPaperFormat : Event → Bool
  | Event.docIndexOf _ => false
  | e => isLockedAccess e

/-- The state that the constructor `Control::Control` builds: an empty document,
an empty undo log, no pending page, no window yet, not blocking. -/
def newControl : Control :=
  { doc := { pages := [], pageData := fun _ =>
               { width := Double.ofInt 595, height := Double.ofInt 842, pdfBackground := false, layers := [[]],
                 selectedLayer := 0 },
             filename := "", pdfFilename := "", holder := LockHolder.free },
    undoRedo := { actions := [], cursor := 0, changed := false, changedAutosave := false },
    changedPages := [],
    win := none,
    isBlocking := false,
    controlTmpDisabled := false,
    cursorBusy := false,
    sidebarTmpDisabled := false,
    statusbarVisible := false,
    lbState := "",
    maxState := 0,
    trace := [] }

/-- A document with the three pages 10, 11, 12 and an open window on page 1. -/
def threePages : Control :=
  { newControl with
    doc := { newControl.doc with pages := [10, 11, 12] },
    win := some { currentPage := 1, viewFor := fun n => if n < 3 then some n else none,
                  selection := none } }

/-- A document with the one page 10, of 500 by 500 points, and an open window on it. -/
def squarePage : Control :=
  { newControl with
    doc := { newControl.doc with
             pages := [10],
             pageData := fun _ =>
               { width := Double.ofInt 500, height := Double.ofInt 500, pdfBackground := false,
                 layers := [[]], selectedLayer := 0 } },
    win := some { currentPage := 0, viewFor := fun n => if n < 1 then some n else none,
                  selection := none } }

/-- Pages 12, 99 and 10 pending (99 is not in the document), lock free. -/
def pendingFree : Control :=
  { threePages with changedPages := [12, 99, 10] }

/-- Pages 12, 99 and 10 pending while a worker holds the document lock. -/
def pendingBusy : Control :=
  { pendingFree with doc := { pendingFree.doc with holder := LockHolder.other } }

/-- A payload with two objects, the second of an unknown kind. -/
def unknownKindPayload : ObjectInputStream :=
  [StreamItem.string "1.0", StreamItem.selection, StreamItem.int 2,
   StreamItem.object "Stroke" true, StreamItem.object "Circle" true]

/-- A payload of two strokes. -/
def twoStrokesPayload : ObjectInputStream :=
  [StreamItem.string "1.0", StreamItem.selection, StreamItem.int 2,
   StreamItem.object "Stroke" true, StreamItem.object "Stroke" true]

/-- The state after pasting `unknownKindPayload` into `threePages`: the lock was
taken and released, a warning was logged. -/
def threePagesAfterFailedPaste : Control :=
  { threePages with
    trace := [Event.docLock, Event.docGetPage 1, Event.docUnlock, Event.warning] }

/-- The state after pasting an empty payload into `threePages`. -/
def threePagesLockKept : Control :=
  { threePages with
    doc := { threePages.doc with holder := LockHolder.control },
    trace := [Event.docLock, Event.docGetPage 1, Event.warning] }

/-- A saved document, file "notes.xopp", with a change that is not saved yet. -/
def unsavedChange : Control :=
  { threePages with
    doc := { threePages.doc with filename := "notes.xopp" },
    undoRedo := { actions := [UndoAction.InsertDeletePageUndoAction (some 13) 1 false],
                  cursor := 1, changed := true, changedAutosave := true } }

/-- Answers for `renameLastAutosaveFile`: the file exists, the copy succeeds, the
deletion fails. -/
def deleteFails : RenameAnswers :=
  { autosaveBase := "/home/u/.xournalpp/autosaves/2020", fileNameOf := fun n => n,
    fileExists := true, copyOk := true, deleteOk := false, saveChoice := none,
    saveJobResult := true }

/-- A document whose last autosave file is ".notes.autosave.xopp". -/
def withAutosave : Control :=
  { unsavedChange with lastAutosaveFilename := ".notes.autosave.xopp" }

/-- A document with the pages 10, 11, 12 whose page 10 has one layer with a
stroke, a text and an image. -/
def sketchDocument : Document :=
  { threePages.doc with
    pageData := fun p =>
      if p = 10 then
        { width := Double.ofInt 595, height := Double.ofInt 842, pdfBackground := false,
          layers := [[{ kind := ElementKind.Stroke }, { kind := ElementKind.Text }, { kind := ElementKind.Image }]],
          selectedLayer := 0 }
      else threePages.doc.pageData p }

/-- A log of three actions of which the last has been undone. -/
def logWithRedo : UndoRedoHandler :=
  { actions := [UndoAction.InsertDeletePageUndoAction (some 13) 2 true,
                UndoAction.InsertDeletePageUndoAction (some 14) 0 true,
                UndoAction.InsertDeletePageUndoAction (some 15) 1 true],
    cursor := 2, changed := true, changedAutosave := true }

/-- Submissions: a background autosave, a blocking export, an urgent save, a
background export. -/
def fourSubmissions : List QueuedJob :=
  [⟨Job.AutosaveJob, JobPriority.JOB_PRIORITY_NONE, false⟩,
   ⟨Job.PdfExportJob, JobPriority.JOB_PRIORITY_NONE, true⟩,
   ⟨Job.SaveJob, JobPriority.JOB_PRIORITY_URGENT, false⟩,
   ⟨Job.CustomExportJob, JobPriority.JOB_PRIORITY_NONE, false⟩]

/-- Default arguments as an application may declare them: `save(false)`,
`close(false, true)`, `fileLoaded(-1)`. -/
def usualDefaults : Defaults :=
  { saveSynchron := false, closeAllowCancel := true, fileLoadedScrollToPage := -1,
    quitAllowCancel := true }

/-- The user answers "Discard" in the dialog of `close`; the file exists. -/
def discardAnswers : CloseAnswers :=
  { fileExists := true, response := DialogResponse.GTK_RESPONSE_REJECT, saveAsChoice := none,
    saveChoice := none, saveJobResult := true }

/-- The user answers "Save" in the dialog of `close`; the file exists and the save
succeeds. -/
def saveAnswers : CloseAnswers :=
  { fileExists := true, response := DialogResponse.GTK_RESPONSE_ACCEPT, saveAsChoice := none,
    saveChoice := none, saveJobResult := true }

/-- The document "notes.xopp" with the pages 10, 11, 12 after page 13 was inserted at
position 1: the undo log holds the insertion, `isChanged` is `true`. -/
def insertedPage : Control :=
  insertPage { threePages with doc := { threePages.doc with filename := "notes.xopp" } } 13 1 100

/-- The document "notes.xopp" after the insertion was saved with `save(true)`: the
undo log still holds the insertion, `isChanged` is `false`. -/
def savedNotes : Control :=
  (save insertedPage true none true).1

/-- Answers for `newFile`: the new page has the address 20 and the default
size, and there are no stored metadata. -/
def newFileAnswers (close : CloseAnswers) : NewFileAnswers :=
  { close := close, page := 20, pageData := newControl.doc.pageData 20,
    stored := { valid := false, zoom := 1, page := 0 } }

/-- The three-page document with the window on page number 3, one past the last
page. -/
def pastLastPage : Control :=
  { threePages with
    win := some { currentPage := 3, viewFor := fun n => if n < 3 then some n else none,
                  selection := none } }

/-- The three-page document with the window on page number 4. -/
def farPastLastPage : Control :=
  { threePages with
    win := some { currentPage := 4, viewFor := fun n => if n < 3 then some n else none,
                  selection := none } }

/-- A document with the single page 10 and an open window on page 0. -/
def onePage : Control :=
  { newControl with
    doc := { newControl.doc with pages := [10] },
    win := some { currentPage := 0, viewFor := fun n => if n < 1 then some n else none,
                  selection := none } }

/-- Edits of the pages 12, 10 and 12 again, a timer call while a worker holds the
lock, an edit of page 11, a timer call with the lock free, and an edit of
page 10. -/
def editsAndTimer : List AggregatorCall :=
  [AggregatorCall.undoRedoPageChanged 12, AggregatorCall.undoRedoPageChanged 10,
   AggregatorCall.undoRedoPageChanged 12, AggregatorCall.checkChangedDocument LockHolder.other,
   AggregatorCall.undoRedoPageChanged 11, AggregatorCall.checkChangedDocument LockHolder.free,
   AggregatorCall.undoRedoPageChanged 10]

/-- The entry that the metadata store returns for a file it does not know. -/
def noMetadata : MetadataEntry :=
  { valid := false, zoom := 1, page := 0 }

/-- A valid entry of the metadata store: zoom 3/2, page 1. -/
def storedMetadata : MetadataEntry :=
  { valid := true, zoom := 3 / 2, page := 1 }

/-- The zoom control is in fit mode, not in presentation mode. -/
def fitZoom : ZoomAnswers :=
  { presentationMode := false, fitMode := true }

/-- The tool handler answers for a pen of a given size: all getters return that
size. -/
def penOfSize (size : ToolSize) : ToolAnswers :=
  { toolType := ToolType.TOOL_PEN, size := size, penSize := size, eraserSize := size,
    hilighterSize := size }

/-- Answers for `renameLastAutosaveFile`: the autosave base name is
"/home/u/.xournalpp/autosaves/2020", `getFilename()` returns the part of a path
after the last slash, the file exists and the copy and the deletion succeed. -/
def renameSucceeds : RenameAnswers :=
  { autosaveBase := "/home/u/.xournalpp/autosaves/2020",
    fileNameOf := fun path =>
      String.mk (path.data.reverse.takeWhile (fun c => c != '/')).reverse,
    fileExists := true, copyOk := true, deleteOk := true, saveChoice := none,
    saveJobResult := true }

/-- A saved document whose last autosave file is
"/home/u/docs/.notes.autosave.xopp", next to the document. -/
def withAutosaveNextToDocument : Control :=
  { unsavedChange with lastAutosaveFilename := "/home/u/docs/.notes.autosave.xopp" }

/-- Lower case of a string, letter by letter. -/
def lowerCase (s : String) : String :=
  String.mk (s.data.map Char.toLower)

/-- The user answers "Cancel" in the dialog of `close`. -/
def cancelAnswers : CloseAnswers :=
  { fileExists := true, response := DialogResponse.GTK_RESPONSE_CANCEL, saveAsChoice := none,
    saveChoice := none, saveJobResult := true }

theorem emitted_append (s t : Control) (evs : List Event) (h : t.trace = s.trace ++ evs) :
    emitted s t = evs := by
  unfold emitted
  rw [h, List.drop_left]

theorem indexOf_ne_npos_iff (doc : Document) (hsize : doc.pages.length ≤ npos) (p : XojPage) :
    doc.indexOf p ≠ npos ↔ p ∈ doc.pages := by
  unfold Document.indexOf
  constructor
  · intro h
    by_contra hp
    simp [hp] at h
  · intro hp
    have := List.indexOf_lt_length.mpr hp
    simp only [hp, if_true]
    omega

theorem indexOf_inj_of_mem (doc : Document) (p q : XojPage) (hp : p ∈ doc.pages)
    (hq : q ∈ doc.pages) (h : doc.indexOf p = doc.indexOf q) : p = q := by
  unfold Document.indexOf at h
  simp only [hp, hq, if_true] at h
  exact (List.indexOf_inj hp hq).mp h

theorem undoRedoPageChanged_of_mem (s : Control) (p : XojPage) (h : p ∈ s.changedPages) :
    undoRedoPageChanged s p = s := by
  unfold undoRedoPageChanged
  have : s.changedPages.any (fun q => q == p) = true := by
    rw [List.any_eq_true]
    exact ⟨p, h, by simp⟩
  simp [this]

theorem undoRedoPageChanged_of_not_mem (s : Control) (p : XojPage) (h : p ∉ s.changedPages) :
    undoRedoPageChanged s p =
      { s with changedPages := s.changedPages ++ [p],
               trace := s.trace ++ [Event.pageReference p] } := by
  unfold undoRedoPageChanged
  have : ¬ (s.changedPages.any (fun q => q == p) = true) := by
    rw [List.any_eq_true]
    rintro ⟨q, hq, hqp⟩
    have : q = p := by simpa using hqp
    exact h (this ▸ hq)
  simp [this]

theorem foldl_undoRedoPageChanged (regs : List XojPage) :
    ∀ s : Control, s.changedPages.Nodup →
      (regs.foldl undoRedoPageChanged s).changedPages.Nodup
      ∧ (∀ p, p ∈ (regs.foldl undoRedoPageChanged s).changedPages ↔ p ∈ s.changedPages ∨ p ∈ regs)
      ∧ (regs.foldl undoRedoPageChanged s).doc = s.doc := by
  induction regs with
  | nil => intro s hs; simp [hs]
  | cons r rest ih =>
    intro s hs
    rw [List.foldl_cons]
    by_cases hr : r ∈ s.changedPages
    · rw [undoRedoPageChanged_of_mem s r hr]
      obtain ⟨h1, h2, h3⟩ := ih s hs
      refine ⟨h1, ?_, h3⟩
      intro p
      rw [h2 p]
      constructor
      · rintro (h | h)
        · exact Or.inl h
        · exact Or.inr (List.mem_cons_of_mem _ h)
      · rintro (h | h)
        · exact Or.inl h
        · rcases List.mem_cons.mp h with h | h
          · exact Or.inl (h ▸ hr)
          · exact Or.inr h
    · rw [undoRedoPageChanged_of_not_mem s r hr]
      have hnd : (s.changedPages ++ [r]).Nodup := by
        rw [List.nodup_append]
        refine ⟨hs, List.nodup_singleton r, ?_⟩
        intro x hx hx2
        rw [List.mem_singleton] at hx2
        exact hr (hx2 ▸ hx)
      obtain ⟨h1, h2, h3⟩ := ih { s with changedPages := s.changedPages ++ [r],
                                         trace := s.trace ++ [Event.pageReference r] } hnd
      refine ⟨h1, ?_, h3⟩
      intro p
      rw [h2 p]
      simp only [List.mem_append, List.mem_singleton, List.mem_cons]
      tauto

theorem toInt_npos : toInt npos = -1 := by
  decide

theorem toInt_of_lt (n : Nat) (h : n < 2 ^ 31) : toInt n = (n : Int) := by
  unfold toInt
  have h1 : n % 2 ^ 32 = n := Nat.mod_eq_of_lt (by omega)
  rw [h1, if_pos h]

theorem toSizeT_toInt_of_lt (n : Nat) (h : n < 2 ^ 31) : toSizeT (toInt n) = n := by
  rw [toInt_of_lt n h]
  unfold toSizeT
  omega

theorem indexOf_lt_of_mem (doc : Document) (p : XojPage) (hp : p ∈ doc.pages) :
    doc.indexOf p < doc.pages.length := by
  unfold Document.indexOf
  simp only [hp, if_true]
  exact List.indexOf_lt_length.mpr hp

theorem indexOf_of_not_mem (doc : Document) (p : XojPage) (hp : p ∉ doc.pages) :
    doc.indexOf p = npos := by
  unfold Document.indexOf
  simp only [hp, if_false]

theorem checkChangedEvents_of_small (doc : Document) (hsmall : doc.pages.length < 2 ^ 31)
    (p : XojPage) :
    checkChangedEvents doc p =
      [Event.docIndexOf p]
        ++ (if doc.indexOf p ≠ npos then [Event.firePageChanged (doc.indexOf p)] else [])
        ++ [Event.pageUnreference p] := by
  unfold checkChangedEvents
  by_cases hp : p ∈ doc.pages
  · have hlt : doc.indexOf p < 2 ^ 31 := lt_trans (indexOf_lt_of_mem doc p hp) hsmall
    have hne : doc.indexOf p ≠ npos := by
      unfold npos
      omega
    have hne2 : toInt (doc.indexOf p) ≠ -1 := by
      rw [toInt_of_lt _ hlt]
      omega
    rw [if_pos hne2, if_pos hne, toSizeT_toInt_of_lt _ hlt]
  · have h := indexOf_of_not_mem doc p hp
    rw [h, toInt_npos]
    simp

theorem checkChangedPage_eq (s : Control) (p : XojPage) :
    checkChangedPage s p = { s with trace := s.trace ++ checkChangedEvents s.doc p } := by
  unfold checkChangedPage checkChangedEvents Control.emit
  by_cases h : toInt (s.doc.indexOf p) = -1
  · simp [h]
  · simp [h]

theorem foldl_checkChangedPage (ps : List XojPage) :
    ∀ s : Control, ps.foldl checkChangedPage s =
      { s with trace := s.trace ++ ps.flatMap (checkChangedEvents s.doc) } := by
  induction ps with
  | nil => intro s; simp
  | cons p rest ih =>
    intro s
    rw [List.foldl_cons, checkChangedPage_eq, ih]
    simp [List.flatMap_cons, List.append_assoc]

theorem checkChangedDocument_free (s : Control) (h : s.doc.holder = LockHolder.free) :
    checkChangedDocument s =
      ({ s with changedPages := [],
                trace := s.trace ++ ([Event.docTryLock true]
                  ++ s.changedPages.flatMap (checkChangedEvents s.doc) ++ [Event.docUnlock]) },
       true) := by
  unfold checkChangedDocument Control.docTryLock Control.docUnlock
  simp only [h, if_true]
  rw [foldl_checkChangedPage]
  cases s with
  | mk doc undoRedo changedPages win isBlocking ctd cb std sv lb ms trace autosave idle tmo =>
    cases doc with
    | mk pages pageData filename pdfFilename holder =>
      simp only at h
      subst h
      have hev : checkChangedEvents
            { pages := pages, pageData := pageData, filename := filename,
              pdfFilename := pdfFilename, holder := LockHolder.control } =
          checkChangedEvents
            { pages := pages, pageData := pageData, filename := filename,
              pdfFilename := pdfFilename, holder := LockHolder.free } := by
        funext p
        simp [checkChangedEvents, Document.indexOf]
      simp [hev, List.append_assoc]

theorem firedPageChanged_append (a b : List Event) :
    firedPageChanged (a ++ b) = firedPageChanged a ++ firedPageChanged b := by
  unfold firedPageChanged
  rw [List.filterMap_append]

theorem firedPageChanged_flatMap (doc : Document) (hsmall : doc.pages.length < 2 ^ 31)
    (ps : List XojPage) :
    firedPageChanged (ps.flatMap (checkChangedEvents doc)) =
      (ps.filter (fun p => decide (doc.indexOf p ≠ npos))).map doc.indexOf := by
  induction ps with
  | nil => simp [firedPageChanged]
  | cons p rest ih =>
    rw [List.flatMap_cons, firedPageChanged_append, ih, checkChangedEvents_of_small doc hsmall]
    by_cases h : doc.indexOf p = npos
    · simp [firedPageChanged, h]
    · simp [firedPageChanged, h]

theorem count_unlock_flatMap (doc : Document) (ps : List XojPage) :
    (ps.flatMap (checkChangedEvents doc)).count Event.docUnlock = 0 := by
  induction ps with
  | nil => simp
  | cons p rest ih =>
    rw [List.flatMap_cons, List.count_append, ih]
    by_cases h : toInt (doc.indexOf p) = -1
    · simp [checkChangedEvents, h]
    · simp [checkChangedEvents, h]

/-! ### C1: at most one notification per page and drain -/

/-- C1: starting from an empty pending set, after any sequence `regs` of
`undoRedoPageChanged` calls and one `checkChangedDocument` run whose `tryLock`
succeeds on a document whose pages at drain time are `pages`, the number of
`firePageChanged` calls made with the index of page `P` is 1 if `P` was
registered at least once and is a page of the document, and 0 otherwise.
(`hsmall`: the page count is below `2 ^ 31`, so that every index fits the `int`
that the loop keeps it in.) -/
theorem checkChangedDocument_fires_once (s : Control) (regs pages : List XojPage) (P : XojPage)
    (hsmall : pages.length < 2 ^ 31) :
    let registered := regs.foldl undoRedoPageChanged { s with changedPages := [] }
    let atDrain : Control :=
      { registered with doc := { registered.doc with pages := pages, holder := LockHolder.free } }
    (firedPageChanged (emitted atDrain (checkChangedDocument atDrain).1)).count
        (atDrain.doc.indexOf P)
      = if P ∈ regs ∧ P ∈ pages then 1 else 0 := by
  intro registered atDrain
  obtain ⟨hnd, hmem, _⟩ :=
    foldl_undoRedoPageChanged regs { s with changedPages := [] } List.nodup_nil
  have hcp : atDrain.changedPages = registered.changedPages := rfl
  have hpages : atDrain.doc.pages = pages := rfl
  have hsm : atDrain.doc.pages.length < 2 ^ 31 := hsmall
  have hsz : atDrain.doc.pages.length ≤ npos := by
    unfold npos
    omega
  have hfree : atDrain.doc.holder = LockHolder.free := rfl
  have hfired : firedPageChanged (emitted atDrain (checkChangedDocument atDrain).1) =
      (atDrain.changedPages.filter (fun p => decide (atDrain.doc.indexOf p ≠ npos))).map
        atDrain.doc.indexOf := by
    rw [checkChangedDocument_free atDrain hfree]
    rw [emitted_append atDrain _ _ rfl]
    rw [firedPageChanged_append, firedPageChanged_append,
      firedPageChanged_flatMap atDrain.doc hsm]
    simp [firedPageChanged]
  rw [hfired]
  have hndf : ((atDrain.changedPages.filter
      (fun p => decide (atDrain.doc.indexOf p ≠ npos))).map atDrain.doc.indexOf).Nodup := by
    apply List.Nodup.map_on
    · intro x hx y hy hxy
      have hx2 := (List.mem_filter.mp hx).2
      have hy2 := (List.mem_filter.mp hy).2
      simp only [decide_eq_true_eq] at hx2 hy2
      exact indexOf_inj_of_mem atDrain.doc x y
        ((indexOf_ne_npos_iff atDrain.doc hsz x).mp hx2)
        ((indexOf_ne_npos_iff atDrain.doc hsz y).mp hy2) hxy
    · exact (hcp ▸ hnd).filter _
  rw [List.count_eq_of_nodup hndf]
  have hiff : atDrain.doc.indexOf P ∈ (atDrain.changedPages.filter
      (fun p => decide (atDrain.doc.indexOf p ≠ npos))).map atDrain.doc.indexOf
      ↔ (P ∈ regs ∧ P ∈ pages) := by
    rw [List.mem_map]
    constructor
    · rintro ⟨q, hq, hqP⟩
      have hq1 := (List.mem_filter.mp hq).1
      have hq2 := (List.mem_filter.mp hq).2
      simp only [decide_eq_true_eq] at hq2
      have hqd : q ∈ atDrain.doc.pages := (indexOf_ne_npos_iff atDrain.doc hsz q).mp hq2
      have hPd : P ∈ atDrain.doc.pages :=
        (indexOf_ne_npos_iff atDrain.doc hsz P).mp (hqP ▸ hq2)
      have hqeq : q = P := indexOf_inj_of_mem atDrain.doc q P hqd hPd hqP
      subst hqeq
      rw [hcp] at hq1
      rcases (hmem q).mp hq1 with h | h
      · exact absurd h (List.not_mem_nil q)
      · exact ⟨h, hPd⟩
    · rintro ⟨hr, hp⟩
      refine ⟨P, ?_, rfl⟩
      rw [List.mem_filter]
      refine ⟨?_, ?_⟩
      · rw [hcp]
        exact (hmem P).mpr (Or.inr hr)
      · simp only [decide_eq_true_eq]
        exact (indexOf_ne_npos_iff atDrain.doc hsz P).mpr hp
  by_cases hc : P ∈ regs ∧ P ∈ pages
  · rw [if_pos (hiff.mpr hc), if_pos hc]
  · rw [if_neg (fun h => hc (hiff.mp h)), if_neg hc]

/-- C1, witness: page 11 registered five times among other registrations, in the
document `[10, 11, 12]`: one notification for its index. -/
theorem checkChangedDocument_fires_once_witness :
    [10, 11, 12].length < 2 ^ 31 ∧
    (let registered := [11, 11, 12, 11, 99, 11, 11].foldl undoRedoPageChanged
        { threePages with changedPages := [] }
     let atDrain : Control :=
      { registered with
        doc := { registered.doc with pages := [10, 11, 12], holder := LockHolder.free } }
     (firedPageChanged (emitted atDrain (checkChangedDocument atDrain).1)).count
        (atDrain.doc.indexOf 11)) = 1 :=
  ⟨by decide,
   checkChangedDocument_fires_once threePages [11, 11, 12, 11, 99, 11, 11] [10, 11, 12] 11
     (by decide)⟩

/-! ### C2: a failed tryLock skips the drain -/

/-- C2: whenever the document lock is not free (so `tryLock` fails),
`checkChangedDocument` only records the failed `tryLock`: it fires no
page-changed notification, leaves the pending set and the reference counts
unchanged, does not call `unlock`, leaves the lock with its holder, and
returns `true`. -/
theorem checkChangedDocument_tryLock_fails (s : Control) (h : s.doc.holder ≠ LockHolder.free) :
    checkChangedDocument s = (s.emit (Event.docTryLock false), true)
    ∧ (checkChangedDocument s).2 = true
    ∧ (checkChangedDocument s).1.changedPages = s.changedPages
    ∧ emitted s (checkChangedDocument s).1 = [Event.docTryLock false]
    ∧ firedPageChanged (emitted s (checkChangedDocument s).1) = []
    ∧ (emitted s (checkChangedDocument s).1).count Event.docUnlock = 0
    ∧ (∀ p, refBalance (emitted s (checkChangedDocument s).1) p = 0)
    ∧ (checkChangedDocument s).1.doc.holder = s.doc.holder := by
  have heq : checkChangedDocument s = (s.emit (Event.docTryLock false), true) := by
    unfold checkChangedDocument Control.docTryLock Control.emit
    simp [h]
  have hem : emitted s (checkChangedDocument s).1 = [Event.docTryLock false] := by
    rw [heq]
    exact emitted_append s _ _ rfl
  refine ⟨heq, ?_, ?_, hem, ?_, ?_, ?_, ?_⟩
  · rw [heq]
  · rw [heq]; rfl
  · rw [hem]; rfl
  · rw [hem]; rfl
  · intro p
    rw [hem]
    rfl
  · rw [heq]; rfl

/-- C2, witness: three pages pending while a worker holds the lock. -/
theorem checkChangedDocument_tryLock_fails_witness :
    pendingBusy.doc.holder ≠ LockHolder.free
    ∧ (checkChangedDocument pendingBusy).1.changedPages = [12, 99, 10]
    ∧ emitted pendingBusy (checkChangedDocument pendingBusy).1 = [Event.docTryLock false] :=
  ⟨by decide,
   (checkChangedDocument_tryLock_fails pendingBusy (by decide)).2.2.1,
   (checkChangedDocument_tryLock_fails pendingBusy (by decide)).2.2.2.1⟩

/-! ### C3: a successful drain -/

/-- C3: whenever the document lock is free (so `tryLock` succeeds) and the
document has fewer than `2 ^ 31` pages (so that every index fits the `int` of
the loop), `checkChangedDocument` calls `firePageChanged` exactly for the pending
pages whose index in the document at drain time is not `npos` (the `-1` of the
`int`), that is for the pending pages that are in the document, in the order of
the pending set and with that index; afterwards the pending set is empty,
`unlock` has been called exactly once, as the last call, the lock is free again,
every pending page has been unreferenced and the result is `true`. -/
theorem checkChangedDocument_drains (s : Control) (h : s.doc.holder = LockHolder.free)
    (hsmall : s.doc.pages.length < 2 ^ 31) :
    firedPageChanged (emitted s (checkChangedDocument s).1) =
        (s.changedPages.filter (fun p => decide (s.doc.indexOf p ≠ npos))).map s.doc.indexOf
    ∧ (∀ p, s.doc.indexOf p ≠ npos ↔ p ∈ s.doc.pages)
    ∧ (checkChangedDocument s).1.changedPages = []
    ∧ (emitted s (checkChangedDocument s).1).count Event.docUnlock = 1
    ∧ emitted s (checkChangedDocument s).1 =
        [Event.docTryLock true] ++ s.changedPages.flatMap (checkChangedEvents s.doc)
          ++ [Event.docUnlock]
    ∧ (checkChangedDocument s).1.doc.holder = LockHolder.free
    ∧ (checkChangedDocument s).1.doc.pages = s.doc.pages
    ∧ (checkChangedDocument s).2 = true := by
  have heq := checkChangedDocument_free s h
  have hem : emitted s (checkChangedDocument s).1 =
      [Event.docTryLock true] ++ s.changedPages.flatMap (checkChangedEvents s.doc)
        ++ [Event.docUnlock] := by
    rw [heq]
    exact emitted_append s _ _ rfl
  refine ⟨?_, ?_, ?_, ?_, hem, ?_, ?_, ?_⟩
  · rw [hem, firedPageChanged_append, firedPageChanged_append,
      firedPageChanged_flatMap s.doc hsmall]
    simp [firedPageChanged]
  · intro p
    exact indexOf_ne_npos_iff s.doc (by unfold npos; omega) p
  · rw [heq]
  · rw [hem, List.count_append, List.count_append, count_unlock_flatMap]
    simp
  · rw [heq]
    exact h
  · rw [heq]
  · rw [heq]

/-- C3, witness: pages 12, 99, 10 pending on the document `[10, 11, 12]`:
notifications for the indexes 2 and 0, in that order, none for page 99. -/
theorem checkChangedDocument_drains_witness :
    pendingFree.doc.holder = LockHolder.free
    ∧ pendingFree.doc.pages.length < 2 ^ 31
    ∧ firedPageChanged (emitted pendingFree (checkChangedDocument pendingFree).1) = [2, 0] :=
  ⟨rfl, by decide, (checkChangedDocument_drains pendingFree rfl (by decide)).1⟩

/-! ### C4: registering a page is idempotent -/

/-- C4: `undoRedoPageChanged` is idempotent: calling it twice for a page leaves
the same state (pending set and reference calls) as calling it once; when the
page is already pending the call changes nothing, and when it is not pending
the call appends the page at the end of the pending set and makes exactly one
`reference()` call, on that page. -/
theorem undoRedoPageChanged_idempotent (s : Control) (P : XojPage) :
    undoRedoPageChanged (undoRedoPageChanged s P) P = undoRedoPageChanged s P
    ∧ (P ∈ s.changedPages → undoRedoPageChanged s P = s)
    ∧ (P ∉ s.changedPages →
        (undoRedoPageChanged s P).changedPages = s.changedPages ++ [P]
        ∧ emitted s (undoRedoPageChanged s P) = [Event.pageReference P]
        ∧ refBalance (emitted s (undoRedoPageChanged s P)) P = 1) := by
  refine ⟨?_, undoRedoPageChanged_of_mem s P, ?_⟩
  · by_cases hP : P ∈ s.changedPages
    · rw [undoRedoPageChanged_of_mem s P hP, undoRedoPageChanged_of_mem s P hP]
    · apply undoRedoPageChanged_of_mem
      rw [undoRedoPageChanged_of_not_mem s P hP]
      simp
  · intro hP
    have hem : emitted s (undoRedoPageChanged s P) = [Event.pageReference P] := by
      rw [undoRedoPageChanged_of_not_mem s P hP]
      exact emitted_append s _ _ rfl
    refine ⟨?_, hem, ?_⟩
    · rw [undoRedoPageChanged_of_not_mem s P hP]
    · rw [hem]
      simp [refBalance]

/-- C4, witness: page 11 is not pending in `pendingFree` and is appended once;
page 12 is pending and registering it changes nothing. -/
theorem undoRedoPageChanged_idempotent_witness :
    (undoRedoPageChanged pendingFree 11).changedPages = [12, 99, 10, 11]
    ∧ (undoRedoPageChanged (undoRedoPageChanged pendingFree 11) 11).changedPages
        = [12, 99, 10, 11]
    ∧ undoRedoPageChanged pendingFree 12 = pendingFree :=
  ⟨((undoRedoPageChanged_idempotent pendingFree 11).2.2 (by decide)).1,
   (undoRedoPageChanged_idempotent pendingFree 11).1 ▸
     ((undoRedoPageChanged_idempotent pendingFree 11).2.2 (by decide)).1,
   (undoRedoPageChanged_idempotent pendingFree 12).2.1 (by decide)⟩

/-! ### C5: a failed paste changes neither the undo log nor the document -/

theorem pasteLoop_isSome (n : Nat) :
    ∀ (layer : LayerRef) (input : ObjectInputStream) (entries : List (LayerRef × Element × Int))
      (selection : EditSelection),
      (pasteLoop n layer input entries selection).isSome = objectsDeserialize n input := by
  induction n with
  | zero => intros; rfl
  | succ n ih =>
    intro layer input entries selection
    simp only [pasteLoop, objectsDeserialize]
    cases h1 : input.getNextObjectName with
    | none => simp
    | some name =>
      cases h2 : elementForName name with
      | none => simp [h2]
      | some e =>
        cases h3 : Element.readSerialized input with
        | none => simp [h2]
        | some rest => simp [h2, ih]

/-- Events that a failed paste can record. -/
theorem pasteTry_of_fail (ps : String) (s : Control) (w : MainWindow) (page : XojPage)
    (layer : LayerRef) (view : Nat) (input : ObjectInputStream)
    (h : payloadDeserializes input = false) :
    ∃ (evs : List Event) (holder : LockHolder),
      pasteTry ps s w page layer view input =
        ({ s with doc := { s.doc with holder := holder }, trace := s.trace ++ evs }, true)
      ∧ ∀ e ∈ evs, e = Event.warning ∨ e = Event.docUnlock := by
  unfold payloadDeserializes at h
  unfold pasteTry
  cases h1 : input.readString with
  | none => exact ⟨[], s.doc.holder, by simp, by simp⟩
  | some r1 =>
    obtain ⟨version, in1⟩ := r1
    simp only [h1] at h
    simp only
    cases h2 : EditSelection.readSerialized in1 with
    | none =>
      by_cases hv : version = ps
      · exact ⟨[], s.doc.holder, by simp [hv], by simp⟩
      · exact ⟨[Event.warning], s.doc.holder, by simp [hv, Control.emit], by simp⟩
    | some in2 =>
      simp only [h2] at h
      simp only
      cases h3 : in2.readInt with
      | none =>
        by_cases hv : version = ps
        · exact ⟨[Event.docUnlock], LockHolder.free, by simp [hv, Control.docUnlock], by simp⟩
        · exact ⟨[Event.warning, Event.docUnlock], LockHolder.free,
            by simp [hv, Control.emit, Control.docUnlock], by simp⟩
      | some r3 =>
        obtain ⟨count, in3⟩ := r3
        simp only [h3] at h
        simp only
        have hloop : pasteLoop count.toNat layer in3 []
            { page := page, view := view, elements := [] } = none := by
          have := pasteLoop_isSome count.toNat layer in3 []
            { page := page, view := view, elements := [] }
          rw [h] at this
          exact Option.not_isSome_iff_eq_none.mp (by simp [this])
        rw [hloop]
        by_cases hv : version = ps
        · exact ⟨[Event.docUnlock], LockHolder.free, by simp [hv, Control.docUnlock], by simp⟩
        · exact ⟨[Event.warning, Event.docUnlock], LockHolder.free,
            by simp [hv, Control.emit, Control.docUnlock], by simp⟩

theorem clipboardPasteXournal_of_fail (ps : String) (s t : Control) (input : ObjectInputStream)
    (h : payloadDeserializes input = false)
    (hret : clipboardPasteXournal ps s input = some t) :
    ∃ (evs : List Event) (holder : LockHolder),
      t = { s with doc := { s.doc with holder := holder }, trace := s.trace ++ evs }
      ∧ ∀ e ∈ evs, e = Event.warning ∨ e = Event.docUnlock ∨ e = Event.docLock
          ∨ e = Event.docGetPage (getCurrentPageNo s) := by
  unfold clipboardPasteXournal at hret
  simp only at hret
  by_cases hg : getCurrentPageNo s = npos ∧ s.win.isSome = true
  · rw [if_pos hg] at hret
    exact ⟨[], s.doc.holder, by simpa using hret.symm, by simp⟩
  · rw [if_neg hg] at hret
    cases hp : (s.docLock.emit (Event.docGetPage (getCurrentPageNo s))).doc.getPage
        (getCurrentPageNo s) with
    | none => simp [hp] at hret
    | some page =>
      simp only [hp] at hret
      cases hw : s.win with
      | none => simp [Control.docLock, Control.emit, hw] at hret
      | some w =>
        have hw1 : (s.docLock.emit (Event.docGetPage (getCurrentPageNo s))).win = some w := hw
        simp only [hw1] at hret
        cases hview : w.viewFor (getCurrentPageNo s) with
        | none =>
          simp only [hview, Option.some.injEq] at hret
          refine ⟨[Event.docLock, Event.docGetPage (getCurrentPageNo s), Event.docUnlock],
            LockHolder.free, ?_, by simp⟩
          rw [← hret]
          simp [Control.docLock, Control.emit, Control.docUnlock, hw]
        | some view =>
          simp only [hview] at hret
          obtain ⟨evs, holder, heq, hevs⟩ := pasteTry_of_fail ps
            (s.docLock.emit (Event.docGetPage (getCurrentPageNo s))) w page
            { page := page,
              index := ((s.docLock.emit (Event.docGetPage (getCurrentPageNo s))).doc.pageData
                page).selectedLayer }
            view input h
          rw [heq] at hret
          simp only [Option.some.injEq] at hret
          refine ⟨[Event.docLock, Event.docGetPage (getCurrentPageNo s)] ++ evs ++ [Event.warning],
            holder, ?_, ?_⟩
          · rw [← hret]
            simp [Control.docLock, Control.emit, hw]
          · intro e he
            simp only [List.mem_append, List.mem_cons, List.mem_singleton, List.not_mem_nil,
              or_false] at he
            rcases he with (he | he) | he
            · rcases he with he | he
              · exact Or.inr (Or.inr (Or.inl he))
              · exact Or.inr (Or.inr (Or.inr he))
            · rcases hevs e he with h1 | h1
              · exact Or.inl h1
              · exact Or.inr (Or.inl h1)
            · exact Or.inl he

/-- C5: when the payload does not deserialize (the version string, the serialized
selection, the count or one of the objects cannot be read, or an object has a
name other than Stroke, Image, TexImage, Text), `clipboardPasteXournal` makes no
`addUndoAction` call and leaves the undo log as it was, makes no `setSelection`
call and leaves the window, with the selection of its view, as it was, and
leaves the pages of the document and what they own unchanged. -/
theorem clipboardPasteXournal_failed_paste (ps : String) (s t : Control)
    (input : ObjectInputStream)
    (hfail : payloadDeserializes input = false)
    (hret : clipboardPasteXournal ps s input = some t) :
    t.undoRedo = s.undoRedo
    ∧ t.undoRedo.actions.length = s.undoRedo.actions.length
    ∧ pushedActions (emitted s t) = []
    ∧ Event.setSelection ∉ emitted s t
    ∧ t.win = s.win
    ∧ t.doc.pages = s.doc.pages
    ∧ t.doc.pageData = s.doc.pageData := by
  obtain ⟨evs, holder, heq, hevs⟩ := clipboardPasteXournal_of_fail ps s t input hfail hret
  have hem : emitted s t = evs := emitted_append s t evs (by rw [heq])
  refine ⟨by rw [heq], by rw [heq], ?_, ?_, by rw [heq], by rw [heq], by rw [heq]⟩
  · rw [hem]
    unfold pushedActions
    rw [List.filterMap_eq_nil_iff]
    intro e he
    rcases hevs e he with h | h | h | h <;> rw [h]
  · rw [hem]
    intro he
    rcases hevs _ he with h | h | h | h <;> cases h

/-- C5, witness: a payload whose second object has the unknown name "Circle",
pasted into a document with three pages. -/
theorem clipboardPasteXournal_failed_paste_witness :
    payloadDeserializes unknownKindPayload = false
    ∧ clipboardPasteXournal "1.0" threePages unknownKindPayload = some threePagesAfterFailedPaste
    ∧ threePagesAfterFailedPaste.undoRedo = threePages.undoRedo
    ∧ pushedActions (emitted threePages threePagesAfterFailedPaste) = [] :=
  ⟨rfl, rfl,
   (clipboardPasteXournal_failed_paste "1.0" threePages threePagesAfterFailedPaste
      unknownKindPayload rfl rfl).1,
   (clipboardPasteXournal_failed_paste "1.0" threePages threePagesAfterFailedPaste
      unknownKindPayload rfl rfl).2.2.1⟩

/-! ### C6: the lock is kept when reading the payload fails early -/

/-- C6: at an input the code can receive (a window on page 1 of a three-page
document, an empty payload, so that reading the version string throws), the
document lock that `clipboardPasteXournal` took is still held by `Control` when
it returns: `lock` was called once and `unlock` never. -/
theorem clipboardPasteXournal_keeps_lock_when_read_fails :
    clipboardPasteXournal "1.0" threePages [] = some threePagesLockKept
    ∧ threePagesLockKept.doc.holder = LockHolder.control
    ∧ (emitted threePages threePagesLockKept).count Event.docLock = 1
    ∧ (emitted threePages threePagesLockKept).count Event.docUnlock = 0 :=
  ⟨rfl, rfl, by decide, by decide⟩

/-! ### Page accesses of deletePage, paperFormat and updatePageNumbers -/

theorem deletePage_of_valid (s : Control) (n : Nat) (page : XojPage)
    (hn : getCurrentPageNo s = n)
    (hcount : 2 ≤ s.doc.pages.length)
    (hvalid : n < s.doc.pages.length)
    (hnpos : n ≠ npos)
    (hget : s.doc.pages.get? n = some page) :
    (deletePage s).doc.pages = s.doc.pages.eraseIdx n
    ∧ (emitted s (deletePage s)).filter isDeletePageStep =
        [Event.firePageDeleted n, Event.docDeletePage n,
         Event.addUndoAction (UndoAction.InsertDeletePageUndoAction (some page) n false)]
    ∧ pushedActions (emitted s (deletePage s)) =
        [UndoAction.InsertDeletePageUndoAction (some page) n false]
    ∧ (deletePage s).undoRedo =
        s.undoRedo.addUndoAction (UndoAction.InsertDeletePageUndoAction (some page) n false) := by
  have h2 : ¬ s.doc.pages.length < 2 := by omega
  have h3 : ¬ n > s.doc.pages.length := by omega
  unfold emitted deletePage
  cases hw : s.win with
  | none =>
    have hcur : 0 = n := by simpa [getCurrentPageNo, hw] using hn
    subst hcur
    simp only [clearSelectionEndText, updateDeletePageButton, getCurrentPageNo, hw,
      Control.emit, Control.docLock, Control.docUnlock, Control.addUndoAction,
      Document.deletePage, Document.getPageCount, Document.getPage, h2, h3, hnpos, hget,
      if_false]
    split_ifs <;> simp [isDeletePageStep, pushedActions]
  | some w =>
    have hcur : w.currentPage = n := by simpa [getCurrentPageNo, hw] using hn
    subst hcur
    simp only [clearSelectionEndText, updateDeletePageButton, getCurrentPageNo, hw,
      Control.emit, Control.docLock, Control.docUnlock, Control.addUndoAction,
      Document.deletePage, Document.getPageCount, Document.getPage, h2, h3, hnpos, hget,
      if_false]
    split_ifs <;> simp [isDeletePageStep, pushedActions]

/-- C8: in a document with at least two pages whose current page number `pNr` is a
valid index, `deletePage` removes exactly the page at index `pNr` and keeps the
others in order; it fires the page-deleted event for `pNr`, then removes the
page, then pushes one undo action, and no other; that action is
`InsertDeletePageUndoAction(page, pNr, false)` where `page` is the page that was
at index `pNr`, and the undo log is the old one with this action pushed. -/
theorem deletePage_removes_current_page (s : Control)
    (hcount : 2 ≤ s.doc.pages.length)
    (hvalid : getCurrentPageNo s < s.doc.pages.length)
    (hnpos : getCurrentPageNo s ≠ npos) :
    (deletePage s).doc.pages = s.doc.pages.eraseIdx (getCurrentPageNo s)
    ∧ (emitted s (deletePage s)).filter isDeletePageStep =
        [Event.firePageDeleted (getCurrentPageNo s),
         Event.docDeletePage (getCurrentPageNo s),
         Event.addUndoAction (UndoAction.InsertDeletePageUndoAction
           (some (s.doc.pages.get ⟨getCurrentPageNo s, hvalid⟩)) (getCurrentPageNo s) false)]
    ∧ pushedActions (emitted s (deletePage s)) =
        [UndoAction.InsertDeletePageUndoAction
           (some (s.doc.pages.get ⟨getCurrentPageNo s, hvalid⟩)) (getCurrentPageNo s) false]
    ∧ (deletePage s).undoRedo =
        s.undoRedo.addUndoAction (UndoAction.InsertDeletePageUndoAction
           (some (s.doc.pages.get ⟨getCurrentPageNo s, hvalid⟩)) (getCurrentPageNo s) false) :=
  deletePage_of_valid s (getCurrentPageNo s) (s.doc.pages.get ⟨getCurrentPageNo s, hvalid⟩) rfl
    hcount hvalid hnpos (List.get?_eq_get hvalid)

/-- C8, witness: page 11, at index 1 of `[10, 11, 12]`, is removed and kept by the
undo action. -/
theorem deletePage_removes_current_page_witness :
    (deletePage threePages).doc.pages = [10, 12]
    ∧ pushedActions (emitted threePages (deletePage threePages)) =
        [UndoAction.InsertDeletePageUndoAction (some 11) 1 false] :=
  ⟨(deletePage_removes_current_page threePages (by decide) (by decide) (by decide)).1,
   (deletePage_removes_current_page threePages (by decide) (by decide) (by decide)).2.2.1⟩

/-! ### C9: a failed synchronous save still resets isChanged -/

/-- C9: at an input the code can receive (a document with the file name
"notes.xopp" and an unsaved change, and a save job that fails), `save(true)`
returns `false`, yet it calls `documentSaved` once and `isChanged` is `false`
afterwards although it was `true` before. -/
theorem save_failed_resets_changed :
    unsavedChange.undoRedo.changed = true
    ∧ (save unsavedChange true none false).2 = false
    ∧ (emitted unsavedChange (save unsavedChange true none false).1).count Event.documentSaved = 1
    ∧ (save unsavedChange true none false).1.undoRedo.changed = false := by
  decide

/-! ### C10: autosave is submitted exactly when something changed -/

/-- C10: `autosaveCallback` adds a job exactly when `isChangedAutosave` is true: when
it is false the state is unchanged and no `addJob` call is made, when it is true
exactly one `addJob` call is made, for an `AutosaveJob` with priority
`JOB_PRIORITY_NONE`; in both cases the callback returns `true`. -/
theorem autosaveCallback_submits_iff_changed (s : Control) :
    (autosaveCallback s).2 = true
    ∧ addedJobs (emitted s (autosaveCallback s).1) =
        (if s.undoRedo.changedAutosave = true
          then [(Job.AutosaveJob, JobPriority.JOB_PRIORITY_NONE)] else [])
    ∧ (s.undoRedo.changedAutosave = false → autosaveCallback s = (s, true))
    ∧ (s.undoRedo.changedAutosave = true →
        emitted s (autosaveCallback s).1 =
          [Event.addJob Job.AutosaveJob JobPriority.JOB_PRIORITY_NONE])
    ∧ ((addedJobs (emitted s (autosaveCallback s).1)).length = 1
        ↔ s.undoRedo.changedAutosave = true) := by
  cases h : s.undoRedo.changedAutosave with
  | false =>
    have heq : autosaveCallback s = (s, true) := by
      unfold autosaveCallback
      simp [h]
    rw [heq]
    simp [emitted, addedJobs]
  | true =>
    have heq : autosaveCallback s =
        (s.emit (Event.addJob Job.AutosaveJob JobPriority.JOB_PRIORITY_NONE), true) := by
      unfold autosaveCallback
      simp [h]
    rw [heq]
    simp [emitted, addedJobs, Control.emit]

/-- C10, witness: with a change since the last autosave one job is added, without
one none. -/
theorem autosaveCallback_submits_iff_changed_witness :
    addedJobs (emitted unsavedChange (autosaveCallback unsavedChange).1) =
        [(Job.AutosaveJob, JobPriority.JOB_PRIORITY_NONE)]
    ∧ autosaveCallback threePages = (threePages, true) :=
  ⟨(autosaveCallback_submits_iff_changed unsavedChange).2.1,
   (autosaveCallback_submits_iff_changed threePages).2.2.1 rfl⟩

/-! ### Runs -/

theorem lockBalance_append (a b : List Event) :
    ∀ d : Nat, lockBalance d (a ++ b) = (lockBalance d a).bind (fun d' => lockBalance d' b) := by
  induction a with
  | nil => intro d; simp [lockBalance]
  | cons e rest ih =>
    intro d
    cases e <;> first
      | (simp only [List.cons_append, lockBalance]; exact ih _)
      | (rename_i ok; cases ok <;> simp only [List.cons_append, lockBalance] <;> exact ih _)
      | (simp only [List.cons_append, lockBalance]
         split_ifs
         · rfl
         · exact ih _)

theorem lockBalance_of_no_lock_call (evs : List Event) (h : ∀ e ∈ evs, isLockCall e = false) :
    ∀ d : Nat, lockBalance d evs = some d := by
  induction evs with
  | nil => intro d; rfl
  | cons e rest ih =>
    intro d
    have he := h e (List.mem_cons_self _ _)
    have hrest := ih (fun x hx => h x (List.mem_cons_of_mem _ hx))
    cases e <;> first
      | (simp [isLockCall] at he; done)
      | (simp only [lockBalance]; exact hrest d)

theorem RunD.refl (q : Event → Bool) (d : Nat) (s : Control) : RunD q d d s s :=
  ⟨[], by simp, rfl, by simp⟩

theorem RunD.trans {q : Event → Bool} {d1 d2 d3 : Nat} {s t u : Control}
    (h1 : RunD q d1 d2 s t) (h2 : RunD q d2 d3 t u) : RunD q d1 d3 s u := by
  obtain ⟨a, ha, hba, hqa⟩ := h1
  obtain ⟨b, hb, hbb, hqb⟩ := h2
  refine ⟨a ++ b, ?_, ?_, ?_⟩
  · rw [hb, ha, List.append_assoc]
  · rw [lockBalance_append, hba]
    exact hbb
  · intro e he
    rcases List.mem_append.mp he with h | h
    · exact hqa e h
    · exact hqb e h

theorem RunD.of_trace_eq (q : Event → Bool) (d : Nat) {s t : Control} (h : t.trace = s.trace) :
    RunD q d d s t :=
  ⟨[], by simp [h], rfl, by simp⟩

theorem RunD.mono {q r : Event → Bool} {d d' : Nat} {s t : Control}
    (hqr : ∀ e, q e = true → r e = true) (h : RunD q d d' s t) : RunD r d d' s t := by
  obtain ⟨a, ha, hba, hqa⟩ := h
  exact ⟨a, ha, hba, fun e he => hqr e (hqa e he)⟩

theorem RunD.emit {q : Event → Bool} (d : Nat) (s : Control) (e : Event)
    (hq : q e = true) (hl : isLockCall e = false) : RunD q d d s (s.emit e) := by
  refine ⟨[e], rfl, ?_, ?_⟩
  · exact lockBalance_of_no_lock_call [e] (by simpa using hl) d
  · simpa using hq

theorem RunD.docLock {q : Event → Bool} (d : Nat) (s : Control) (hq : q Event.docLock = true) :
    RunD q d (d + 1) s s.docLock :=
  ⟨[Event.docLock], rfl, rfl, by simpa using hq⟩

theorem RunD.docUnlock {q : Event → Bool} (d : Nat) (s : Control)
    (hq : q Event.docUnlock = true) : RunD q (d + 1) d s s.docUnlock :=
  ⟨[Event.docUnlock], rfl, by simp [lockBalance], by simpa using hq⟩

theorem RunD.of_append {q : Event → Bool} {d d' : Nat} {s t : Control} {evs : List Event}
    (h : t.trace = s.trace ++ evs) (hb : lockBalance d evs = some d')
    (hq : evs.all q = true) : RunD q d d' s t :=
  ⟨evs, h, hb, fun e he => (List.all_eq_true.mp hq) e he⟩

theorem RunD.emitted_balance {q : Event → Bool} {d d' : Nat} {s t : Control}
    (h : RunD q d d' s t) :
    lockBalance d (emitted s t) = some d' ∧ ∀ e ∈ emitted s t, q e = true := by
  obtain ⟨a, ha, hba, hqa⟩ := h
  rw [emitted_append s t a ha]
  exact ⟨hba, hqa⟩

theorem saveCalls_notShutdownCall (e : Event) (h : saveCalls e = true) :
    notShutdownCall e = true := by
  cases e <;> first | rfl | (simp [saveCalls] at h)

theorem updateWindowTitle_run (s : Control) : Run saveCalls s (updateWindowTitle s) := by
  unfold updateWindowTitle Run
  simp only [Control.emit, Control.docLock, Control.docUnlock]
  split_ifs <;>
    exact RunD.of_append (by simp only [List.append_assoc]; rfl) (by simp [lockBalance])
      (by simp [saveCalls])

theorem resetSavedStatus_run (s : Control) : Run saveCalls s (resetSavedStatus s) := by
  unfold resetSavedStatus
  refine RunD.trans ?_ (updateWindowTitle_run _)
  simp only [Control.emit, Control.docLock, Control.docUnlock]
  exact RunD.of_append (by simp only [List.append_assoc]; rfl) (by simp [lockBalance])
      (by simp [saveCalls])

theorem clearSelectionEndText_run (s : Control) : Run saveCalls s (clearSelectionEndText s) := by
  unfold clearSelectionEndText Run
  cases s.win with
  | none => exact RunD.refl _ _ _
  | some w =>
    exact RunD.of_append (by simp only [List.append_assoc]; rfl) (by simp [lockBalance])
      (by simp [saveCalls])

theorem showSaveDialog_run (s : Control) (choice : Option String) :
    Run saveCalls s (showSaveDialog s choice).1 := by
  unfold showSaveDialog Run
  cases choice <;>
  · simp only [Control.emit, Control.docLock, Control.docUnlock]
    exact RunD.of_append (by simp only [List.append_assoc]; rfl) (by simp [lockBalance])
      (by simp [saveCalls])

theorem unblockCall_trace (s : Control) : (unblockCall s).trace = s.trace := by
  unfold unblockCall unblocked
  split_ifs <;> rfl

theorem saveWithJob_run (s : Control) (synchron jobResult : Bool) :
    Run saveCalls s (saveWithJob s synchron jobResult).1 := by
  unfold saveWithJob
  cases synchron with
  | true =>
    simp only [if_true]
    refine RunD.trans (RunD.emit 0 s (Event.saveJobSave jobResult) rfl rfl) ?_
    refine RunD.trans (RunD.of_trace_eq _ _ (unblockCall_trace _)) (resetSavedStatus_run _)
  | false =>
    exact RunD.emit 0 s _ rfl rfl

theorem save_run (s : Control) (synchron : Bool) (choice : Option String) (jobResult : Bool) :
    Run saveCalls s (save s synchron choice jobResult).1 := by
  unfold save
  refine RunD.trans (clearSelectionEndText_run s) ?_
  have h1 : Run saveCalls (clearSelectionEndText s)
      ((clearSelectionEndText s).docLock.emit Event.docGetFilename).docUnlock := by
    simp only [Control.emit, Control.docLock, Control.docUnlock]
    exact RunD.of_append (by simp only [List.append_assoc]; rfl) (by simp [lockBalance])
      (by simp [saveCalls])
  refine RunD.trans h1 ?_
  simp only
  split_ifs
  · have h2 := showSaveDialog_run
      ((clearSelectionEndText s).docLock.emit Event.docGetFilename).docUnlock choice
    cases hd : showSaveDialog
      ((clearSelectionEndText s).docLock.emit Event.docGetFilename).docUnlock choice with
    | mk s2 ok =>
      rw [hd] at h2
      cases ok with
      | false => exact h2
      | true => exact RunD.trans h2 (saveWithJob_run _ _ _)
  · exact saveWithJob_run _ _ _

theorem addedJobs_of_saveCalls (evs : List Event) (h : ∀ e ∈ evs, saveCalls e = true) :
    ∀ x ∈ addedJobs evs, x = (Job.SaveJob, JobPriority.JOB_PRIORITY_URGENT) := by
  intro x hx
  unfold addedJobs at hx
  rw [List.mem_filterMap] at hx
  obtain ⟨e, he, hex⟩ := hx
  have hq := h e he
  cases e <;> simp at hex
  rename_i job priority
  simp only [saveCalls, decide_eq_true_eq] at hq
  rw [← hex, hq.1, hq.2]

theorem errorReports_of_saveCalls (evs : List Event) (h : ∀ e ∈ evs, saveCalls e = true) :
    errorReports evs = [] := by
  unfold errorReports
  rw [List.filterMap_eq_nil_iff]
  intro e he
  have hq := h e he
  cases e <;> first | rfl | (simp [saveCalls] at hq)

/-! ### C11: priorities of the submitted jobs -/

/-- C11: an asynchronous save of a document that has a filename adds exactly one
job, a `SaveJob` with priority `JOB_PRIORITY_URGENT`; `autosaveCallback`, when
something changed since the last autosave, adds exactly one `AutosaveJob` with
priority `JOB_PRIORITY_NONE`; and on every path every job that `save` adds is a
`SaveJob` with `JOB_PRIORITY_URGENT`, every job that `autosaveCallback` adds is an
`AutosaveJob` with `JOB_PRIORITY_NONE`, and every job that `exportBase` adds is the
export job it was given, with `JOB_PRIORITY_NONE`: no job is added with the
priority `JOB_PRIORITY_NORMAL`. -/
theorem jobs_added_with_their_priority (s : Control) (synchron : Bool) (choice : Option String)
    (jobResult : Bool) (job : Job) (showFilechooser : Bool) :
    (s.doc.filename.isEmpty = false →
      addedJobs (emitted s (save s false choice jobResult).1) =
        [(Job.SaveJob, JobPriority.JOB_PRIORITY_URGENT)])
    ∧ (s.undoRedo.changedAutosave = true →
      addedJobs (emitted s (autosaveCallback s).1) =
        [(Job.AutosaveJob, JobPriority.JOB_PRIORITY_NONE)])
    ∧ (∀ x ∈ addedJobs (emitted s (save s synchron choice jobResult).1),
        x = (Job.SaveJob, JobPriority.JOB_PRIORITY_URGENT))
    ∧ (∀ x ∈ addedJobs (emitted s (autosaveCallback s).1),
        x = (Job.AutosaveJob, JobPriority.JOB_PRIORITY_NONE))
    ∧ (∀ x ∈ addedJobs (emitted s (exportBase s job showFilechooser)),
        x = (job, JobPriority.JOB_PRIORITY_NONE)) := by
  refine ⟨?_, ?_, ?_, ?_, ?_⟩
  · intro hf
    unfold emitted save saveWithJob clearSelectionEndText
    cases hw : s.win <;>
      simp [Control.emit, Control.docLock, Control.docUnlock, hf, addedJobs]
  · intro hc
    unfold emitted autosaveCallback
    simp [hc, Control.emit, addedJobs]
  · exact addedJobs_of_saveCalls _ (RunD.emitted_balance (save_run s synchron choice jobResult)).2
  · intro x hx
    unfold emitted autosaveCallback at hx
    cases hc : s.undoRedo.changedAutosave <;>
      simp [hc, Control.emit, addedJobs] at hx
    exact hx
  · intro x hx
    unfold emitted exportBase at hx
    cases showFilechooser
    · simp [unblockCall_trace, addedJobs] at hx
    · simp [Control.emit, addedJobs] at hx
      exact hx

/-- C11, witness: an asynchronous save of "notes.xopp" adds one urgent `SaveJob`. -/
theorem jobs_added_with_their_priority_witness :
    addedJobs (emitted unsavedChange (save unsavedChange false none true).1) =
      [(Job.SaveJob, JobPriority.JOB_PRIORITY_URGENT)]
    ∧ addedJobs (emitted unsavedChange
        (exportBase unsavedChange Job.PdfExportJob true)) =
      [(Job.PdfExportJob, JobPriority.JOB_PRIORITY_NONE)] :=
  ⟨(jobs_added_with_their_priority unsavedChange false none true Job.PdfExportJob true).1 rfl,
   by decide⟩

/-! ### C12: block is guarded against reentrancy -/

/-- C12: in a state with `isBlocking` true `block(reason)` changes nothing, so
`block(a); block(b)` leaves the same state as `block(a)` whenever `block(a)`
returns; from a state with `isBlocking` false and a window `block(reason)` sets
`isBlocking`, disables the controls and the sidebar, sets the busy cursor, shows
the status bar with the reason as its text and sets `maxState` to 100, and
changes nothing else; from a state with `isBlocking` false and no window it does
not return (it dereferences the null window). -/
theorem block_guarded (s : Control) (a b : String) :
    (s.isBlocking = true → block s a = some s)
    ∧ (∀ t, block s a = some t → block t b = some t)
    ∧ (s.isBlocking = false → s.win.isSome = true →
        block s a =
          some { s with controlTmpDisabled := true, cursorBusy := true,
                        sidebarTmpDisabled := true, lbState := a, statusbarVisible := true,
                        maxState := 100, isBlocking := true }
        ∧ ∃ t, block s a = some t
          ∧ t.isBlocking = true
          ∧ t.controlTmpDisabled = true
          ∧ t.sidebarTmpDisabled = true
          ∧ t.cursorBusy = true
          ∧ t.lbState = a
          ∧ t.statusbarVisible = true
          ∧ t.maxState = 100
          ∧ block t b = some t)
    ∧ (s.isBlocking = false → s.win = none → block s a = none) := by
  refine ⟨?_, ?_, ?_, ?_⟩
  · intro h
    simp [block, h]
  · intro t ht
    have hb : t.isBlocking = true := by
      unfold block at ht
      split_ifs at ht with h1
      · rw [← Option.some.inj ht]
        exact h1
      · cases hw : s.win with
        | none => simp [hw] at ht
        | some w =>
          simp only [hw, Option.some.injEq] at ht
          rw [← ht]
    simp [block, hb]
  · intro h hw
    obtain ⟨w, hw2⟩ := Option.isSome_iff_exists.mp hw
    have heq : block s a =
        some { s with controlTmpDisabled := true, cursorBusy := true,
                      sidebarTmpDisabled := true, lbState := a, statusbarVisible := true,
                      maxState := 100, isBlocking := true } := by
      simp [block, h, hw2]
    refine ⟨heq, _, heq, rfl, rfl, rfl, rfl, rfl, rfl, rfl, ?_⟩
    simp [block]
  · intro h hw
    simp [block, h, hw]

/-- C12, witness: blocking a state with a window with "Save", then with "Export". -/
theorem block_guarded_witness :
    threePages.isBlocking = false ∧ threePages.win.isSome = true
    ∧ (∃ t, block threePages "Save" = some t ∧ t.lbState = "Save" ∧ t.maxState = 100
        ∧ t.isBlocking = true ∧ block t "Export" = some t) :=
  ⟨rfl, rfl,
   match ((block_guarded threePages "Save" "Export").2.2.1 rfl rfl).2 with
   | ⟨t, h1, h2, _, _, _, h6, _, h8, h9⟩ => ⟨t, h1, h6, h8, h2, h9⟩⟩

/-! ### C13: unblock -/

/-- C13: from a state with `isBlocking` false and a window, `block(reason)` returns
and `unblock()` after it returns too: it sets `isBlocking` to false, enables the
controls and the sidebar again, clears the busy cursor and hides the status
bar, and leaves everything else as `block` left it; in a state with `isBlocking`
false `unblock()` changes nothing; in a state with `isBlocking` true and no
window `unblock()` does not return. -/
theorem unblock_after_block (s : Control) (reason : String) :
    (s.isBlocking = false → s.win.isSome = true →
        ∃ t u, block s reason = some t ∧ unblock t = some u
          ∧ u.isBlocking = false
          ∧ u.controlTmpDisabled = false
          ∧ u.sidebarTmpDisabled = false
          ∧ u.cursorBusy = false
          ∧ u.statusbarVisible = false
          ∧ u =
            { s with controlTmpDisabled := false, cursorBusy := false,
                     sidebarTmpDisabled := false, lbState := reason,
                     statusbarVisible := false, maxState := 100, isBlocking := false })
    ∧ (s.isBlocking = false → unblock s = some s)
    ∧ (s.isBlocking = true → s.win = none → unblock s = none)
    ∧ ((s.isBlocking = true → s.win.isSome = true) → unblock s = some (unblockCall s)) := by
  refine ⟨?_, ?_, ?_, ?_⟩
  · intro h hw
    obtain ⟨w, hw2⟩ := Option.isSome_iff_exists.mp hw
    refine ⟨{ s with controlTmpDisabled := true, cursorBusy := true,
                     sidebarTmpDisabled := true, lbState := reason, statusbarVisible := true,
                     maxState := 100, isBlocking := true },
            { s with controlTmpDisabled := false, cursorBusy := false,
                     sidebarTmpDisabled := false, lbState := reason,
                     statusbarVisible := false, maxState := 100, isBlocking := false },
            ?_, ?_, rfl, rfl, rfl, rfl, rfl, rfl⟩
    · simp [block, h, hw2]
    · simp [unblock, unblocked, hw2]
  · intro h
    simp [unblock, h]
  · intro h hw
    simp [unblock, h, hw]
  · intro h
    cases hb : s.isBlocking with
    | false => simp [unblock, unblockCall, hb]
    | true =>
      obtain ⟨w, hw2⟩ := Option.isSome_iff_exists.mp (h hb)
      simp [unblock, unblockCall, hb, hw2]

/-- C13, witness: blocking and unblocking a state with a window. -/
theorem unblock_after_block_witness :
    threePages.isBlocking = false ∧ threePages.win.isSome = true
    ∧ (∃ t u, block threePages "Save" = some t ∧ unblock t = some u
        ∧ u.isBlocking = false ∧ u.controlTmpDisabled = false)
    ∧ unblock threePages = some threePages :=
  ⟨rfl, rfl,
   match (unblock_after_block threePages "Save").1 rfl rfl with
   | ⟨t, u, h1, h2, h3, h4, _⟩ => ⟨t, u, h1, h2, h3, h4⟩,
   (unblock_after_block threePages "Save").2.1 rfl⟩

/-! ### C15: errors of renameLastAutosaveFile are reported once, in the UI thread -/

theorem errorReports_append (a b : List Event) :
    errorReports (a ++ b) = errorReports a ++ errorReports b := by
  unfold errorReports
  rw [List.filterMap_append]

/-- C15: with an empty last autosave filename `renameLastAutosaveFile` does
nothing; otherwise the error reports it makes are: none when the copy and the
deletion succeed, and exactly one, handed to `Util::execInUiThread`, when the
copy fails or the deletion fails; no report is shown from the calling
context. -/
theorem renameLastAutosaveFile_reports_once (s : Control) (a : RenameAnswers) :
    (s.lastAutosaveFilename.isEmpty = true → renameLastAutosaveFile s a = s)
    ∧ (s.lastAutosaveFilename.isEmpty = false →
        errorReports (emitted s (renameLastAutosaveFile s a)) =
          if a.copyOk = true ∧ a.deleteOk = true then [] else [true]) := by
  refine ⟨?_, ?_⟩
  · intro h
    simp [renameLastAutosaveFile, h]
  · intro h
    have hsave : ∃ evs, (if (!a.fileExists) = true then
          (save (s.emit (Event.call "g_message")) false a.saveChoice a.saveJobResult).1
        else s.emit (Event.call "g_message")).trace = s.trace ++ evs
        ∧ errorReports evs = [] := by
      cases a.fileExists with
      | true => exact ⟨[Event.call "g_message"], by simp [Control.emit], rfl⟩
      | false =>
        obtain ⟨evs, h1, _, h3⟩ :=
          save_run (s.emit (Event.call "g_message")) false a.saveChoice a.saveJobResult
        refine ⟨[Event.call "g_message"] ++ evs, ?_, ?_⟩
        · simp only [Bool.not_false, if_true]
          rw [h1]
          simp [Control.emit]
        · rw [errorReports_append, errorReports_of_saveCalls evs h3]
          rfl
    obtain ⟨evs, h1, h2⟩ := hsave
    have hmove : ∀ (t : Control) (f r : String),
        ∃ tail, (moveAutosaveFile t a f r).trace = t.trace ++ tail
          ∧ errorReports tail = if a.copyOk = true ∧ a.deleteOk = true then [] else [true] := by
      intro t f r
      unfold moveAutosaveFile
      cases hc : a.copyOk <;> cases hd : a.deleteOk <;>
        simp [Control.emit, errorReports]
    unfold renameLastAutosaveFile
    simp only [h, Bool.false_eq_true, if_false]
    obtain ⟨tail, h3, h4⟩ := hmove
      (if (!a.fileExists) = true then
          (save (s.emit (Event.call "g_message")) false a.saveChoice a.saveJobResult).1
        else s.emit (Event.call "g_message"))
      s.lastAutosaveFilename (renamedAutosaveFile a s.lastAutosaveFilename)
    rw [emitted_append s _ (evs ++ tail) (by rw [h3, h1, List.append_assoc])]
    rw [errorReports_append, h2, h4]
    rfl

/-- C15, witness: the copy succeeds and the deletion fails: one report, in the UI
thread. -/
theorem renameLastAutosaveFile_reports_once_witness :
    withAutosave.lastAutosaveFilename.isEmpty = false
    ∧ errorReports (emitted withAutosave (renameLastAutosaveFile withAutosave deleteFails))
        = [true] :=
  ⟨rfl, (renameLastAutosaveFile_reports_once withAutosave deleteFails).2 rfl⟩

/-! ### C16: undo/redo round trip -/

theorem undo_iterate_cursor (sem : UndoSemantics) (u : UndoRedoHandler) (doc : Document)
    (hcur : u.cursor ≤ u.actions.length) :
    ∀ K : Nat, K ≤ u.cursor →
      ((UndoRedoHandler.undo sem)^[K] (u, doc)).1 = { u with cursor := u.cursor - K } := by
  intro K
  induction K with
  | zero =>
    intro _
    rfl
  | succ K ih =>
    intro hK
    have hx := ih (by omega)
    rw [Function.iterate_succ_apply']
    generalize (UndoRedoHandler.undo sem)^[K] (u, doc) = x at hx
    obtain ⟨v, d⟩ := x
    simp only at hx
    subst hx
    have hlt : u.cursor - K - 1 < u.actions.length := by omega
    unfold UndoRedoHandler.undo
    have hne : ¬ (u.cursor - K = 0) := by omega
    simp only [hne, if_false, List.getElem?_eq_getElem hlt]
    simp
    omega

/-- C17: for every well-formed ActionLog and every `K` not larger than the number
of undoable actions, after `K` calls of `undo()` the redoable actions are the `K`
undone actions followed by those that were redoable before; pushing a new
action then keeps the actions before the cursor, puts the new action behind
them and leaves no action redoable, so the `K` undone actions are discarded,
and a `redo()` right after the push changes nothing. -/
theorem push_after_undo_discards_redo (sem : UndoSemantics) (u : UndoRedoHandler)
    (doc : Document) (K : Nat) (a : UndoAction)
    (hcur : u.cursor ≤ u.actions.length) (hK : K ≤ u.cursor) :
    (((UndoRedoHandler.undo sem)^[K] (u, doc)).1).redoable
        = u.undoable.drop (u.cursor - K) ++ u.redoable
    ∧ (u.undoable.drop (u.cursor - K)).length = K
    ∧ ((((UndoRedoHandler.undo sem)^[K] (u, doc)).1).addUndoAction a).actions
        = u.undoable.take (u.cursor - K) ++ [a]
    ∧ ((((UndoRedoHandler.undo sem)^[K] (u, doc)).1).addUndoAction a).redoable = []
    ∧ (∀ d : Document,
        UndoRedoHandler.redo sem
          ((((UndoRedoHandler.undo sem)^[K] (u, doc)).1).addUndoAction a, d)
        = ((((UndoRedoHandler.undo sem)^[K] (u, doc)).1).addUndoAction a, d)) := by
  rw [undo_iterate_cursor sem u doc hcur K hK]
  have hlen : (u.actions.take (u.cursor - K)).length = u.cursor - K :=
    List.length_take_of_le (by omega)
  refine ⟨?_, ?_, ?_, ?_, ?_⟩
  · simp only [UndoRedoHandler.redoable, UndoRedoHandler.undoable]
    rw [List.drop_take]
    have h1 : u.cursor - (u.cursor - K) = K := by omega
    rw [h1]
    have h2 : List.drop u.cursor u.actions
        = List.drop K (List.drop (u.cursor - K) u.actions) := by
      rw [List.drop_drop]
      congr 1
      omega
    rw [h2, List.take_append_drop]
  · simp only [UndoRedoHandler.undoable, List.length_drop, List.length_take]
    omega
  · simp only [UndoRedoHandler.addUndoAction, UndoRedoHandler.undoable, List.take_take]
    congr 2
    omega
  · simp only [UndoRedoHandler.redoable, UndoRedoHandler.addUndoAction]
    apply List.drop_eq_nil_of_le
    simp [hlen]
  · intro d
    unfold UndoRedoHandler.redo
    have : (({ u with cursor := u.cursor - K } : UndoRedoHandler).addUndoAction a).actions[
        (({ u with cursor := u.cursor - K } : UndoRedoHandler).addUndoAction a).cursor]? = none := by
      apply List.getElem?_eq_none
      simp [UndoRedoHandler.addUndoAction, hlen]
    simp only [this]

/-- C17, witness: a log of three actions of which the last is already undone; one
more `undo()` and a push leave the first action and the new one, nothing to
redo. -/
theorem push_after_undo_discards_redo_witness :
    logWithRedo.cursor ≤ logWithRedo.actions.length
    ∧ ((((UndoRedoHandler.undo documentSemantics)^[1] (logWithRedo, sketchDocument)).1
        ).addUndoAction (UndoAction.InsertDeletePageUndoAction (some 16) 0 true)).actions
      = [UndoAction.InsertDeletePageUndoAction (some 13) 2 true,
         UndoAction.InsertDeletePageUndoAction (some 16) 0 true] :=
  ⟨by decide,
   (push_after_undo_discards_redo documentSemantics logWithRedo sketchDocument 1
      (UndoAction.InsertDeletePageUndoAction (some 16) 0 true) (by decide) (by decide)).2.2.1⟩

/-! ### C18: jobs start by priority, then in submission order -/

theorem schedulerAddJob_append (a b : List QueuedJob) (j : QueuedJob)
    (ha : ∀ x ∈ a, x.priority.rank ≤ j.priority.rank)
    (hb : ∀ x ∈ b, j.priority.rank < x.priority.rank) :
    schedulerAddJob (a ++ b) j = a ++ j :: b := by
  induction a with
  | nil =>
    cases b with
    | nil => rfl
    | cons y rest =>
      have := hb y (List.mem_cons_self _ _)
      show schedulerAddJob (y :: rest) j = j :: y :: rest
      rw [schedulerAddJob, if_neg (by omega)]
  | cons x rest ih =>
    have hx := ha x (List.mem_cons_self _ _)
    show schedulerAddJob (x :: (rest ++ b)) j = x :: (rest ++ j :: b)
    rw [schedulerAddJob, if_pos hx, ih (fun y hy => ha y (List.mem_cons_of_mem _ hy))]

theorem startOrder_eq_tiers (submissions : List QueuedJob) :
    startOrder submissions =
      ofPriority JobPriority.JOB_PRIORITY_URGENT submissions
        ++ ofPriority JobPriority.JOB_PRIORITY_NORMAL submissions
        ++ ofPriority JobPriority.JOB_PRIORITY_NONE submissions := by
  induction submissions using List.reverseRecOn with
  | nil => rfl
  | append_singleton subs j ih =>
    have hstep : startOrder (subs ++ [j]) = schedulerAddJob (startOrder subs) j := by
      simp [startOrder, List.foldl_append]
    have hmem : ∀ (p : JobPriority) (x : QueuedJob), x ∈ ofPriority p subs → x.priority = p := by
      intro p x hx
      simpa using (List.mem_filter.mp hx).2
    rw [hstep, ih]
    cases hj : j.priority with
    | JOB_PRIORITY_URGENT =>
      have h := schedulerAddJob_append (ofPriority JobPriority.JOB_PRIORITY_URGENT subs)
        (ofPriority JobPriority.JOB_PRIORITY_NORMAL subs
          ++ ofPriority JobPriority.JOB_PRIORITY_NONE subs) j
        (by intro x hx; rw [hmem _ x hx, hj])
        (by
          intro x hx
          rcases List.mem_append.mp hx with h | h
          · rw [hmem _ x h, hj]; decide
          · rw [hmem _ x h, hj]; decide)
      rw [List.append_assoc, h]
      simp [ofPriority, List.filter_append, hj]
    | JOB_PRIORITY_NORMAL =>
      have h := schedulerAddJob_append (ofPriority JobPriority.JOB_PRIORITY_URGENT subs
          ++ ofPriority JobPriority.JOB_PRIORITY_NORMAL subs)
        (ofPriority JobPriority.JOB_PRIORITY_NONE subs) j
        (by
          intro x hx
          rcases List.mem_append.mp hx with h | h
          · rw [hmem _ x h, hj]; decide
          · rw [hmem _ x h, hj])
        (by intro x hx; rw [hmem _ x hx, hj]; decide)
      rw [h]
      simp [ofPriority, List.filter_append, hj]
    | JOB_PRIORITY_NONE =>
      have h := schedulerAddJob_append (ofPriority JobPriority.JOB_PRIORITY_URGENT subs
          ++ ofPriority JobPriority.JOB_PRIORITY_NORMAL subs
          ++ ofPriority JobPriority.JOB_PRIORITY_NONE subs) [] j
        (by
          intro x hx
          rcases List.mem_append.mp hx with h | h
          · rcases List.mem_append.mp h with h | h
            · rw [hmem _ x h, hj]; decide
            · rw [hmem _ x h, hj]; decide
          · rw [hmem _ x h, hj])
        (by intro x hx; cases hx)
      rw [List.append_nil] at h
      rw [h]
      simp [ofPriority, List.filter_append, hj]

theorem ofPriority_append (p : JobPriority) (a b : List QueuedJob) :
    ofPriority p (a ++ b) = ofPriority p a ++ ofPriority p b := by
  unfold ofPriority
  rw [List.filter_append]

theorem ofPriority_ofPriority (p q : JobPriority) (jobs : List QueuedJob) :
    ofPriority p (ofPriority q jobs) = if p = q then ofPriority p jobs else [] := by
  unfold ofPriority
  rw [List.filter_filter]
  by_cases h : p = q
  · subst h
    simp
  · rw [if_neg h, List.filter_eq_nil_iff]
    intro x _
    simp only [Bool.and_eq_true, decide_eq_true_eq, not_and]
    intro hp hq
    exact h (hp ▸ hq ▸ rfl)

/-- C18: the jobs that were submitted while none had started start in the order:
all Urgent jobs, then all Normal jobs, then all None jobs, each tier in
submission order, whatever the blocking flags are.  So a job added with priority
Urgent is queued ahead of every queued Normal and None job and behind the queued
Urgent jobs, and the jobs of one priority start in the order in which they were
submitted. -/
theorem jobs_start_by_priority_then_fifo (submissions : List QueuedJob) (j : QueuedJob)
    (p : JobPriority) :
    startOrder submissions =
        ofPriority JobPriority.JOB_PRIORITY_URGENT submissions
          ++ ofPriority JobPriority.JOB_PRIORITY_NORMAL submissions
          ++ ofPriority JobPriority.JOB_PRIORITY_NONE submissions
    ∧ (j.priority = JobPriority.JOB_PRIORITY_URGENT →
        schedulerAddJob (startOrder submissions) j =
          ofPriority JobPriority.JOB_PRIORITY_URGENT submissions ++ [j]
            ++ ofPriority JobPriority.JOB_PRIORITY_NORMAL submissions
            ++ ofPriority JobPriority.JOB_PRIORITY_NONE submissions)
    ∧ ofPriority p (startOrder submissions) = ofPriority p submissions := by
  refine ⟨startOrder_eq_tiers submissions, ?_, ?_⟩
  · intro hj
    have h1 : schedulerAddJob (startOrder submissions) j = startOrder (submissions ++ [j]) := by
      simp [startOrder, List.foldl_append]
    rw [h1, startOrder_eq_tiers]
    simp [ofPriority, List.filter_append, hj]
  · rw [startOrder_eq_tiers, ofPriority_append, ofPriority_append, ofPriority_ofPriority,
      ofPriority_ofPriority, ofPriority_ofPriority]
    cases p <;> simp

/-- C18, witness: an urgent save submitted third starts first; the three jobs of
priority None start in the order of their submission, the blocking export
between the two background jobs. -/
theorem jobs_start_by_priority_then_fifo_witness :
    startOrder fourSubmissions =
      [⟨Job.SaveJob, JobPriority.JOB_PRIORITY_URGENT, false⟩,
       ⟨Job.AutosaveJob, JobPriority.JOB_PRIORITY_NONE, false⟩,
       ⟨Job.PdfExportJob, JobPriority.JOB_PRIORITY_NONE, true⟩,
       ⟨Job.CustomExportJob, JobPriority.JOB_PRIORITY_NONE, false⟩] :=
  (jobs_start_by_priority_then_fifo fourSubmissions
    ⟨Job.SaveJob, JobPriority.JOB_PRIORITY_URGENT, false⟩ JobPriority.JOB_PRIORITY_NONE).1

/-! ### Runs of the operations -/

theorem updateDeletePageButton_run (s : Control) :
    Run notShutdownCall s (updateDeletePageButton s) := by
  unfold updateDeletePageButton Run
  cases s.win with
  | none => exact RunD.refl _ _ _
  | some w =>
    simp only [Control.emit]
    exact RunD.of_append (by simp only [List.append_assoc]; rfl) (by simp [lockBalance])
      (by simp [notShutdownCall])

theorem updateWindowTitle_run2 (s : Control) :
    Run notShutdownCall s (updateWindowTitle s) :=
  RunD.mono saveCalls_notShutdownCall (updateWindowTitle_run s)

theorem clearSelectionEndText_run2 (s : Control) :
    Run notShutdownCall s (clearSelectionEndText s) :=
  RunD.mono saveCalls_notShutdownCall (clearSelectionEndText_run s)

theorem save_run2 (s : Control) (synchron : Bool) (choice : Option String) (jobResult : Bool) :
    Run notShutdownCall s (save s synchron choice jobResult).1 :=
  RunD.mono saveCalls_notShutdownCall (save_run s synchron choice jobResult)

theorem showSaveDialog_run2 (s : Control) (choice : Option String) :
    Run notShutdownCall s (showSaveDialog s choice).1 :=
  RunD.mono saveCalls_notShutdownCall (showSaveDialog_run s choice)

theorem resetSavedStatus_run2 (s : Control) : Run notShutdownCall s (resetSavedStatus s) :=
  RunD.mono saveCalls_notShutdownCall (resetSavedStatus_run s)

theorem undoRedoChanged_run (s : Control) : Run notShutdownCall s (undoRedoChanged s) := by
  unfold undoRedoChanged
  refine RunD.trans ?_ (updateWindowTitle_run2 _)
  simp only [Control.emit]
  exact RunD.of_append (by simp only [List.append_assoc]; rfl) (by simp [lockBalance])
    (by simp [notShutdownCall])

theorem closeDocument_run (s : Control) : Run notShutdownCall s (closeDocument s) := by
  unfold closeDocument
  refine RunD.trans ?_ (undoRedoChanged_run _)
  simp only [Control.docLock, Control.docUnlock]
  exact RunD.of_append (by simp only [List.append_assoc]; rfl) (by simp [lockBalance])
    (by simp [notShutdownCall])

theorem saveAs_run (s : Control) (dflt : Defaults) (c1 c2 : Option String) (jr : Bool) :
    Run notShutdownCall s (saveAs s dflt c1 c2 jr).1 := by
  unfold saveAs
  have h1 := showSaveDialog_run2 s c1
  cases hd : showSaveDialog s c1 with
  | mk s1 ok =>
    rw [hd] at h1
    cases ok with
    | false => exact h1
    | true =>
      refine RunD.trans h1 ?_
      have h2 : Run notShutdownCall s1 (s1.docLock.emit Event.docGetFilename).docUnlock := by
        simp only [Control.emit, Control.docLock, Control.docUnlock]
        exact RunD.of_append (by simp only [List.append_assoc]; rfl) (by simp [lockBalance])
          (by simp [notShutdownCall])
      refine RunD.trans h2 ?_
      simp only
      split_ifs
      · exact RunD.refl _ _ _
      · exact RunD.trans (RunD.emit 0 _ (Event.call "doc->setCreateBackupOnSave") rfl rfl)
          (save_run2 _ _ _ _)

theorem call_run (s : Control) (name : String) :
    Run notShutdownCall s (s.emit (Event.call name)) :=
  RunD.emit 0 s _ rfl rfl

theorem callAt_run (s : Control) (name : String) (n : Nat) :
    Run notShutdownCall s (s.emit (Event.callAt name n)) :=
  RunD.emit 0 s _ rfl rfl

theorem showCloseDialog_run (s : Control) (fileRemoved allowCancel : Bool) :
    Run notShutdownCall s (s.emit (Event.showCloseDialog fileRemoved allowCancel)) :=
  RunD.emit 0 s _ rfl rfl

theorem showErrorToUser_run (s : Control) (inUiThread : Bool) :
    Run notShutdownCall s (s.emit (Event.showErrorToUser inUiThread)) :=
  RunD.emit 0 s _ rfl rfl

theorem closeReadFilename_run (s : Control) :
    Run notShutdownCall s (closeReadFilename s) := by
  unfold closeReadFilename
  have h1 : Run notShutdownCall s
      (((clearSelectionEndText s).emit (Event.call "metadata->documentChanged")).emit
        Event.docGetFilename) :=
    RunD.trans (RunD.trans (clearSelectionEndText_run2 s) (call_run _ _))
      (RunD.emit 0 _ Event.docGetFilename rfl rfl)
  simp only
  split_ifs
  · exact h1
  · exact RunD.trans h1 (RunD.emit 0 _ Event.docGetFilename rfl rfl)

theorem closeDecide_run (s : Control) (dflt : Defaults) (allowDestroy allowCancel : Bool)
    (a : CloseAnswers) :
    Run notShutdownCall s (closeDecide s dflt allowDestroy allowCancel a).1 := by
  unfold closeDecide
  simp only
  by_cases hch : s.undoRedo.changed = true
  · rw [if_pos hch]
    cases a.response with
    | GTK_RESPONSE_ACCEPT =>
      simp only
      split_ifs
      · exact RunD.trans (showCloseDialog_run _ _ _) (saveAs_run _ _ _ _ _)
      · exact RunD.trans (showCloseDialog_run _ _ _) (save_run2 _ _ _ _)
    | GTK_RESPONSE_REJECT =>
      simp only
      split_ifs
      · exact RunD.trans (showCloseDialog_run _ _ _) (closeDocument_run _)
      · exact showCloseDialog_run _ _ _
    | GTK_RESPONSE_CANCEL => exact showCloseDialog_run _ _ _
    | GTK_RESPONSE_DELETE_EVENT => exact showCloseDialog_run _ _ _
  · rw [if_neg hch]
    exact RunD.refl _ _ _

theorem close_run (s : Control) (dflt : Defaults) (allowDestroy allowCancel : Bool)
    (a : CloseAnswers) :
    Run notShutdownCall s (close s dflt allowDestroy allowCancel a).1 := by
  unfold close
  exact RunD.trans (closeReadFilename_run s) (closeDecide_run _ _ _ _ _)

theorem closeAndDestroy_run (s : Control) (dflt : Defaults) (allowCancel : Bool)
    (a : CloseAnswers) :
    Run notShutdownCall s (closeAndDestroy s dflt allowCancel a).1 := by
  unfold closeAndDestroy
  exact RunD.trans (close_run s dflt false allowCancel a) (closeDocument_run _)

theorem addPageLocked_run (s : Control) (page : XojPage) (data : PageData) :
    Run notShutdownCall s (addPageLocked s page data) := by
  unfold addPageLocked Run
  simp only [Control.emit, Control.docLock, Control.docUnlock]
  exact RunD.of_append (by simp only [List.append_assoc]; rfl) (by simp [lockBalance])
    (by simp [notShutdownCall])

theorem addDefaultPage_run (s : Control) (page : XojPage) (data : PageData) :
    Run notShutdownCall s (addDefaultPage s page data) := by
  unfold addDefaultPage
  exact RunD.trans (addPageLocked_run s page data) (updateDeletePageButton_run _)

theorem loadMetadata_run (s : Control) (md : MetadataEntry) :
    Run notShutdownCall s (loadMetadata s md) := by
  unfold loadMetadata Run
  exact RunD.of_append rfl (by simp [lockBalance]) (by simp [notShutdownCall])

theorem fileLoadedMetadata_run (s : Control) (scrollToPage : Int) (stored : MetadataEntry) :
    Run notShutdownCall s (fileLoadedMetadata s scrollToPage stored) := by
  unfold fileLoadedMetadata
  have h1 : Run notShutdownCall s (s.docLock.emit Event.docGetEvMetadataFilename).docUnlock := by
    unfold Run
    simp only [Control.emit, Control.docLock, Control.docUnlock]
    exact RunD.of_append (by simp only [List.append_assoc]; rfl) (by simp [lockBalance])
      (by simp [notShutdownCall])
  simp only
  by_cases hf : (!s.doc.getEvMetadataFilename.isEmpty) = true
  · rw [if_pos hf]
    exact RunD.trans (RunD.trans (RunD.trans h1 (call_run _ _)) (loadMetadata_run _ _))
      (RunD.emit 0 _ (Event.addRecentFile _) rfl rfl)
  · rw [if_neg hf]
    exact RunD.trans (RunD.trans h1 (call_run _ _)) (call_run _ _)

theorem fileLoadedRefresh_run (s : Control) : Run notShutdownCall s (fileLoadedRefresh s) := by
  unfold fileLoadedRefresh
  exact RunD.trans (call_run _ _) (call_run _ _)

theorem fileLoaded_run (s : Control) (scrollToPage : Int) (stored : MetadataEntry) :
    Run notShutdownCall s (fileLoaded s scrollToPage stored) := by
  unfold fileLoaded
  exact RunD.trans (RunD.trans (RunD.trans (fileLoadedMetadata_run s scrollToPage stored)
    (updateWindowTitle_run2 _)) (fileLoadedRefresh_run _)) (updateDeletePageButton_run _)

theorem replaceByEmptyDocument_run (s : Control) :
    Run notShutdownCall s (replaceByEmptyDocument s) := by
  unfold replaceByEmptyDocument Run
  simp only [Control.emit, Control.docLock, Control.docUnlock]
  exact RunD.of_append (by simp only [List.append_assoc]; rfl) (by simp [lockBalance])
    (by simp [notShutdownCall])

theorem newFile_run (s : Control) (dflt : Defaults) (a : NewFileAnswers) :
    Run notShutdownCall s (newFile s dflt a).1 := by
  unfold newFile
  have h1 := close_run s dflt true dflt.closeAllowCancel a.close
  cases hc : close s dflt true dflt.closeAllowCancel a.close with
  | mk s1 ok =>
    rw [hc] at h1
    cases ok with
    | false => exact h1
    | true =>
      simp only at h1 ⊢
      exact RunD.trans (RunD.trans (RunD.trans (RunD.trans h1 (replaceByEmptyDocument_run _))
        (addDefaultPage_run _ _ _)) (call_run _ _)) (fileLoaded_run _ _ _)

theorem firePageSelected_run (s : Control) (page : XojPage) :
    Run notShutdownCall s (firePageSelected s page).1 := by
  unfold firePageSelected
  have h1 : Run notShutdownCall s (s.docLock.emit (Event.docIndexOf page)).docUnlock := by
    unfold Run
    simp only [Control.emit, Control.docLock, Control.docUnlock]
    exact RunD.of_append (by simp only [List.append_assoc]; rfl) (by simp [lockBalance])
      (by simp [notShutdownCall])
  simp only
  split_ifs
  · exact h1
  · exact RunD.trans h1 (callAt_run _ _ _)

theorem insertPageLocked_run (s : Control) (page : XojPage) (position : Nat)
    (visibleHeight : Int) :
    Run notShutdownCall s (insertPageLocked s page position visibleHeight) := by
  unfold insertPageLocked Run
  simp only [Control.emit, Control.docLock, Control.docUnlock]
  split_ifs <;>
    exact RunD.of_append (by simp only [List.append_assoc]; rfl) (by simp [lockBalance])
      (by simp [notShutdownCall])

theorem addUndoAction_run (s : Control) (a : UndoAction) :
    Run notShutdownCall s (s.addUndoAction a) := by
  unfold Control.addUndoAction Run
  exact RunD.of_append rfl (by simp [lockBalance]) (by simp [notShutdownCall])

theorem insertPage_run (s : Control) (page : XojPage) (position : Nat) (visibleHeight : Int) :
    Run notShutdownCall s (insertPage s page position visibleHeight) := by
  unfold insertPage
  exact RunD.trans (RunD.trans (insertPageLocked_run s page position visibleHeight)
    (updateDeletePageButton_run _)) (addUndoAction_run _ _)

theorem chooseBackgroundColor_run (s : Control) (p : XojPage) (pNr : Nat) (color : Int) :
    Run notShutdownCall s (chooseBackgroundColor s p pNr color) := by
  unfold chooseBackgroundColor Run
  simp only [Control.emit]
  split_ifs <;>
    exact RunD.of_append (by simp only [List.append_assoc]; rfl) (by simp [lockBalance])
      (by simp [notShutdownCall])

theorem changePageBackgroundColor_run (s : Control) (color : Int) :
    Run notShutdownCall s (changePageBackgroundColor s color) := by
  unfold changePageBackgroundColor
  have h1 : Run notShutdownCall s
      (s.docLock.emit (Event.docGetPage (getCurrentPageNo s))).docUnlock := by
    unfold Run
    simp only [Control.emit, Control.docLock, Control.docUnlock]
    exact RunD.of_append (by simp only [List.append_assoc]; rfl) (by simp [lockBalance])
      (by simp [notShutdownCall])
  simp only
  cases s.doc.getPage (getCurrentPageNo s) with
  | none => exact h1
  | some p =>
    simp only
    split_ifs
    · exact RunD.trans h1 (clearSelectionEndText_run2 _)
    · exact RunD.trans (RunD.trans h1 (clearSelectionEndText_run2 _))
        (chooseBackgroundColor_run _ _ _ _)

theorem print_run (s : Control) : Run notShutdownCall s (print s) := by
  unfold print Run
  simp only [Control.emit, Control.docLock, Control.docUnlock]
  exact RunD.of_append (by simp only [List.append_assoc]; rfl) (by simp [lockBalance])
    (by simp [notShutdownCall])

theorem pasteElement_run (s : Control) (w : MainWindow) (page : XojPage) (view : Nat)
    (e : Element) :
    RunD notShutdownCall 1 0 s (pasteElement s w page view e) := by
  unfold pasteElement
  simp only [Control.emit, Control.docLock, Control.docUnlock, Control.addUndoAction,
    setSelection]
  exact RunD.of_append (by simp only [List.append_assoc]; rfl) (by simp [lockBalance])
    (by simp [notShutdownCall])

theorem clipboardPaste_run (s t : Control) (e : Element) (h : clipboardPaste s e = some t) :
    Run notShutdownCall s t := by
  unfold clipboardPaste at h
  simp only at h
  split_ifs at h with hp
  · simp only [Option.some.injEq] at h
    subst h
    exact RunD.refl _ _ _
  · cases hw : s.win with
    | none => simp [hw] at h
    | some w =>
      simp only [hw] at h
      cases hv : w.viewFor (getCurrentPageNo s) with
      | none =>
        simp only [hv, Option.some.injEq] at h
        subst h
        exact RunD.refl _ _ _
      | some view =>
        simp only [hv] at h
        cases hg : s.doc.getPage (getCurrentPageNo s) with
        | none => simp [hg] at h
        | some page =>
          simp only [hg, Option.some.injEq] at h
          subst h
          exact RunD.trans (RunD.trans (RunD.docLock 0 s rfl)
            (RunD.emit 1 _ (Event.docGetPage _) rfl rfl)) (pasteElement_run _ _ _ _ _)

theorem clipboardPasteImage_run (s t : Control) (imgWidth imgHeight dpi : Int)
    (h : clipboardPasteImage s imgWidth imgHeight dpi = some t) :
    Run notShutdownCall s t := by
  unfold clipboardPasteImage at h
  by_cases hp : toInt (getCurrentPageNo s) = -1
  · simp only [if_pos hp, Option.some.injEq] at h
    subst h
    exact RunD.refl _ _ _
  · simp only [if_neg hp] at h
    cases hg : (s.docLock.emit
        (Event.docGetPage (toSizeT (toInt (getCurrentPageNo s))))).doc.getPage
        (toSizeT (toInt (getCurrentPageNo s))) with
    | none => simp [hg] at h
    | some page =>
      simp only [hg] at h
      refine RunD.trans ?_ (clipboardPaste_run _ _ _ h)
      simp only [Control.emit, Control.docLock, Control.docUnlock]
      exact RunD.of_append (by simp only [List.append_assoc]; rfl) (by simp [lockBalance])
        (by simp [notShutdownCall])

theorem shouldFileOpen_run (toLowerCase : String → String) (configFolder : String)
    (s : Control) (filename : String) :
    Run notShutdownCall s (shouldFileOpen toLowerCase configFolder s filename).1 := by
  unfold shouldFileOpen
  simp only
  split_ifs <;>
    first
    | exact RunD.refl _ _ _
    | exact showErrorToUser_run _ _

theorem annotatePdfRead_run (s : Control) (name : String) (a : AnnotateAnswers) :
    Run notShutdownCall s (annotatePdfRead s name a) := by
  unfold annotatePdfRead
  cases a.pdf with
  | none =>
    unfold Run
    simp only [Control.emit, Control.docLock, Control.docUnlock]
    exact RunD.of_append (by simp only [List.append_assoc]; rfl) (by simp [lockBalance])
      (by simp [notShutdownCall])
  | some loaded =>
    unfold Run
    simp only [Control.emit, Control.docLock, Control.docUnlock, loadMetadata]
    exact RunD.of_append (by simp only [List.append_assoc]; rfl) (by simp [lockBalance])
      (by simp [notShutdownCall])

theorem annotatePdfFinish_run (s : Control) : Run notShutdownCall s (annotatePdfFinish s) := by
  unfold annotatePdfFinish
  exact RunD.trans (RunD.trans (call_run _ _) (call_run _ _)) (call_run _ _)

theorem annotatePdfChoose_run (s : Control) (filename : String) (a : AnnotateAnswers) :
    Run notShutdownCall s (annotatePdfChoose s filename a).1 := by
  unfold annotatePdfChoose
  split_ifs
  · exact call_run _ _
  · exact RunD.trans (RunD.trans (RunD.trans (call_run _ _) (closeDocument_run _))
      (annotatePdfRead_run _ _ _)) (annotatePdfFinish_run _)
  · exact RunD.trans (RunD.trans (closeDocument_run _) (annotatePdfRead_run _ _ _))
      (annotatePdfFinish_run _)

theorem annotatePdf_run (s : Control) (dflt : Defaults) (filename : String)
    (a : AnnotateAnswers) :
    Run notShutdownCall s (annotatePdf s dflt filename a).1 := by
  unfold annotatePdf
  have h1 := close_run s dflt false dflt.closeAllowCancel a.close
  cases hc : close s dflt false dflt.closeAllowCancel a.close with
  | mk s1 ok =>
    rw [hc] at h1
    cases ok with
    | false => exact h1
    | true => exact RunD.trans h1 (annotatePdfChoose_run _ _ _)

theorem loadPdfAutoload_run (s : Control) (a : LoadPdfAnswers) :
    Run notShutdownCall s (loadPdfAutoload s a).1 := by
  unfold loadPdfAutoload
  split_ifs
  · cases a.xopp with
    | none => exact RunD.trans (call_run _ _) (call_run _ _)
    | some d => exact call_run _ _
  · exact RunD.refl _ _ _

theorem replaceDocument_run (s : Control) (loaded : LoadedDocument) :
    Run notShutdownCall s (replaceDocument s loaded) := by
  unfold replaceDocument Run
  simp only [Control.emit, Control.docLock, Control.docUnlock]
  exact RunD.of_append (by simp only [List.append_assoc]; rfl) (by simp [lockBalance])
    (by simp [notShutdownCall])

theorem loadPdf_run (s : Control) (dflt : Defaults) (filename : String) (scrollToPage : Int)
    (a : LoadPdfAnswers) :
    Run notShutdownCall s (loadPdf s dflt filename scrollToPage a).1 := by
  unfold loadPdf
  have h1 := loadPdfAutoload_run s a
  cases hc : loadPdfAutoload s a with
  | mk s2 tmp =>
    rw [hc] at h1
    simp only at h1
    cases tmp with
    | some d =>
      simp only
      exact RunD.trans (RunD.trans h1 (replaceDocument_run _ _)) (fileLoaded_run _ _ _)
    | none =>
      simp only
      have h2 := annotatePdf_run s2 dflt filename a.annotate
      cases ha : annotatePdf s2 dflt filename a.annotate with
      | mk s3 an =>
        rw [ha] at h2
        simp only at h2 ⊢
        exact RunD.trans (RunD.trans h1 h2) (fileLoaded_run _ _ _)

theorem loadXoptTemplate_run (s : Control) (dflt : Defaults) (contents : Option String)
    (a : NewFileAnswers) :
    Run notShutdownCall s (loadXoptTemplate s dflt contents a).1 := by
  unfold loadXoptTemplate
  cases contents with
  | none => exact call_run _ _
  | some c => exact RunD.trans (call_run _ _) (newFile_run _ _ _)

theorem openFileLoadTry_run (s : Control) (filename : String) (a : OpenAnswers) :
    Run notShutdownCall s (openFileLoadTry s filename a).1 := by
  unfold openFileLoadTry
  simp only
  split_ifs
  · exact RunD.trans (RunD.trans (call_run _ _) (call_run _ _)) (call_run _ _)
  · exact RunD.trans (RunD.trans (RunD.trans (call_run _ _) (call_run _ _)) (call_run _ _))
        (call_run _ _)
  · exact RunD.trans (RunD.trans (call_run _ _) (call_run _ _)) (call_run _ _)
  · exact RunD.trans (call_run _ _) (call_run _ _)
  · exact call_run _ _

theorem openFileLoad_run (s : Control) (filename : String) (scrollToPage : Int)
    (a : OpenAnswers) :
    Run notShutdownCall s (openFileLoad s filename scrollToPage a).1 := by
  unfold openFileLoad
  have h1 := openFileLoadTry_run s filename a
  cases hc : openFileLoadTry s filename a with
  | mk s4 loaded =>
    rw [hc] at h1
    simp only at h1
    cases loaded with
    | none =>
      simp only
      exact RunD.trans (RunD.trans h1 (showErrorToUser_run _ _)) (fileLoaded_run _ _ _)
    | some d =>
      simp only
      exact RunD.trans (RunD.trans (RunD.trans h1 (replaceDocument_run _ _)) (call_run _ _))
        (fileLoaded_run _ _ _)

theorem openFileDispatch_run (s : Control) (dflt : Defaults) (name : String)
    (scrollToPage : Int) (a : OpenAnswers) :
    Run notShutdownCall s (openFileDispatch s dflt name scrollToPage a).1 := by
  unfold openFileDispatch
  split_ifs
  · exact RunD.trans (closeDocument_run _) (loadXoptTemplate_run _ _ _ _)
  · exact RunD.trans (closeDocument_run _) (loadPdf_run _ _ _ _ _)
  · exact RunD.trans (closeDocument_run _) (openFileLoad_run _ _ _ _)

theorem openFileChoose_run (s : Control) (dflt : Defaults) (filename : String)
    (scrollToPage : Int) (a : OpenAnswers) :
    Run notShutdownCall s (openFileChoose s dflt filename scrollToPage a).1 := by
  unfold openFileChoose
  have h0 : Run notShutdownCall s
      ((s.emit (Event.call "showOpenDialog")).emit (Event.call "g_message")) :=
    RunD.trans (call_run _ _) (call_run _ _)
  split_ifs
  · exact h0
  · have h1 := shouldFileOpen_run a.toLowerCase a.configFolder
      ((s.emit (Event.call "showOpenDialog")).emit (Event.call "g_message")) a.dialogFile
    cases hc : shouldFileOpen a.toLowerCase a.configFolder
        ((s.emit (Event.call "showOpenDialog")).emit (Event.call "g_message")) a.dialogFile with
    | mk s3 ok =>
      rw [hc] at h1
      cases ok with
      | false => exact RunD.trans h0 h1
      | true => exact RunD.trans (RunD.trans h0 h1) (openFileDispatch_run _ _ _ _ _)
  · exact openFileDispatch_run _ _ _ _ _

theorem openFileClose_run (s : Control) (dflt : Defaults) (filename : String)
    (scrollToPage : Int) (a : OpenAnswers) :
    Run notShutdownCall s (openFileClose s dflt filename scrollToPage a).1 := by
  unfold openFileClose
  have h1 := close_run s dflt false dflt.closeAllowCancel a.close
  cases hc : close s dflt false dflt.closeAllowCancel a.close with
  | mk s1 ok =>
    rw [hc] at h1
    cases ok with
    | false => exact h1
    | true => exact RunD.trans h1 (openFileChoose_run _ _ _ _ _)

theorem openFile_run (s : Control) (dflt : Defaults) (filename : String) (scrollToPage : Int)
    (forceOpen : Bool) (a : OpenAnswers) :
    Run notShutdownCall s (openFile s dflt filename scrollToPage forceOpen a).1 := by
  unfold openFile
  split_ifs
  · exact openFileClose_run _ _ _ _ _
  · have h1 := shouldFileOpen_run a.toLowerCase a.configFolder s filename
    cases hc : shouldFileOpen a.toLowerCase a.configFolder s filename with
    | mk s1 ok =>
      rw [hc] at h1
      cases ok with
      | false => exact h1
      | true => exact RunD.trans h1 (openFileClose_run _ _ _ _ _)

theorem getCurrentPage_run (s : Control) : Run notShutdownCall s (getCurrentPage s).1 := by
  unfold getCurrentPage Run
  simp only [Control.emit, Control.docLock, Control.docUnlock]
  exact RunD.of_append (by simp only [List.append_assoc]; rfl) (by simp [lockBalance])
    (by simp [notShutdownCall])

theorem deletePage_run (s : Control) : Run notShutdownCall s (deletePage s) := by
  unfold deletePage Run
  cases hw : s.win <;>
  · simp only [clearSelectionEndText, updateDeletePageButton, getCurrentPageNo, hw,
      Control.emit, Control.docLock, Control.docUnlock, Control.addUndoAction,
      Document.deletePage, Document.getPageCount]
    split_ifs <;>
      exact RunD.of_append (by simp only [List.append_assoc]; rfl) (by simp [lockBalance])
        (by simp [notShutdownCall])

theorem paperFormat_run (s t : Control) (width height : Double)
    (h : paperFormat s width height = some t) : Run notShutdownCall s t := by
  unfold paperFormat getCurrentPage at h
  simp only at h
  unfold Run
  cases hp : (s.docLock.emit (Event.docGetPage (getCurrentPageNo s))).doc.getPage
      (getCurrentPageNo s) with
  | none =>
    simp only [hp, Option.some.injEq] at h
    subst h
    simp only [Control.emit, Control.docLock, Control.docUnlock]
    exact RunD.of_append (by simp only [List.append_assoc]; rfl) (by simp [lockBalance])
      (by simp [notShutdownCall])
  | some pg =>
    simp only [hp] at h
    cases hw : s.win with
    | none =>
      simp only [clearSelectionEndText, Control.emit, Control.docLock, Control.docUnlock, hw]
        at h
      split_ifs at h
      simp only [Option.some.injEq] at h
      subst h
      exact RunD.of_append (by simp only [List.append_assoc]; rfl) (by simp [lockBalance])
        (by simp [notShutdownCall])
    | some w =>
      simp only [clearSelectionEndText, Control.emit, Control.docLock, Control.docUnlock, hw,
        Document.setPageSize, Document.getPageCount] at h
      split_ifs at h <;>
      · simp only [Option.some.injEq] at h
        subst h
        exact RunD.of_append (by simp only [List.append_assoc]; rfl) (by simp [lockBalance])
          (by simp [notShutdownCall])

theorem checkChangedEvents_calls (doc : Document) (ps : List XojPage) :
    ∀ e ∈ ps.flatMap (checkChangedEvents doc),
      isLockCall e = false ∧ notShutdownCall e = true := by
  intro e he
  rw [List.mem_flatMap] at he
  obtain ⟨p, _, hp⟩ := he
  unfold checkChangedEvents at hp
  have h3 : e = Event.docIndexOf p
      ∨ e = Event.firePageChanged (toSizeT (toInt (doc.indexOf p)))
      ∨ e = Event.pageUnreference p := by
    split_ifs at hp <;> simp at hp <;> tauto
  rcases h3 with h | h | h <;> subst h <;> exact ⟨rfl, rfl⟩

theorem checkChangedDocument_run (s : Control) :
    Run notShutdownCall s (checkChangedDocument s).1 := by
  by_cases h : s.doc.holder = LockHolder.free
  · rw [checkChangedDocument_free s h]
    refine ⟨[Event.docTryLock true] ++ s.changedPages.flatMap (checkChangedEvents s.doc)
      ++ [Event.docUnlock], rfl, ?_, ?_⟩
    · rw [List.append_assoc, lockBalance_append]
      simp only [lockBalance, Option.bind]
      rw [lockBalance_append,
        lockBalance_of_no_lock_call _ (fun e he => (checkChangedEvents_calls _ _ e he).1)]
      simp [lockBalance]
    · intro e he
      simp only [List.mem_append, List.mem_singleton] at he
      rcases he with (he | he) | he
      · subst he; rfl
      · exact (checkChangedEvents_calls _ _ e he).2
      · subst he; rfl
  · unfold checkChangedDocument Control.docTryLock
    simp only [h, if_false]
    exact RunD.of_append rfl (by simp [lockBalance]) (by simp [notShutdownCall])

theorem pasteTry_calls (ps : String) (s : Control) (w : MainWindow) (page : XojPage)
    (layer : LayerRef) (view : Nat) (input : ObjectInputStream) :
    ∃ d, RunD notShutdownCall 1 d s (pasteTry ps s w page layer view input).1 := by
  unfold pasteTry
  cases input.readString with
  | none => exact ⟨1, RunD.refl _ _ _⟩
  | some p =>
    obtain ⟨version, in1⟩ := p
    simp only
    have h1 : RunD notShutdownCall 1 1 s
        (if version ≠ ps then s.emit Event.warning else s) := by
      split_ifs
      · exact RunD.emit 1 _ Event.warning rfl rfl
      · exact RunD.refl _ _ _
    cases EditSelection.readSerialized in1 with
    | none => exact ⟨1, h1⟩
    | some in2 =>
      simp only
      have h2 := RunD.trans h1 (RunD.docUnlock 0 _ rfl)
      cases in2.readInt with
      | none => exact ⟨0, h2⟩
      | some q =>
        obtain ⟨count, in3⟩ := q
        simp only
        cases pasteLoop count.toNat layer in3 []
            { page := page, view := view, elements := [] } with
        | none => exact ⟨0, h2⟩
        | some r =>
          obtain ⟨entries, selection1⟩ := r
          simp only
          refine ⟨0, RunD.trans (RunD.trans h2
            (addUndoAction_run _ (UndoAction.AddUndoAction page false entries))) ?_⟩
          exact RunD.of_append rfl (by simp [lockBalance]) (by simp [notShutdownCall])

theorem clipboardPasteXournal_calls (ps : String) (s t : Control) (input : ObjectInputStream)
    (h : clipboardPasteXournal ps s input = some t) :
    ∃ d, RunD notShutdownCall 0 d s t := by
  unfold clipboardPasteXournal at h
  simp only at h
  split_ifs at h with hp
  · simp only [Option.some.injEq] at h
    subst h
    exact ⟨0, RunD.refl _ _ _⟩
  · have h1 : RunD notShutdownCall 0 1 s (s.docLock.emit (Event.docGetPage (getCurrentPageNo s))) :=
      RunD.trans (RunD.docLock 0 s rfl) (RunD.emit 1 _ (Event.docGetPage _) rfl rfl)
    cases hg : (s.docLock.emit (Event.docGetPage (getCurrentPageNo s))).doc.getPage
        (getCurrentPageNo s) with
    | none => simp [hg] at h
    | some page =>
      simp only [hg] at h
      cases hw : (s.docLock.emit (Event.docGetPage (getCurrentPageNo s))).win with
      | none => simp [hw] at h
      | some w =>
        simp only [hw] at h
        cases hv : w.viewFor (getCurrentPageNo s) with
        | none =>
          simp only [hv, Option.some.injEq] at h
          subst h
          exact ⟨0, RunD.trans h1 (RunD.docUnlock 0 _ rfl)⟩
        | some view =>
          simp only [hv] at h
          obtain ⟨d, hd⟩ := pasteTry_calls ps
            (s.docLock.emit (Event.docGetPage (getCurrentPageNo s))) w page
            { page := page,
              index := ((s.docLock.emit (Event.docGetPage (getCurrentPageNo s))).doc.pageData
                page).selectedLayer } view input
          cases hpt : pasteTry ps (s.docLock.emit (Event.docGetPage (getCurrentPageNo s))) w page
            { page := page,
              index := ((s.docLock.emit (Event.docGetPage (getCurrentPageNo s))).doc.pageData
                page).selectedLayer } view input with
          | mk s2 threw =>
            rw [hpt] at hd h
            cases threw with
            | true =>
              simp only [Option.some.injEq] at h
              subst h
              exact ⟨d, RunD.trans (RunD.trans h1 hd) (RunD.emit d _ Event.warning rfl rfl)⟩
            | false =>
              simp only [Option.some.injEq] at h
              subst h
              exact ⟨d, RunD.trans h1 hd⟩

theorem clipboardPasteXournal_early_return (ps : String) (s t : Control)
    (input : ObjectInputStream)
    (hearly : (getCurrentPageNo s = npos ∧ s.win.isSome = true)
      ∨ ∃ w, s.win = some w ∧ w.viewFor (getCurrentPageNo s) = none)
    (h : clipboardPasteXournal ps s input = some t) :
    Run notShutdownCall s t := by
  unfold clipboardPasteXournal at h
  simp only at h
  split_ifs at h with hp
  · simp only [Option.some.injEq] at h
    subst h
    exact RunD.refl _ _ _
  · rcases hearly with h1 | ⟨w, hw, hv⟩
    · exact absurd h1 hp
    · cases hg : (s.docLock.emit (Event.docGetPage (getCurrentPageNo s))).doc.getPage
          (getCurrentPageNo s) with
      | none => simp [hg] at h
      | some page =>
        have hw1 : (s.docLock.emit (Event.docGetPage (getCurrentPageNo s))).win = some w := hw
        simp only [hg, hw1, hv, Option.some.injEq] at h
        subst h
        exact RunD.trans (RunD.trans (RunD.docLock 0 s rfl)
          (RunD.emit 1 _ (Event.docGetPage _) rfl rfl)) (RunD.docUnlock 0 _ rfl)

theorem undoRedoPageChanged_run (s : Control) (page : XojPage) :
    Run notShutdownCall s (undoRedoPageChanged s page) := by
  unfold undoRedoPageChanged
  split_ifs
  · exact RunD.refl _ _ _
  · exact RunD.of_append rfl (by simp [lockBalance]) (by simp [notShutdownCall])

theorem updatePageNumbers_run (s : Control) (page pdfPage : Nat) :
    Run notShutdownCall s (updatePageNumbers s page pdfPage) := by
  unfold updatePageNumbers Run
  cases hw : s.win with
  | none => exact RunD.refl _ _ _
  | some w =>
    simp only [Control.emit]
    exact RunD.of_append (by simp only [List.append_assoc]; rfl) (by simp [lockBalance])
      (by simp [notShutdownCall])

theorem unblockCall_run (s : Control) : Run notShutdownCall s (unblockCall s) :=
  RunD.of_trace_eq _ 0 (unblockCall_trace s)

theorem unblock_run (s t : Control) (h : unblock s = some t) : Run notShutdownCall s t := by
  refine RunD.of_trace_eq _ 0 ?_
  unfold unblock at h
  split_ifs at h
  · rw [← Option.some.inj h]
  · cases hw : s.win with
    | none => simp [hw] at h
    | some w =>
      simp only [hw, Option.some.injEq] at h
      rw [← h]
      rfl

theorem block_run (s : Control) (name : String) (t : Control) (h : block s name = some t) :
    Run notShutdownCall s t := by
  refine RunD.of_trace_eq _ 0 ?_
  unfold block at h
  split_ifs at h
  · rw [← Option.some.inj h]
  · cases hw : s.win with
    | none => simp [hw] at h
    | some w =>
      simp only [hw, Option.some.injEq] at h
      rw [← h]

theorem autosaveCallback_run (s : Control) : Run notShutdownCall s (autosaveCallback s).1 := by
  unfold autosaveCallback
  split_ifs
  · exact RunD.refl _ _ _
  · exact RunD.emit 0 _ (Event.addJob _ _) rfl rfl

theorem exportBase_run (s : Control) (job : Job) (showFilechooser : Bool) :
    Run notShutdownCall s (exportBase s job showFilechooser) := by
  unfold exportBase
  split_ifs
  · exact RunD.emit 0 _ (Event.addJob _ _) rfl rfl
  · exact unblockCall_run s

theorem moveAutosaveFile_run (s : Control) (a : RenameAnswers) (filename renamed : String) :
    Run notShutdownCall s (moveAutosaveFile s a filename renamed) := by
  unfold moveAutosaveFile Run
  simp only [Control.emit]
  split_ifs <;>
    exact RunD.of_append (by simp only [List.append_assoc]; rfl) (by simp [lockBalance])
      (by simp [notShutdownCall])

theorem renameLastAutosaveFile_run (s : Control) (a : RenameAnswers) :
    Run notShutdownCall s (renameLastAutosaveFile s a) := by
  unfold renameLastAutosaveFile
  simp only
  split_ifs
  · exact RunD.refl _ _ _
  · exact RunD.trans (RunD.trans (call_run _ _) (save_run2 _ _ _ _))
      (moveAutosaveFile_run _ _ _ _)
  · exact RunD.trans (call_run _ _) (moveAutosaveFile_run _ _ _ _)

theorem not_acquiresSchedulerLock {d d' : Nat} {s t : Control}
    (h : RunD notShutdownCall d d' s t) : ¬ acquiresSchedulerLock s t := by
  intro hmem
  have h2 := (RunD.emitted_balance h).2 _ hmem
  simp [notShutdownCall] at h2

theorem shutdownOrder_of_run (tail : List Event) (evs : List Event) :
    ∀ d d' : Nat, lockBalance d evs = some d' → (∀ e ∈ evs, notShutdownCall e = true) →
      shutdownOrder d false (evs ++ tail) = shutdownOrder d' false tail := by
  induction evs with
  | nil =>
    intro d d' h _
    simp only [lockBalance, Option.some.injEq] at h
    subst h
    rfl
  | cons e rest ih =>
    intro d d' h hq
    have he := hq e (List.mem_cons_self _ _)
    have hrest : ∀ x ∈ rest, notShutdownCall x = true :=
      fun x hx => hq x (List.mem_cons_of_mem _ hx)
    cases e <;> first
      | (simp [notShutdownCall] at he; done)
      | (simp only [lockBalance] at h
         simp only [List.cons_append, shutdownOrder, Bool.not_false, Bool.true_and]
         exact ih _ _ h hrest)
      | (rename_i ok
         cases ok <;> simp only [lockBalance] at h <;>
           simp only [List.cons_append, shutdownOrder, Bool.not_false, Bool.true_and] <;>
           exact ih _ _ h hrest)
      | (simp only [lockBalance] at h
         split_ifs at h
         simp only [List.cons_append, shutdownOrder]
         exact ih _ _ h hrest)

theorem emitted_of_run {q : Event → Bool} {d d' : Nat} {s t u : Control} (evs : List Event)
    (h1 : RunD q d d' s t) (h2 : u.trace = t.trace ++ evs) :
    emitted s u = emitted s t ++ evs := by
  obtain ⟨a, ha, _, _⟩ := h1
  rw [emitted_append s t a ha, emitted_append s u (a ++ evs) (by rw [h2, ha, List.append_assoc])]

theorem mem_emitted_of_initial {q : Event → Bool} {d d' : Nat} {s t u : Control} (e : Event)
    (a : List Event) (h1 : t.trace = s.trace ++ a) (he : e ∈ a) (h2 : RunD q d d' t u) :
    e ∈ emitted s u := by
  obtain ⟨b, hb, _, _⟩ := h2
  rw [emitted_append s u (a ++ b) (by rw [hb, h1, List.append_assoc])]
  exact List.mem_append_left _ he

theorem closeDocument_unlocks (s : Control) :
    Event.docUnlock ∈ emitted s (closeDocument s) := by
  unfold closeDocument
  exact mem_emitted_of_initial Event.docUnlock
    [Event.undoRedoClearContents, Event.docLock, Event.docClearDocument, Event.docUnlock]
    (by simp [Control.docLock, Control.docUnlock]) (by simp) (undoRedoChanged_run _)

/-! ### C14: lock order at shutdown -/

/-- C14: in every execution of `quit` the calls keep the lock order of the
shutdown (`shutdownOrder`): the lock of the scheduler is acquired only while
`Control` holds no document lock, no `lock` or `tryLock` of the document is
requested while it is held, and it is released before `gtk_main_quit`.  When
`close` returns `true`, the calls of `quit` are the calls up to the end of
`closeDocument`, in which the document lock is released as often as it is
acquired and the lock of the scheduler is not touched, followed by
`scheduler->lock()`, `stopRecording`, `settings->save()`, `removeAllJobs`,
`scheduler->unlock()` and `gtk_main_quit`, in this order; when `close` returns
`false`, `quit` does not acquire the lock of the scheduler.  None of the other
operations of `Control` that are modelled here acquires it. -/
theorem quit_lock_order (s : Control) (dflt : Defaults) (allowCancel : Bool)
    (a : CloseAnswers) :
    shutdownOrder 0 false (emitted s (quit s dflt allowCancel a)) = true
    ∧ ((close s dflt false allowCancel a).2 = true →
        emitted s (quit s dflt allowCancel a) =
          emitted s (closeDocument (close s dflt false allowCancel a).1) ++ shutdownCalls
        ∧ lockBalance 0 (emitted s (closeDocument (close s dflt false allowCancel a).1)) = some 0
        ∧ Event.docUnlock ∈ emitted (close s dflt false allowCancel a).1
            (closeDocument (close s dflt false allowCancel a).1)
        ∧ ¬ acquiresSchedulerLock s (closeDocument (close s dflt false allowCancel a).1))
    ∧ ((close s dflt false allowCancel a).2 = false →
        ¬ acquiresSchedulerLock s (quit s dflt allowCancel a))
    ∧ ¬ acquiresSchedulerLock s (checkChangedDocument s).1
    ∧ (∀ page, ¬ acquiresSchedulerLock s (undoRedoPageChanged s page))
    ∧ ¬ acquiresSchedulerLock s (clearSelectionEndText s)
    ∧ (∀ ps input t, clipboardPasteXournal ps s input = some t → ¬ acquiresSchedulerLock s t)
    ∧ ¬ acquiresSchedulerLock s (updateDeletePageButton s)
    ∧ ¬ acquiresSchedulerLock s (deletePage s)
    ∧ ¬ acquiresSchedulerLock s (getCurrentPage s).1
    ∧ (∀ width height t, paperFormat s width height = some t → ¬ acquiresSchedulerLock s t)
    ∧ (∀ page pdfPage, ¬ acquiresSchedulerLock s (updatePageNumbers s page pdfPage))
    ∧ (∀ t, unblock s = some t → ¬ acquiresSchedulerLock s t)
    ∧ ¬ acquiresSchedulerLock s (updateWindowTitle s)
    ∧ ¬ acquiresSchedulerLock s (resetSavedStatus s)
    ∧ (∀ choice, ¬ acquiresSchedulerLock s (showSaveDialog s choice).1)
    ∧ (∀ synchron choice jobResult,
        ¬ acquiresSchedulerLock s (save s synchron choice jobResult).1)
    ∧ ¬ acquiresSchedulerLock s (autosaveCallback s).1
    ∧ (∀ name t, block s name = some t → ¬ acquiresSchedulerLock s t)
    ∧ (∀ job showFilechooser, ¬ acquiresSchedulerLock s (exportBase s job showFilechooser))
    ∧ (∀ r, ¬ acquiresSchedulerLock s (renameLastAutosaveFile s r))
    ∧ ¬ acquiresSchedulerLock s (undoRedoChanged s)
    ∧ ¬ acquiresSchedulerLock s (closeDocument s)
    ∧ (∀ c1 c2 jobResult, ¬ acquiresSchedulerLock s (saveAs s dflt c1 c2 jobResult).1)
    ∧ (∀ allowDestroy cancel c,
        ¬ acquiresSchedulerLock s (close s dflt allowDestroy cancel c).1)
    ∧ (∀ cancel c, ¬ acquiresSchedulerLock s (closeAndDestroy s dflt cancel c).1)
    ∧ (∀ page data, ¬ acquiresSchedulerLock s (addDefaultPage s page data))
    ∧ (∀ md, ¬ acquiresSchedulerLock s (loadMetadata s md))
    ∧ (∀ scrollToPage stored, ¬ acquiresSchedulerLock s (fileLoaded s scrollToPage stored))
    ∧ (∀ n, ¬ acquiresSchedulerLock s (newFile s dflt n).1)
    ∧ (∀ page, ¬ acquiresSchedulerLock s (firePageSelected s page).1)
    ∧ (∀ page position visibleHeight,
        ¬ acquiresSchedulerLock s (insertPage s page position visibleHeight))
    ∧ (∀ color, ¬ acquiresSchedulerLock s (changePageBackgroundColor s color))
    ∧ ¬ acquiresSchedulerLock s (print s)
    ∧ (∀ e t, clipboardPaste s e = some t → ¬ acquiresSchedulerLock s t)
    ∧ (∀ imgWidth imgHeight dpi t, clipboardPasteImage s imgWidth imgHeight dpi = some t →
        ¬ acquiresSchedulerLock s t)
    ∧ (∀ toLowerCase configFolder filename,
        ¬ acquiresSchedulerLock s (shouldFileOpen toLowerCase configFolder s filename).1)
    ∧ (∀ filename p, ¬ acquiresSchedulerLock s (annotatePdf s dflt filename p).1)
    ∧ (∀ filename scrollToPage p,
        ¬ acquiresSchedulerLock s (loadPdf s dflt filename scrollToPage p).1)
    ∧ (∀ contents n, ¬ acquiresSchedulerLock s (loadXoptTemplate s dflt contents n).1)
    ∧ (∀ filename scrollToPage forceOpen o,
        ¬ acquiresSchedulerLock s (openFile s dflt filename scrollToPage forceOpen o).1) := by
  have hclose := close_run s dflt false allowCancel a
  have hdoc := RunD.trans hclose (closeDocument_run (close s dflt false allowCancel a).1)
  have hquitT : (close s dflt false allowCancel a).2 = true →
      quit s dflt allowCancel a =
        quitShutdown (closeDocument (close s dflt false allowCancel a).1) := by
    intro h
    unfold quit
    cases hc : close s dflt false allowCancel a with
    | mk s1 ok =>
      rw [hc] at h
      simp only at h
      subst h
      rfl
  have hquitF : (close s dflt false allowCancel a).2 = false →
      Run notShutdownCall s (quit s dflt allowCancel a) := by
    intro h
    unfold quit
    cases hc : close s dflt false allowCancel a with
    | mk s1 ok =>
      rw [hc] at h hclose
      simp only at h hclose
      subst h
      simp only
      split_ifs
      · exact RunD.trans hclose (RunD.emit 0 _ Event.emergencySave rfl rfl)
      · exact hclose
  have hem : (close s dflt false allowCancel a).2 = true →
      emitted s (quit s dflt allowCancel a) =
        emitted s (closeDocument (close s dflt false allowCancel a).1) ++ shutdownCalls := by
    intro h
    rw [hquitT h]
    exact emitted_of_run shutdownCalls hdoc
      (by unfold quitShutdown; simp [Control.emit, shutdownCalls])
  refine ⟨?_, ?_, ?_, ?_⟩
  · cases h : (close s dflt false allowCancel a).2 with
    | false =>
      have hb := RunD.emitted_balance (hquitF h)
      rw [← List.append_nil (emitted s (quit s dflt allowCancel a)),
        shutdownOrder_of_run [] _ 0 0 hb.1 hb.2]
      rfl
    | true =>
      have hb := RunD.emitted_balance hdoc
      rw [hem h, shutdownOrder_of_run shutdownCalls _ 0 0 hb.1 hb.2]
      rfl
  · intro h
    exact ⟨hem h, (RunD.emitted_balance hdoc).1, closeDocument_unlocks _,
      not_acquiresSchedulerLock hdoc⟩
  · intro h
    exact not_acquiresSchedulerLock (hquitF h)
  · exact ⟨not_acquiresSchedulerLock (checkChangedDocument_run s),
      fun page => not_acquiresSchedulerLock (undoRedoPageChanged_run s page),
      not_acquiresSchedulerLock (clearSelectionEndText_run2 s),
      fun ps input t h => Exists.elim (clipboardPasteXournal_calls ps s t input h)
        (fun _ hd => not_acquiresSchedulerLock hd),
      not_acquiresSchedulerLock (updateDeletePageButton_run s),
      not_acquiresSchedulerLock (deletePage_run s),
      not_acquiresSchedulerLock (getCurrentPage_run s),
      fun width height t h => not_acquiresSchedulerLock (paperFormat_run s t width height h),
      fun page pdfPage => not_acquiresSchedulerLock (updatePageNumbers_run s page pdfPage),
      fun t h => not_acquiresSchedulerLock (unblock_run s t h),
      not_acquiresSchedulerLock (updateWindowTitle_run2 s),
      not_acquiresSchedulerLock (resetSavedStatus_run2 s),
      fun choice => not_acquiresSchedulerLock (showSaveDialog_run2 s choice),
      fun synchron choice jobResult =>
        not_acquiresSchedulerLock (save_run2 s synchron choice jobResult),
      not_acquiresSchedulerLock (autosaveCallback_run s),
      fun name t h => not_acquiresSchedulerLock (block_run s name t h),
      fun job showFilechooser => not_acquiresSchedulerLock (exportBase_run s job showFilechooser),
      fun r => not_acquiresSchedulerLock (renameLastAutosaveFile_run s r),
      not_acquiresSchedulerLock (undoRedoChanged_run s),
      not_acquiresSchedulerLock (closeDocument_run s),
      fun c1 c2 jobResult => not_acquiresSchedulerLock (saveAs_run s dflt c1 c2 jobResult),
      fun allowDestroy cancel c =>
        not_acquiresSchedulerLock (close_run s dflt allowDestroy cancel c),
      fun cancel c => not_acquiresSchedulerLock (closeAndDestroy_run s dflt cancel c),
      fun page data => not_acquiresSchedulerLock (addDefaultPage_run s page data),
      fun md => not_acquiresSchedulerLock (loadMetadata_run s md),
      fun scrollToPage stored => not_acquiresSchedulerLock (fileLoaded_run s scrollToPage stored),
      fun n => not_acquiresSchedulerLock (newFile_run s dflt n),
      fun page => not_acquiresSchedulerLock (firePageSelected_run s page),
      fun page position visibleHeight =>
        not_acquiresSchedulerLock (insertPage_run s page position visibleHeight),
      fun color => not_acquiresSchedulerLock (changePageBackgroundColor_run s color),
      not_acquiresSchedulerLock (print_run s),
      fun e t h => not_acquiresSchedulerLock (clipboardPaste_run s t e h),
      fun imgWidth imgHeight dpi t h =>
        not_acquiresSchedulerLock (clipboardPasteImage_run s t imgWidth imgHeight dpi h),
      fun toLowerCase configFolder filename =>
        not_acquiresSchedulerLock (shouldFileOpen_run toLowerCase configFolder s filename),
      fun filename p => not_acquiresSchedulerLock (annotatePdf_run s dflt filename p),
      fun filename scrollToPage p =>
        not_acquiresSchedulerLock (loadPdf_run s dflt filename scrollToPage p),
      fun contents n => not_acquiresSchedulerLock (loadXoptTemplate_run s dflt contents n),
      fun filename scrollToPage forceOpen o =>
        not_acquiresSchedulerLock (openFile_run s dflt filename scrollToPage forceOpen o)⟩

/-- C14, witness: with an unsaved change and the answer "Discard", `close` returns
`true`, `quit` acquires the lock of the scheduler, and its calls keep the lock
order. -/
theorem quit_lock_order_witness :
    (close unsavedChange usualDefaults false true discardAnswers).2 = true
    ∧ Event.schedulerLock ∈ emitted unsavedChange
        (quit unsavedChange usualDefaults true discardAnswers)
    ∧ shutdownOrder 0 false
        (emitted unsavedChange (quit unsavedChange usualDefaults true discardAnswers)) = true :=
  ⟨by decide, by decide, (quit_lock_order unsavedChange usualDefaults true discardAnswers).1⟩

/-! ### C19: the undo log after newFile -/

/-- C19: at inputs the code can receive, `newFile` returns `true` and the undo log
is not empty afterwards.  For the document "notes.xopp" into which page 13 was
inserted and which was saved then (`isChanged` is `false`, the log holds the
insertion of page 13), `newFile` returns `true`, the document has the new page 20
only, and the log still holds the insertion of page 13, with `canUndo` true.  The
same happens when the insertion is not saved yet and the user answers "Save" in
the dialog of `close`.  When the user answers "Discard", the log is empty
afterwards. -/
theorem newFile_keeps_undo_log :
    13 ∈ savedNotes.doc.pages
    ∧ savedNotes.undoRedo.changed = false
    ∧ (newFile savedNotes usualDefaults (newFileAnswers discardAnswers)).2 = true
    ∧ (newFile savedNotes usualDefaults (newFileAnswers discardAnswers)).1.doc.pages = [20]
    ∧ (newFile savedNotes usualDefaults (newFileAnswers discardAnswers)).1.undoRedo.actions
        = [UndoAction.InsertDeletePageUndoAction (some 13) 1 true]
    ∧ (newFile savedNotes usualDefaults (newFileAnswers discardAnswers)).1.undoRedo.canUndo
        = true
    ∧ insertedPage.undoRedo.changed = true
    ∧ (newFile insertedPage usualDefaults (newFileAnswers saveAnswers)).2 = true
    ∧ (newFile insertedPage usualDefaults (newFileAnswers saveAnswers)).1.undoRedo.canUndo
        = true
    ∧ (newFile insertedPage usualDefaults (newFileAnswers discardAnswers)).2 = true
    ∧ (newFile insertedPage usualDefaults (newFileAnswers discardAnswers)).1.undoRedo.canUndo
        = false
    ∧ (newFile insertedPage usualDefaults (newFileAnswers discardAnswers)).1.undoRedo.canRedo
        = false := by
  decide

/-! ### C20: lock balance on the paths that return -/

/-- C20: on every path on which it returns, each of the operations
`checkChangedDocument`, `firePageSelected`, `addDefaultPage`, `deletePage`,
`insertPage`, `paperFormat`, `changePageBackgroundColor`, `getCurrentPage`,
`newFile`, `openFile`, `fileLoaded`, `save`, `showSaveDialog`, `updateWindowTitle`,
`saveAs`, `resetSavedStatus`, `closeDocument`, `print`, `clipboardPaste`,
`clipboardPasteImage`, and `clipboardPasteXournal` when it returns early (no current
page, or no view for the page), releases the document lock as often as it
acquired it with `lock` or a successful `tryLock`, and never calls `unlock` while
it holds no lock: `lockBalance 0` of its calls is `some 0`. -/
theorem lock_balance_on_return (s : Control) (dflt : Defaults) :
    lockBalance 0 (emitted s (checkChangedDocument s).1) = some 0
    ∧ (∀ page, lockBalance 0 (emitted s (firePageSelected s page).1) = some 0)
    ∧ (∀ page data, lockBalance 0 (emitted s (addDefaultPage s page data)) = some 0)
    ∧ lockBalance 0 (emitted s (deletePage s)) = some 0
    ∧ (∀ page position visibleHeight,
        lockBalance 0 (emitted s (insertPage s page position visibleHeight)) = some 0)
    ∧ (∀ width height t, paperFormat s width height = some t →
        lockBalance 0 (emitted s t) = some 0)
    ∧ (∀ color, lockBalance 0 (emitted s (changePageBackgroundColor s color)) = some 0)
    ∧ lockBalance 0 (emitted s (getCurrentPage s).1) = some 0
    ∧ (∀ a, lockBalance 0 (emitted s (newFile s dflt a).1) = some 0)
    ∧ (∀ filename scrollToPage forceOpen a,
        lockBalance 0 (emitted s (openFile s dflt filename scrollToPage forceOpen a).1) = some 0)
    ∧ (∀ scrollToPage stored,
        lockBalance 0 (emitted s (fileLoaded s scrollToPage stored)) = some 0)
    ∧ (∀ synchron choice jobResult,
        lockBalance 0 (emitted s (save s synchron choice jobResult).1) = some 0)
    ∧ (∀ choice, lockBalance 0 (emitted s (showSaveDialog s choice).1) = some 0)
    ∧ lockBalance 0 (emitted s (updateWindowTitle s)) = some 0
    ∧ (∀ c1 c2 jobResult, lockBalance 0 (emitted s (saveAs s dflt c1 c2 jobResult).1) = some 0)
    ∧ lockBalance 0 (emitted s (resetSavedStatus s)) = some 0
    ∧ lockBalance 0 (emitted s (closeDocument s)) = some 0
    ∧ lockBalance 0 (emitted s (print s)) = some 0
    ∧ (∀ e t, clipboardPaste s e = some t → lockBalance 0 (emitted s t) = some 0)
    ∧ (∀ imgWidth imgHeight dpi t, clipboardPasteImage s imgWidth imgHeight dpi = some t →
        lockBalance 0 (emitted s t) = some 0)
    ∧ (∀ ps input t,
        ((getCurrentPageNo s = npos ∧ s.win.isSome = true)
          ∨ ∃ w, s.win = some w ∧ w.viewFor (getCurrentPageNo s) = none) →
        clipboardPasteXournal ps s input = some t → lockBalance 0 (emitted s t) = some 0) :=
  ⟨(RunD.emitted_balance (checkChangedDocument_run s)).1,
   fun page => (RunD.emitted_balance (firePageSelected_run s page)).1,
   fun page data => (RunD.emitted_balance (addDefaultPage_run s page data)).1,
   (RunD.emitted_balance (deletePage_run s)).1,
   fun page position visibleHeight =>
     (RunD.emitted_balance (insertPage_run s page position visibleHeight)).1,
   fun width height t h => (RunD.emitted_balance (paperFormat_run s t width height h)).1,
   fun color => (RunD.emitted_balance (changePageBackgroundColor_run s color)).1,
   (RunD.emitted_balance (getCurrentPage_run s)).1,
   fun a => (RunD.emitted_balance (newFile_run s dflt a)).1,
   fun filename scrollToPage forceOpen a =>
     (RunD.emitted_balance (openFile_run s dflt filename scrollToPage forceOpen a)).1,
   fun scrollToPage stored => (RunD.emitted_balance (fileLoaded_run s scrollToPage stored)).1,
   fun synchron choice jobResult =>
     (RunD.emitted_balance (save_run2 s synchron choice jobResult)).1,
   fun choice => (RunD.emitted_balance (showSaveDialog_run2 s choice)).1,
   (RunD.emitted_balance (updateWindowTitle_run2 s)).1,
   fun c1 c2 jobResult => (RunD.emitted_balance (saveAs_run s dflt c1 c2 jobResult)).1,
   (RunD.emitted_balance (resetSavedStatus_run2 s)).1,
   (RunD.emitted_balance (closeDocument_run s)).1,
   (RunD.emitted_balance (print_run s)).1,
   fun e t h => (RunD.emitted_balance (clipboardPaste_run s t e h)).1,
   fun imgWidth imgHeight dpi t h =>
     (RunD.emitted_balance (clipboardPasteImage_run s t imgWidth imgHeight dpi h)).1,
   fun ps input t hearly h =>
     (RunD.emitted_balance (clipboardPasteXournal_early_return ps s t input hearly h)).1⟩

/-- C20, witness: on the three-page document `deletePage` takes the document lock
twice and releases it twice, and a paste of a stroke, which returns, takes and
releases it once. -/
theorem lock_balance_on_return_witness :
    (emitted threePages (deletePage threePages)).count Event.docLock = 2
    ∧ (emitted threePages (deletePage threePages)).count Event.docUnlock = 2
    ∧ lockBalance 0 (emitted threePages (deletePage threePages)) = some 0
    ∧ ∃ t, clipboardPaste threePages { kind := ElementKind.Stroke } = some t
        ∧ (emitted threePages t).count Event.docLock = 1
        ∧ lockBalance 0 (emitted threePages t) = some 0 :=
  ⟨by decide, by decide, (lock_balance_on_return threePages usualDefaults).2.2.2.1,
   (clipboardPaste threePages { kind := ElementKind.Stroke }).get (by decide),
   by simp, by decide,
   (lock_balance_on_return threePages usualDefaults).2.2.2.2.2.2.2.2.2.2.2.2.2.2.2.2.2.2.1
     { kind := ElementKind.Stroke } _ (by simp)⟩

/-! ### C21 and C22: deletePage on an invalid page and on the last page -/

theorem deletePage_pages (s : Control) :
    (deletePage s).doc.pages = s.doc.pages
    ∨ (2 ≤ s.doc.pages.length
        ∧ (deletePage s).doc.pages = s.doc.pages.eraseIdx (getCurrentPageNo s)) := by
  unfold deletePage
  cases hw : s.win <;>
  · simp only [clearSelectionEndText, updateDeletePageButton, getCurrentPageNo, hw,
      Control.emit, Control.docLock, Control.docUnlock, Control.addUndoAction,
      Document.deletePage, Document.getPageCount]
    split_ifs <;> first
      | exact Or.inl rfl
      | exact Or.inr ⟨by omega, rfl⟩

theorem deletePage_length (s : Control) (h : 1 ≤ s.doc.pages.length) :
    1 ≤ (deletePage s).doc.pages.length := by
  rcases deletePage_pages s with h1 | ⟨h2, h1⟩
  · rw [h1]; exact h
  · rw [h1, List.length_eraseIdx]
    split_ifs <;> omega

theorem deletePage_of_few_pages (s : Control) (h : s.doc.pages.length < 2) :
    (deletePage s).doc = s.doc ∧ (deletePage s).undoRedo = s.undoRedo
    ∧ emitted s (deletePage s) = emitted s ((clearSelectionEndText s).emit Event.docGetPageCount) := by
  unfold deletePage
  cases hw : s.win <;>
    simp [clearSelectionEndText, hw, Control.emit, Document.getPageCount, h]

/-- C21: at an input the code can receive, the three-page document with the
current page number 3, which is the page count, `deletePage` does not return
early: it fetches no page (`getPage(3)` is invalid), fires the page-deleted
event for page number 3, calls `Document::deletePage(3)` and pushes an
`InsertDeletePageUndoAction` without a page.  With the current page number 4
it returns early, as the claim says. -/
theorem deletePage_accepts_page_count :
    getCurrentPageNo pastLastPage = pastLastPage.doc.getPageCount
    ∧ pastLastPage.doc.getPage (getCurrentPageNo pastLastPage) = none
    ∧ Event.firePageDeleted 3 ∈ emitted pastLastPage (deletePage pastLastPage)
    ∧ Event.docDeletePage 3 ∈ emitted pastLastPage (deletePage pastLastPage)
    ∧ pushedActions (emitted pastLastPage (deletePage pastLastPage))
        = [UndoAction.InsertDeletePageUndoAction none 3 false]
    ∧ (deletePage pastLastPage).undoRedo.actions
        = [UndoAction.InsertDeletePageUndoAction none 3 false]
    ∧ Event.firePageDeleted 4 ∉ emitted farPastLastPage (deletePage farPastLastPage)
    ∧ pushedActions (emitted farPastLastPage (deletePage farPastLastPage)) = [] := by
  decide

/-- C22: in a document with fewer than two pages `deletePage` leaves the document
and the undo log as they are and fires no page-deleted event; and a document
with at least one page has at least one page after any number of `deletePage`
calls. -/
theorem deletePage_keeps_last_page (s : Control) :
    (s.doc.pages.length < 2 →
      (deletePage s).doc.pages = s.doc.pages
      ∧ (deletePage s).undoRedo = s.undoRedo
      ∧ (∀ n, Event.firePageDeleted n ∉ emitted s (deletePage s))
      ∧ pushedActions (emitted s (deletePage s)) = [])
    ∧ (1 ≤ s.doc.pages.length → 1 ≤ (deletePage s).doc.pages.length)
    ∧ (1 ≤ s.doc.pages.length → ∀ k : Nat, 1 ≤ (deletePage^[k] s).doc.pages.length) := by
  refine ⟨?_, deletePage_length s, ?_⟩
  · intro h
    obtain ⟨h1, h2, h3⟩ := deletePage_of_few_pages s h
    refine ⟨by rw [h1], h2, ?_, ?_⟩
    · intro n
      rw [h3]
      unfold emitted clearSelectionEndText
      cases hw : s.win <;> simp [Control.emit]
    · rw [h3]
      unfold emitted clearSelectionEndText
      cases hw : s.win <;> simp [Control.emit, pushedActions]
  · intro h k
    induction k generalizing s with
    | zero => exact h
    | succ k ih =>
      rw [Function.iterate_succ_apply]
      exact ih (deletePage s) (deletePage_length s h)

/-- C22, witness: a document with one page keeps it, whatever is deleted. -/
theorem deletePage_keeps_last_page_witness :
    onePage.doc.pages.length < 2
    ∧ (deletePage onePage).doc.pages = [10]
    ∧ 1 ≤ (deletePage^[5] threePages).doc.pages.length :=
  ⟨by decide, ((deletePage_keeps_last_page onePage).1 (by decide)).1,
   (deletePage_keeps_last_page threePages).2.2 (by decide) 5⟩

/-! ### C23: reference balance of the pending pages -/

theorem refBalance_append (a b : List Event) (p : XojPage) :
    refBalance (a ++ b) p = refBalance a p + refBalance b p := by
  unfold refBalance
  rw [List.count_append, List.count_append]
  push_cast
  ring

theorem refBalance_checkChangedEvents (doc : Document) (ps : List XojPage) (p : XojPage) :
    refBalance (ps.flatMap (checkChangedEvents doc)) p = -(ps.count p : Int) := by
  induction ps with
  | nil => simp [refBalance]
  | cons q rest ih =>
    rw [List.flatMap_cons, refBalance_append, ih, List.count_cons]
    by_cases hq : q = p
    · subst hq
      by_cases h : toInt (doc.indexOf q) = -1 <;>
        simp [checkChangedEvents, refBalance, h]
    · have hq2 : ¬ (p = q) := fun h => hq h.symm
      by_cases h : toInt (doc.indexOf q) = -1 <;>
        simp [checkChangedEvents, refBalance, h, hq, hq2]

theorem count_of_nodup (ps : List XojPage) (h : ps.Nodup) (p : XojPage) :
    (ps.count p : Int) = if p ∈ ps then 1 else 0 := by
  by_cases hp : p ∈ ps
  · rw [List.count_eq_one_of_mem h hp]
    simp [hp]
  · rw [List.count_eq_zero_of_not_mem hp]
    simp [hp]

theorem checkChangedDocument_busy (s : Control) (h : s.doc.holder ≠ LockHolder.free) :
    checkChangedDocument s = (s.emit (Event.docTryLock false), true) := by
  unfold checkChangedDocument Control.docTryLock Control.emit
  simp [h]

theorem aggregatorStep_balanced (s0 s : Control) (c : AggregatorCall)
    (h : aggregatorBalanced s0 s) : aggregatorBalanced s0 (aggregatorStep s c) := by
  obtain ⟨hnd, evs, htr, hbal⟩ := h
  cases c with
  | undoRedoPageChanged page =>
    show aggregatorBalanced s0 (undoRedoPageChanged s page)
    by_cases hp : page ∈ s.changedPages
    · rw [undoRedoPageChanged_of_mem s page hp]
      exact ⟨hnd, evs, htr, hbal⟩
    · rw [undoRedoPageChanged_of_not_mem s page hp]
      refine ⟨?_, evs ++ [Event.pageReference page], ?_, ?_⟩
      · show (s.changedPages ++ [page]).Nodup
        rw [List.nodup_append]
        refine ⟨hnd, List.nodup_singleton page, ?_⟩
        intro x hx hx2
        rw [List.mem_singleton] at hx2
        exact hp (hx2 ▸ hx)
      · show s.trace ++ [Event.pageReference page] = s0.trace ++ (evs ++ [Event.pageReference page])
        rw [htr, List.append_assoc]
      · intro p
        show refBalance (evs ++ [Event.pageReference page]) p =
          if p ∈ s.changedPages ++ [page] then 1 else 0
        rw [refBalance_append, hbal p]
        by_cases hpp : p = page
        · subst hpp
          simp [refBalance, hp]
        · have hpp2 : ¬ (page = p) := fun h => hpp h.symm
          simp [refBalance, hpp, hpp2]
  | checkChangedDocument holder =>
    show aggregatorBalanced s0
      (checkChangedDocument { s with doc := { s.doc with holder := holder } }).1
    by_cases hh : holder = LockHolder.free
    · subst hh
      rw [checkChangedDocument_free _ rfl]
      refine ⟨List.nodup_nil, evs ++ ([Event.docTryLock true]
        ++ s.changedPages.flatMap (checkChangedEvents
            ({ s.doc with holder := LockHolder.free } : Document)) ++ [Event.docUnlock]), ?_, ?_⟩
      · show s.trace ++ _ = _
        rw [htr, List.append_assoc]
      · intro p
        show _ = if p ∈ ([] : List XojPage) then 1 else 0
        rw [refBalance_append, refBalance_append, refBalance_append, hbal p,
          refBalance_checkChangedEvents, count_of_nodup _ hnd]
        simp [refBalance]
    · rw [checkChangedDocument_busy _ hh]
      refine ⟨hnd, evs ++ [Event.docTryLock false], ?_, ?_⟩
      · show s.trace ++ [Event.docTryLock false] = _
        rw [htr, List.append_assoc]
      · intro p
        show _ = if p ∈ s.changedPages then 1 else 0
        rw [refBalance_append, hbal p]
        simp [refBalance]

theorem aggregatorRun_balanced (s0 : Control) (calls : List AggregatorCall) :
    ∀ s, aggregatorBalanced s0 s → aggregatorBalanced s0 (aggregatorRun s calls) := by
  induction calls with
  | nil => intro s h; exact h
  | cons c rest ih =>
    intro s h
    exact ih _ (aggregatorStep_balanced s0 s c h)

theorem foldl_unreference (ps : List XojPage) :
    ∀ s : Control, ps.foldl (fun t page => t.emit (Event.pageUnreference page)) s
      = { s with trace := s.trace ++ ps.map Event.pageUnreference } := by
  induction ps with
  | nil => intro s; simp
  | cons p rest ih =>
    intro s
    rw [List.foldl_cons, ih]
    simp [Control.emit]

theorem enableAutosave_false (s : Control) (source : Nat) :
    (enableAutosave s false source).changedPages = s.changedPages
    ∧ (enableAutosave s false source).lastAutosaveFilename = s.lastAutosaveFilename
    ∧ (enableAutosave s false source).trace = s.trace
        ++ (if s.autosaveTimeout ≠ 0 then [Event.call "g_source_remove"] else []) := by
  unfold enableAutosave
  by_cases h : s.autosaveTimeout = 0 <;> simp [h, Control.emit]

theorem deleteLastAutosaveFile_trace (s : Control) (name : String) :
    (deleteLastAutosaveFile s name).changedPages = s.changedPages
    ∧ (deleteLastAutosaveFile s name).trace = s.trace
        ++ (if (!s.lastAutosaveFilename.isEmpty) = true then [Event.call "g_unlink"] else []) := by
  unfold deleteLastAutosaveFile
  by_cases h : (!s.lastAutosaveFilename.isEmpty) = true
  · simp only [h, if_true]
    exact ⟨rfl, rfl⟩
  · simp only [h, if_false]
    exact ⟨rfl, by simp⟩

theorem destructor_trace (s : Control) :
    s.destructor.trace = s.trace ++ ([Event.call "g_source_remove"]
      ++ (if s.autosaveTimeout ≠ 0 then [Event.call "g_source_remove"] else [])
      ++ (if (!s.lastAutosaveFilename.isEmpty) = true then [Event.call "g_unlink"] else [])
      ++ [Event.call "scheduler->stop"]
      ++ s.changedPages.map Event.pageUnreference
      ++ [Event.call "delete pluginController", Event.call "delete clipboardHandler",
          Event.call "delete recent", Event.call "delete fullscreenHandler"]) := by
  have h1 := enableAutosave_false (s.emit (Event.call "g_source_remove")) 0
  have h2 := deleteLastAutosaveFile_trace
    (enableAutosave (s.emit (Event.call "g_source_remove")) false 0) ""
  unfold Control.destructor
  simp only [foldl_unreference]
  show (deleteLastAutosaveFile (enableAutosave (s.emit (Event.call "g_source_remove")) false 0)
      "").trace ++ _ ++ _ ++ _ ++ _ ++ _ ++ _ = _
  rw [h2.2, h1.2.2, h1.2.1]
  show _ ++ _ ++ _ ++ _ ++ List.map Event.pageUnreference
    (deleteLastAutosaveFile (enableAutosave (s.emit (Event.call "g_source_remove")) false 0)
      "").changedPages ++ _ ++ _ ++ _ ++ _ = _
  rw [h2.1, h1.1]
  simp [Control.emit]

/-- C23: after every sequence of `undoRedoPageChanged` and `checkChangedDocument`
calls that starts with no page pending, for every page the number of
`reference()` calls minus the number of `unreference()` calls made since the
start is 1 if the page is in `changedPages` and 0 otherwise; the destructor then
calls `unreference()` once on each pending page and on no other page and calls
`reference()` on none, so that the balance of every page is 0 at the end. -/
theorem aggregator_reference_balance (s0 : Control) (calls : List AggregatorCall)
    (h0 : s0.changedPages = []) (page : XojPage) :
    refBalance (emitted s0 (aggregatorRun s0 calls)) page
      = (if page ∈ (aggregatorRun s0 calls).changedPages then 1 else 0)
    ∧ (emitted (aggregatorRun s0 calls) (aggregatorRun s0 calls).destructor).count
        (Event.pageUnreference page)
      = (if page ∈ (aggregatorRun s0 calls).changedPages then 1 else 0)
    ∧ (emitted (aggregatorRun s0 calls) (aggregatorRun s0 calls).destructor).count
        (Event.pageReference page) = 0
    ∧ refBalance (emitted s0 (aggregatorRun s0 calls).destructor) page = 0 := by
  have hstart : aggregatorBalanced s0 s0 :=
    ⟨by rw [h0]; exact List.nodup_nil, [], by simp, fun p => by simp [refBalance, h0]⟩
  obtain ⟨hnd, evs, htr, hbal⟩ := aggregatorRun_balanced s0 calls s0 hstart
  have hd := destructor_trace (aggregatorRun s0 calls)
  have hcount : ((aggregatorRun s0 calls).changedPages.map Event.pageUnreference).count
      (Event.pageUnreference page) = (aggregatorRun s0 calls).changedPages.count page := by
    rw [List.count_map_of_injective _ _ (fun a b h => by simpa using h)]
  have h1 : refBalance (emitted s0 (aggregatorRun s0 calls)) page
      = (if page ∈ (aggregatorRun s0 calls).changedPages then 1 else 0) := by
    rw [emitted_append s0 _ evs htr]
    exact hbal page
  have hnat := count_of_nodup _ hnd page
  have h2 : (emitted (aggregatorRun s0 calls) (aggregatorRun s0 calls).destructor).count
        (Event.pageUnreference page)
      = (if page ∈ (aggregatorRun s0 calls).changedPages then 1 else 0) := by
    rw [emitted_append _ _ _ hd]
    simp only [List.count_append, hcount]
    have : (aggregatorRun s0 calls).changedPages.count page
        = if page ∈ (aggregatorRun s0 calls).changedPages then 1 else 0 := by
      split_ifs at hnat ⊢ <;> exact_mod_cast hnat
    rw [this]
    split_ifs <;> simp
  have h3 : (emitted (aggregatorRun s0 calls) (aggregatorRun s0 calls).destructor).count
        (Event.pageReference page) = 0 := by
    rw [emitted_append _ _ _ hd]
    simp only [List.count_append]
    have : ((aggregatorRun s0 calls).changedPages.map Event.pageUnreference).count
        (Event.pageReference page) = 0 := by
      rw [List.count_eq_zero]
      simp
    rw [this]
    split_ifs <;> simp
  refine ⟨h1, h2, h3, ?_⟩
  have hall : (aggregatorRun s0 calls).destructor.trace = s0.trace
      ++ (evs ++ emitted (aggregatorRun s0 calls) (aggregatorRun s0 calls).destructor) := by
    rw [emitted_append _ _ _ hd, hd, htr, List.append_assoc]
  rw [emitted_append s0 _ _ hall, refBalance_append, hbal page]
  unfold refBalance
  rw [h2, h3]
  split_ifs <;> simp

/-- C23, witness: from the constructor's state, after edits of the pages 12, 10, 12,
a timer call that fails to lock, an edit of page 11, a timer call that drains,
and an edit of page 10, only page 10 is pending and only it has a reference;
the destructor releases it. -/
theorem aggregator_reference_balance_witness :
    newControl.changedPages = []
    ∧ (aggregatorRun newControl editsAndTimer).changedPages = [10]
    ∧ refBalance (emitted newControl (aggregatorRun newControl editsAndTimer)) 10 = 1
    ∧ refBalance (emitted newControl (aggregatorRun newControl editsAndTimer)) 12 = 0
    ∧ refBalance (emitted newControl (aggregatorRun newControl editsAndTimer).destructor) 10
        = 0 :=
  ⟨rfl, by decide,
   by rw [(aggregator_reference_balance newControl editsAndTimer rfl 10).1]; decide,
   by rw [(aggregator_reference_balance newControl editsAndTimer rfl 12).1]; decide,
   (aggregator_reference_balance newControl editsAndTimer rfl 10).2.2.2⟩

/-! ### C26: fileLoaded with a requested page -/

/-- C26: at an input the code can receive, the document "notes.xopp" for which the
metadata store has no valid entry and the call `fileLoaded(2)`, the entry that
is handed to `loadMetadata` has the page 2 but is still invalid, and
`loadMetadataCallback` returns without any call: the view is not scrolled to
page 2.  With a valid stored entry the callback scrolls to page 2, and without
a requested page (`fileLoaded(-1)`) to the stored page 1. -/
theorem fileLoaded_invalid_metadata_does_not_scroll :
    unsavedChange.doc.getEvMetadataFilename.isEmpty = false
    ∧ (fileLoaded unsavedChange 2 noMetadata).idleCallbacks
        = [{ valid := false, zoom := -1, page := 2 }]
    ∧ emitted (fileLoaded unsavedChange 2 noMetadata)
        (runIdleCallbacks (fileLoaded unsavedChange 2 noMetadata) fitZoom) = []
    ∧ emitted (fileLoaded unsavedChange 2 storedMetadata)
        (runIdleCallbacks (fileLoaded unsavedChange 2 storedMetadata) fitZoom)
        = [Event.call "zoom->updateZoomFitValue", Event.call "zoom->setZoomFitMode true",
           Event.scrollToPage 2]
    ∧ emitted (fileLoaded unsavedChange (-1) storedMetadata)
        (runIdleCallbacks (fileLoaded unsavedChange (-1) storedMetadata) fitZoom)
        = [Event.call "zoom->updateZoomFitValue", Event.call "zoom->setZoomFitMode true",
           Event.scrollToPage 1] := by
  decide

/-! ### C27: the size of a pasted image

The lemmas up to `scaledImageSize_spec` relate the operations of `Double` to exact
arithmetic: a product or a quotient of positive values that stays between
`2 ^ (-1022)` and `2 ^ 1023` is within the relative error `unitRoundoff` of the exact
result, and `Double.gt` is the order of the values. -/

theorem log2Search_spec : ∀ (j n : Nat), 0 < n → n < 2 ^ (2 ^ j) →
    2 ^ log2Search j n ≤ n ∧ n < 2 ^ (log2Search j n + 1) := by
  intro j
  induction j with
  | zero =>
    intro n h0 h1
    simp only [log2Search]
    simp only [pow_zero, pow_one] at h1
    omega
  | succ j ih =>
    intro n h0 h1
    have hP : 0 < 2 ^ (2 ^ j) := Nat.two_pow_pos _
    have hsq : 2 ^ (2 ^ (j + 1)) = 2 ^ (2 ^ j) * 2 ^ (2 ^ j) := by
      rw [← pow_add]
      congr 1
      rw [pow_succ]
      omega
    simp only [log2Search, Nat.shiftRight_eq_div_pow]
    by_cases hz : n / 2 ^ (2 ^ j) = 0
    · rw [if_pos hz]
      exact ih n h0 ((Nat.div_eq_zero_iff hP).mp hz)
    · rw [if_neg hz]
      have hpos : 0 < n / 2 ^ (2 ^ j) := Nat.pos_of_ne_zero hz
      have hlt : n / 2 ^ (2 ^ j) < 2 ^ (2 ^ j) := by
        rw [Nat.div_lt_iff_lt_mul hP, ← hsq]
        exact h1
      obtain ⟨h2, h3⟩ := ih (n / 2 ^ (2 ^ j)) hpos hlt
      constructor
      · rw [pow_add]
        calc 2 ^ (2 ^ j) * 2 ^ log2Search j (n / 2 ^ (2 ^ j))
            ≤ 2 ^ (2 ^ j) * (n / 2 ^ (2 ^ j)) := Nat.mul_le_mul_left _ h2
          _ ≤ n := Nat.mul_div_le n _
      · have h4 : n < 2 ^ (2 ^ j) * (n / 2 ^ (2 ^ j) + 1) := by
          have := Nat.lt_div_mul_add hP (a := n)
          rw [Nat.mul_add, Nat.mul_one, Nat.mul_comm]
          exact this
        calc n < 2 ^ (2 ^ j) * (n / 2 ^ (2 ^ j) + 1) := h4
          _ ≤ 2 ^ (2 ^ j) * 2 ^ (log2Search j (n / 2 ^ (2 ^ j)) + 1) :=
              Nat.mul_le_mul_left _ h3
          _ = 2 ^ (2 ^ j + log2Search j (n / 2 ^ (2 ^ j)) + 1) := by
              rw [← pow_add]
              congr 1

theorem log2Floor_spec (n : Nat) (h0 : 0 < n) :
    2 ^ log2Floor n ≤ n ∧ n < 2 ^ (log2Floor n + 1) := by
  unfold log2Floor
  by_cases hz : n >>> (2 ^ 12) = 0
  · rw [if_pos hz]
    apply log2Search_spec 12 n h0
    rw [Nat.shiftRight_eq_div_pow] at hz
    exact (Nat.div_eq_zero_iff (Nat.two_pow_pos _)).mp hz
  · rw [if_neg hz]
    exact ⟨Nat.log2_self_le (by omega), Nat.lt_log2_self⟩

theorem log2Ratio_spec (n d : Nat) (hn : 0 < n) (hd : 0 < d) :
    (2 : ℚ) ^ log2Ratio n d ≤ (n : ℚ) / d ∧ (n : ℚ) / d < (2 : ℚ) ^ (log2Ratio n d + 1) := by
  obtain ⟨ha1, ha2⟩ := log2Floor_spec n hn
  obtain ⟨hb1, hb2⟩ := log2Floor_spec d hd
  have hdq : (0 : ℚ) < d := by exact_mod_cast hd
  have ha1q : (2 : ℚ) ^ log2Floor n ≤ n := by exact_mod_cast ha1
  have ha2q : (n : ℚ) < 2 ^ (log2Floor n + 1) := by exact_mod_cast ha2
  have hb1q : (2 : ℚ) ^ log2Floor d ≤ d := by exact_mod_cast hb1
  have hb2q : (d : ℚ) < 2 ^ (log2Floor d + 1) := by exact_mod_cast hb2
  have h2a : (0 : ℚ) < 2 ^ log2Floor n := by positivity
  have h2b : (0 : ℚ) < 2 ^ log2Floor d := by positivity
  have hsub : (2 : ℚ) ^ ((log2Floor n : Int) - (log2Floor d : Int))
      = 2 ^ log2Floor n / 2 ^ log2Floor d := by
    rw [zpow_sub₀ (by norm_num), zpow_natCast, zpow_natCast]
  unfold log2Ratio
  by_cases hc : d * 2 ^ log2Floor n ≤ n * 2 ^ log2Floor d
  · rw [if_pos hc]
    have hcq : (d : ℚ) * 2 ^ log2Floor n ≤ n * 2 ^ log2Floor d := by exact_mod_cast hc
    constructor
    · rw [hsub, div_le_div_iff₀ h2b hdq]
      linarith
    · rw [zpow_add₀ (by norm_num), hsub, zpow_one, div_lt_iff₀ hdq]
      rw [pow_succ] at ha2q
      have : (2 : ℚ) ^ log2Floor n / 2 ^ log2Floor d * 2 * d
          = 2 ^ log2Floor n * 2 * (d / 2 ^ log2Floor d) := by
        field_simp
      rw [this]
      have h1 : (1 : ℚ) ≤ d / 2 ^ log2Floor d := by
        rw [le_div_iff₀ h2b]
        linarith
      have h3 : (0 : ℚ) ≤ 2 ^ log2Floor n * 2 := by positivity
      have := mul_le_mul_of_nonneg_left h1 h3
      linarith
  · rw [if_neg hc]
    have hcq : (n : ℚ) * 2 ^ log2Floor d < d * 2 ^ log2Floor n := by
      exact_mod_cast (not_le.mp hc)
    constructor
    · rw [zpow_sub₀ (by norm_num), hsub, zpow_one, le_div_iff₀ hdq]
      rw [pow_succ] at hb2q
      have : (2 : ℚ) ^ log2Floor n / 2 ^ log2Floor d / 2 * d
          = 2 ^ log2Floor n * (d / (2 ^ log2Floor d * 2)) := by
        field_simp
      rw [this]
      have h1 : (d : ℚ) / (2 ^ log2Floor d * 2) ≤ 1 := by
        rw [div_le_iff₀ (by positivity)]
        linarith
      have := mul_le_mul_of_nonneg_left h1 h2a.le
      linarith
    · have : (log2Floor n : Int) - (log2Floor d : Int) - 1 + 1
          = (log2Floor n : Int) - (log2Floor d : Int) := by ring
      rw [this, hsub, div_lt_div_iff₀ hdq h2b]
      linarith

theorem roundHalfEven_spec (n d : Nat) (hd : 0 < d) :
    |((roundHalfEven n d : Nat) : ℚ) - (n : ℚ) / d| ≤ 1 / 2 := by
  have hdq : (0 : ℚ) < d := by exact_mod_cast hd
  have hdiv : (n : ℚ) = d * (n / d : Nat) + (n % d : Nat) := by
    exact_mod_cast (Nat.div_add_mod n d).symm
  have hr : n % d < d := Nat.mod_lt n hd
  have hrq : ((n % d : Nat) : ℚ) < d := by exact_mod_cast hr
  have hr0 : (0 : ℚ) ≤ ((n % d : Nat) : ℚ) := by positivity
  have hval : (n : ℚ) / d = (n / d : Nat) + ((n % d : Nat) : ℚ) / d := by
    field_simp
    linarith
  unfold roundHalfEven
  rw [hval, abs_le]
  by_cases h1 : 2 * (n % d) < d
  · rw [if_pos h1]
    have h1q : (2 : ℚ) * ((n % d : Nat) : ℚ) < d := by exact_mod_cast h1
    have hx : ((n % d : Nat) : ℚ) / d ≤ 1 / 2 := by
      rw [div_le_iff₀ hdq]
      linarith
    have hx0 : 0 ≤ ((n % d : Nat) : ℚ) / d := div_nonneg hr0 hdq.le
    constructor <;> linarith
  · rw [if_neg h1]
    have hfrac1 : ((n % d : Nat) : ℚ) / d ≤ 1 := by
      rw [div_le_iff₀ hdq]
      linarith
    have hfrac2 : (1 : ℚ) / 2 ≤ ((n % d : Nat) : ℚ) / d := by
      rw [le_div_iff₀ hdq]
      have : (d : ℚ) ≤ 2 * ((n % d : Nat) : ℚ) := by exact_mod_cast (not_lt.mp h1)
      linarith
    by_cases h2 : d < 2 * (n % d)
    · rw [if_pos h2]
      push_cast
      constructor <;> linarith
    · rw [if_neg h2]
      have heq : 2 * (n % d) = d := by omega
      have heqq : (2 : ℚ) * ((n % d : Nat) : ℚ) = d := by exact_mod_cast heq
      have hhalf : ((n % d : Nat) : ℚ) / d = 1 / 2 := by
        rw [div_eq_iff hdq.ne']
        linarith
      split_ifs
      · rw [hhalf]
        constructor <;> linarith
      · rw [hhalf]
        push_cast
        constructor <;> linarith

theorem two_zpow_pos (k : Int) : (0 : ℚ) < 2 ^ k := zpow_pos (by norm_num) k

theorem round_near (n d : Nat) (e : Int) (hn : 0 < n) (hd : 0 < d)
    (hlo : (2 : ℚ) ^ (-1022 : Int) ≤ (n : ℚ) / d * 2 ^ e)
    (hhi : (n : ℚ) / d * 2 ^ e < 2 ^ (1023 : Int)) :
    ∃ m x, Double.round false n d e = Double.finite false m x ∧ 0 < m
      ∧ |(m : ℚ) * 2 ^ x - (n : ℚ) / d * 2 ^ e| ≤ 2 ^ (-53 : Int) * ((n : ℚ) / d * 2 ^ e) := by
  obtain ⟨hk1, hk2⟩ := log2Ratio_spec n d hn hd
  have hdq : (0 : ℚ) < d := by exact_mod_cast hd
  have hnq : (0 : ℚ) < n := by exact_mod_cast hn
  have htwo : (1 : ℚ) < 2 := by norm_num
  have he : (0 : ℚ) < 2 ^ e := two_zpow_pos e
  -- bounds on v
  have hv1 : (2 : ℚ) ^ (log2Ratio n d + e) ≤ (n : ℚ) / d * 2 ^ e := by
    rw [zpow_add₀ (by norm_num)]
    exact mul_le_mul_of_nonneg_right hk1 he.le
  have hv2 : (n : ℚ) / d * 2 ^ e < (2 : ℚ) ^ (log2Ratio n d + e + 1) := by
    have : (2 : ℚ) ^ (log2Ratio n d + e + 1) = 2 ^ (log2Ratio n d + 1) * 2 ^ e := by
      rw [← zpow_add₀ (by norm_num)]
      congr 1
      ring
    rw [this]
    exact mul_lt_mul_of_pos_right hk2 he
  have hke1 : -1022 ≤ log2Ratio n d + e := by
    have := lt_of_le_of_lt hlo hv2
    rw [zpow_lt_zpow_iff_right₀ htwo] at this
    omega
  have hke2 : log2Ratio n d + e < 1023 := by
    have := lt_of_le_of_lt hv1 hhi
    rw [zpow_lt_zpow_iff_right₀ htwo] at this
    exact this
  have hx : max (log2Ratio n d + e - 52) (-1074) = log2Ratio n d + e - 52 :=
    max_eq_left (by omega)
  -- the scaled value
  have hscaled : ∀ m : Nat,
      (m = if 0 ≤ e - (log2Ratio n d + e - 52) then
          roundHalfEven (n * 2 ^ (e - (log2Ratio n d + e - 52)).toNat) d
        else roundHalfEven n (d * 2 ^ ((log2Ratio n d + e - 52) - e).toNat)) →
      |(m : ℚ) - (n : ℚ) / d * 2 ^ (e - (log2Ratio n d + e - 52))| ≤ 1 / 2 := by
    intro m hm
    by_cases hs : 0 ≤ e - (log2Ratio n d + e - 52)
    · rw [if_pos hs] at hm
      have h := roundHalfEven_spec (n * 2 ^ (e - (log2Ratio n d + e - 52)).toNat) d hd
      rw [← hm] at h
      have hp : ((2 : ℚ) ^ (e - (log2Ratio n d + e - 52)).toNat)
          = 2 ^ (e - (log2Ratio n d + e - 52)) := by
        rw [← zpow_natCast, Int.toNat_of_nonneg hs]
      push_cast at h
      rw [hp] at h
      have : (n : ℚ) * 2 ^ (e - (log2Ratio n d + e - 52)) / d
          = (n : ℚ) / d * 2 ^ (e - (log2Ratio n d + e - 52)) := by ring
      rw [this] at h
      exact h
    · rw [if_neg hs] at hm
      have hs2 : 0 ≤ (log2Ratio n d + e - 52) - e := by omega
      have h := roundHalfEven_spec n (d * 2 ^ ((log2Ratio n d + e - 52) - e).toNat)
        (Nat.mul_pos hd (Nat.two_pow_pos _))
      rw [← hm] at h
      have hp : ((2 : ℚ) ^ ((log2Ratio n d + e - 52) - e).toNat)
          = 2 ^ ((log2Ratio n d + e - 52) - e) := by
        rw [← zpow_natCast, Int.toNat_of_nonneg hs2]
      push_cast at h
      rw [hp] at h
      have : (n : ℚ) / (d * 2 ^ ((log2Ratio n d + e - 52) - e))
          = (n : ℚ) / d * 2 ^ (e - (log2Ratio n d + e - 52)) := by
        have hneg : e - (log2Ratio n d + e - 52) = -((log2Ratio n d + e - 52) - e) := by ring
        rw [hneg, zpow_neg]
        field_simp
      rw [this] at h
      exact h
  -- the error in terms of v
  have herr : ∀ m : Nat,
      |(m : ℚ) - (n : ℚ) / d * 2 ^ (e - (log2Ratio n d + e - 52))| ≤ 1 / 2 →
      |(m : ℚ) * 2 ^ (log2Ratio n d + e - 52) - (n : ℚ) / d * 2 ^ e|
          ≤ 2 ^ (-53 : Int) * ((n : ℚ) / d * 2 ^ e)
        ∧ (2 : ℚ) ^ (52 : Int) - 1 / 2 ≤ m := by
    intro m hm
    have hxp : (0 : ℚ) < 2 ^ (log2Ratio n d + e - 52) := two_zpow_pos _
    have hsplit : (n : ℚ) / d * 2 ^ e
        = ((n : ℚ) / d * 2 ^ (e - (log2Ratio n d + e - 52)))
          * 2 ^ (log2Ratio n d + e - 52) := by
      rw [mul_assoc, ← zpow_add₀ (by norm_num)]
      congr 2
      ring
    have hfac : (m : ℚ) * 2 ^ (log2Ratio n d + e - 52) - (n : ℚ) / d * 2 ^ e
        = ((m : ℚ) - (n : ℚ) / d * 2 ^ (e - (log2Ratio n d + e - 52)))
          * 2 ^ (log2Ratio n d + e - 52) := by
      rw [sub_mul, ← hsplit]
    have hpow : (2 : ℚ) ^ (log2Ratio n d + e - 52) * (1 / 2)
        = 2 ^ (-53 : Int) * 2 ^ (log2Ratio n d + e) := by
      have : log2Ratio n d + e - 52 = (log2Ratio n d + e) + (-52) := by ring
      rw [this, zpow_add₀ (by norm_num)]
      norm_num
      ring
    constructor
    · rw [hfac, abs_mul, abs_of_pos hxp]
      calc |(m : ℚ) - (n : ℚ) / d * 2 ^ (e - (log2Ratio n d + e - 52))|
            * 2 ^ (log2Ratio n d + e - 52)
          ≤ (1 / 2) * 2 ^ (log2Ratio n d + e - 52) :=
            mul_le_mul_of_nonneg_right hm hxp.le
        _ = 2 ^ (-53 : Int) * 2 ^ (log2Ratio n d + e) := by rw [mul_comm, hpow]
        _ ≤ 2 ^ (-53 : Int) * ((n : ℚ) / d * 2 ^ e) :=
            mul_le_mul_of_nonneg_left hv1 (two_zpow_pos _).le
    · have hge : (2 : ℚ) ^ (52 : Int) ≤ (n : ℚ) / d * 2 ^ (e - (log2Ratio n d + e - 52)) := by
        have : (2 : ℚ) ^ (52 : Int)
            = 2 ^ (log2Ratio n d + e) * 2 ^ (-(log2Ratio n d + e - 52)) := by
          rw [← zpow_add₀ (by norm_num)]
          congr 1
          ring
        rw [this]
        have h3 : (n : ℚ) / d * 2 ^ (e - (log2Ratio n d + e - 52))
            = ((n : ℚ) / d * 2 ^ e) * 2 ^ (-(log2Ratio n d + e - 52)) := by
          rw [mul_assoc, ← zpow_add₀ (by norm_num)]
          congr 2
        rw [h3]
        exact mul_le_mul_of_nonneg_right hv1 (two_zpow_pos _).le
      have := (abs_le.mp hm).1
      linarith
  unfold Double.round
  rw [if_neg (by omega : ¬ n = 0)]
  simp only [hx]
  set m := (if 0 ≤ e - (log2Ratio n d + e - 52) then
          roundHalfEven (n * 2 ^ (e - (log2Ratio n d + e - 52)).toNat) d
        else roundHalfEven n (d * 2 ^ ((log2Ratio n d + e - 52) - e).toNat)) with hm
  obtain ⟨hE, hM⟩ := herr m (hscaled m hm)
  have hmpos : 0 < m := by
    have h52 : (1 : ℚ) ≤ 2 ^ (52 : Int) - 1 / 2 := by norm_num
    have : (0 : ℚ) < m := by linarith
    exact_mod_cast this
  by_cases h53 : m = 2 ^ 53
  · rw [if_pos h53, if_neg (by omega)]
    refine ⟨2 ^ 52, log2Ratio n d + e - 52 + 1, rfl, by norm_num, ?_⟩
    have : ((2 ^ 52 : Nat) : ℚ) * 2 ^ (log2Ratio n d + e - 52 + 1)
        = (m : ℚ) * 2 ^ (log2Ratio n d + e - 52) := by
      rw [h53, zpow_add₀ (by norm_num)]
      push_cast
      ring
    rw [this]
    exact hE
  · rw [if_neg h53, if_neg (by omega)]
    exact ⟨m, _, rfl, hmpos, hE⟩

theorem Double.Positive.toRat_pos {x : Double} (h : x.Positive) : 0 < x.toRat := by
  obtain ⟨m, e, hx, hm⟩ := h
  rw [hx]
  simp only [Double.toRat, Bool.false_eq_true, if_false]
  have : (0 : ℚ) < m := by exact_mod_cast hm
  exact mul_pos this (two_zpow_pos e)

theorem Double.mul_near (a b : Double) (ha : a.Positive) (hb : b.Positive)
    (hlo : (2 : ℚ) ^ (-1022 : Int) ≤ a.toRat * b.toRat)
    (hhi : a.toRat * b.toRat < 2 ^ (1023 : Int)) :
    (a.mul b).Positive
      ∧ |(a.mul b).toRat - a.toRat * b.toRat| ≤ unitRoundoff * (a.toRat * b.toRat) := by
  obtain ⟨m, e, hx, hm⟩ := ha
  obtain ⟨m2, e2, hx2, hm2⟩ := hb
  subst hx hx2
  simp only [Double.toRat, Bool.false_eq_true, if_false] at hlo hhi ⊢
  have hval : ((m * m2 : Nat) : ℚ) / (1 : Nat) * 2 ^ (e + e2)
      = (m : ℚ) * 2 ^ e * ((m2 : ℚ) * 2 ^ e2) := by
    rw [zpow_add₀ (by norm_num)]
    push_cast
    ring
  obtain ⟨m3, x3, h3, hm3, herr⟩ := round_near (m * m2) 1 (e + e2) (Nat.mul_pos hm hm2)
    (by norm_num) (by rw [hval]; exact hlo) (by rw [hval]; exact hhi)
  have hmul : (Double.finite false m e).mul (Double.finite false m2 e2)
      = Double.finite false m3 x3 := by
    simp only [Double.mul, Bool.xor_false]
    exact h3
  rw [hmul]
  refine ⟨⟨m3, x3, rfl, hm3⟩, ?_⟩
  simp only [Double.toRat, Bool.false_eq_true, if_false]
  rw [hval] at herr
  exact herr

theorem Double.div_near (a b : Double) (ha : a.Positive) (hb : b.Positive)
    (hlo : (2 : ℚ) ^ (-1022 : Int) ≤ a.toRat / b.toRat)
    (hhi : a.toRat / b.toRat < 2 ^ (1023 : Int)) :
    (a.div b).Positive
      ∧ |(a.div b).toRat - a.toRat / b.toRat| ≤ unitRoundoff * (a.toRat / b.toRat) := by
  obtain ⟨m, e, hx, hm⟩ := ha
  obtain ⟨m2, e2, hx2, hm2⟩ := hb
  subst hx hx2
  simp only [Double.toRat, Bool.false_eq_true, if_false] at hlo hhi ⊢
  have hm2q : (0 : ℚ) < m2 := by exact_mod_cast hm2
  have hval : (m : ℚ) / (m2 : ℚ) * 2 ^ (e - e2)
      = (m : ℚ) * 2 ^ e / ((m2 : ℚ) * 2 ^ e2) := by
    rw [zpow_sub₀ (by norm_num)]
    have := two_zpow_pos e2
    field_simp
  obtain ⟨m3, x3, h3, hm3, herr⟩ := round_near m m2 (e - e2) hm hm2
    (by rw [hval]; exact hlo) (by rw [hval]; exact hhi)
  have hdiv : (Double.finite false m e).div (Double.finite false m2 e2)
      = Double.finite false m3 x3 := by
    simp only [Double.div, Bool.xor_false]
    rw [if_neg (by omega)]
    exact h3
  rw [hdiv]
  refine ⟨⟨m3, x3, rfl, hm3⟩, ?_⟩
  simp only [Double.toRat, Bool.false_eq_true, if_false]
  rw [hval] at herr
  exact herr

theorem Double.scaled_eq (negative : Bool) (m : Nat) (e lo : Int) :
    Double.scaled negative m e lo
      = (if negative then -(m : Int) else (m : Int)) * 2 ^ (e - lo).toNat := by
  cases negative <;> simp [Double.scaled, Nat.shiftLeft_eq]

theorem Double.gt_iff (a b : Double) (ha : a.Positive) (hb : b.Positive) :
    a.gt b = true ↔ b.toRat < a.toRat := by
  obtain ⟨m, e, hx, hm⟩ := ha
  obtain ⟨m2, e2, hx2, hm2⟩ := hb
  subst hx hx2
  simp only [Double.gt, Double.scaled_eq, Double.toRat, Bool.false_eq_true, if_false,
    decide_eq_true_eq]
  have h1 : 0 ≤ e - min e e2 := by
    have := min_le_left e e2
    omega
  have h2 : 0 ≤ e2 - min e e2 := by
    have := min_le_right e e2
    omega
  have hp : (0 : ℚ) < 2 ^ (min e e2) := two_zpow_pos _
  have hc1 : (((m : Int) * 2 ^ (e - min e e2).toNat : Int) : ℚ) * 2 ^ (min e e2)
      = (m : ℚ) * 2 ^ e := by
    push_cast
    rw [mul_assoc, ← zpow_natCast, Int.toNat_of_nonneg h1, ← zpow_add₀ (by norm_num)]
    congr 2
    ring
  have hc2 : (((m2 : Int) * 2 ^ (e2 - min e e2).toNat : Int) : ℚ) * 2 ^ (min e e2)
      = (m2 : ℚ) * 2 ^ e2 := by
    push_cast
    rw [mul_assoc, ← zpow_natCast, Int.toNat_of_nonneg h2, ← zpow_add₀ (by norm_num)]
    congr 2
    ring
  rw [← hc1, ← hc2]
  constructor
  · intro h
    have hq : (((m2 : Int) * 2 ^ (e2 - min e e2).toNat : Int) : ℚ)
        < (((m : Int) * 2 ^ (e - min e e2).toNat : Int) : ℚ) := by exact_mod_cast h
    exact mul_lt_mul_of_pos_right hq hp
  · intro h
    have hq := lt_of_mul_lt_mul_right h hp.le
    exact_mod_cast hq

theorem near_bounds {u x v : ℚ} (h : |x - v| ≤ u * v) :
    v * (1 - u) ≤ x ∧ x ≤ v * (1 + u) := by
  obtain ⟨h1, h2⟩ := abs_le.mp h
  constructor <;> linarith

theorem near_div {u s t a b : ℚ} (hu0 : 0 ≤ u) (hu1 : u ≤ 1) (hb : 0 < b)
    (ht : |t - a| ≤ u * a) (hs : |s - t / b| ≤ u * (t / b)) :
    a / b * (1 - u) ^ 2 ≤ s ∧ s ≤ a / b * (1 + u) ^ 2 := by
  obtain ⟨ht1, ht2⟩ := near_bounds ht
  obtain ⟨hs1, hs2⟩ := near_bounds hs
  have hb' : 0 < 1 / b := by positivity
  have e1 : a / b * (1 - u) ^ 2 = (a * (1 - u)) / b * (1 - u) := by ring
  have e2 : a / b * (1 + u) ^ 2 = (a * (1 + u)) / b * (1 + u) := by ring
  have h1u : 0 ≤ 1 - u := by linarith
  have h1u' : 0 ≤ 1 + u := by linarith
  have d1 : a * (1 - u) / b ≤ t / b := div_le_div_of_nonneg_right ht1 hb.le
  have d2 : t / b ≤ a * (1 + u) / b := div_le_div_of_nonneg_right ht2 hb.le
  constructor
  · rw [e1]
    exact le_trans (mul_le_mul_of_nonneg_right d1 h1u) hs1
  · rw [e2]
    exact le_trans hs2 (mul_le_mul_of_nonneg_right d2 h1u')

theorem pow_bounds {u : ℚ} (hu0 : 0 ≤ u) (hu : u ≤ 1 / 100) :
    (1 + u) ^ 2 ≤ 1 + 8 * u ∧ (1 + u) ^ 4 ≤ 1 + 8 * u ∧ (1 + u) ^ 6 ≤ 1 + 8 * u
      ∧ 1 - 8 * u ≤ (1 - u) ^ 2 ∧ (1 + u) ^ 2 * (1 - 8 * u) ≤ 1
      ∧ 1 ≤ (1 - u) ^ 2 * (1 + 8 * u) := by
  have step : ∀ {x c : ℚ}, 0 ≤ x → x ≤ c → x * u ≤ c / 100 := by
    intro x c hx hxc
    have a1 : x * u ≤ x * (1 / 100) := mul_le_mul_of_nonneg_left hu hx
    linarith
  have h20 : 0 ≤ u ^ 2 := by positivity
  have h30 : 0 ≤ u ^ 3 := by positivity
  have h40 : 0 ≤ u ^ 4 := by positivity
  have h50 : 0 ≤ u ^ 5 := by positivity
  have h2 : u ^ 2 ≤ u / 100 := by
    have := step hu0 (le_refl u)
    rw [pow_two]
    exact this
  have h3 : u ^ 3 ≤ u / 10000 := by
    have := step h20 h2
    rw [pow_succ]
    linarith
  have h4 : u ^ 4 ≤ u / 1000000 := by
    have := step h30 h3
    rw [pow_succ]
    linarith
  have h5 : u ^ 5 ≤ u / 100000000 := by
    have := step h40 h4
    rw [pow_succ]
    linarith
  have h6 : u ^ 6 ≤ u / 10000000000 := by
    have := step h50 h5
    rw [pow_succ]
    linarith
  refine ⟨?_, ?_, ?_, ?_, ?_, ?_⟩
  · have : (1 + u) ^ 2 = 1 + 2 * u + u ^ 2 := by ring
    rw [this]
    linarith
  · have : (1 + u) ^ 4 = 1 + 4 * u + 6 * u ^ 2 + 4 * u ^ 3 + u ^ 4 := by ring
    rw [this]
    linarith
  · have : (1 + u) ^ 6
        = 1 + 6 * u + 15 * u ^ 2 + 20 * u ^ 3 + 15 * u ^ 4 + 6 * u ^ 5 + u ^ 6 := by ring
    rw [this]
    linarith
  · have : (1 - u) ^ 2 = 1 - 2 * u + u ^ 2 := by ring
    rw [this]
    linarith
  · have : (1 + u) ^ 2 * (1 - 8 * u) = 1 - 6 * u - 15 * u ^ 2 - 8 * u ^ 3 := by ring
    rw [this]
    linarith
  · have : (1 - u) ^ 2 * (1 + 8 * u) = 1 + 6 * u - 15 * u ^ 2 + 8 * u ^ 3 := by ring
    rw [this]
    linarith

/-- The analysis of the two scaling steps over the rational numbers: `s1` is the
height computed in the first step and `s2` the width computed in the second
one, each within two roundings of its exact value. -/
theorem scaled_cases {u w h pw ph s1 s2 : ℚ} (hu0 : 0 ≤ u) (hu : u ≤ 1 / 100)
    (hw : 0 < w) (hh : 0 < h) (hpw : 0 < pw) (hph : 0 < ph)
    (h1 : pw * h / w * (1 - u) ^ 2 ≤ s1 ∧ s1 ≤ pw * h / w * (1 + u) ^ 2)
    (h2 : ph * w / h * (1 - u) ^ 2 ≤ s2 ∧ s2 ≤ ph * w / h * (1 + u) ^ 2) :
    -- first step not taken, second step taken
    (w ≤ pw → ph < h → s2 ≤ pw * (1 + 8 * u) ∧ |s2 * h - ph * w| ≤ 8 * u * (ph * w))
    -- first step taken, second step not taken
    ∧ (|pw * h - s1 * w| ≤ 8 * u * (s1 * w))
    -- both steps taken
    ∧ (ph < s1 → s2 ≤ pw * (1 + 8 * u) ∧ |s2 * h - ph * w| ≤ 8 * u * (ph * w)) := by
  obtain ⟨p2, p4, p6, q2, r1, r2⟩ := pow_bounds hu0 hu
  have hq : ph * w / h * h = ph * w := by field_simp
  have hr : pw * h / w * w = pw * h := by field_simp
  have hqpos : 0 < ph * w / h := by positivity
  have hrpos : 0 < pw * h / w := by positivity
  have haspect2 : |s2 * h - ph * w| ≤ 8 * u * (ph * w) := by
    rw [abs_le]
    have ha : ph * w * (1 - u) ^ 2 ≤ s2 * h := by
      have := mul_le_mul_of_nonneg_right h2.1 hh.le
      rw [mul_right_comm, hq] at this
      exact this
    have hb : s2 * h ≤ ph * w * (1 + u) ^ 2 := by
      have := mul_le_mul_of_nonneg_right h2.2 hh.le
      rw [mul_right_comm, hq] at this
      exact this
    have hpos : 0 < ph * w := by positivity
    have hlow := mul_le_mul_of_nonneg_left q2 hpos.le
    have hupp := mul_le_mul_of_nonneg_left p2 hpos.le
    constructor
    · linarith
    · linarith
  refine ⟨?_, ?_, ?_⟩
  · intro hwpw hphh
    refine ⟨?_, haspect2⟩
    have hqw : ph * w / h ≤ w := by
      rw [div_le_iff₀ hh]
      have := mul_le_mul_of_nonneg_right hphh.le hw.le
      linarith
    calc s2 ≤ ph * w / h * (1 + u) ^ 2 := h2.2
      _ ≤ w * (1 + u) ^ 2 := mul_le_mul_of_nonneg_right hqw (by positivity)
      _ ≤ pw * (1 + u) ^ 2 := mul_le_mul_of_nonneg_right hwpw (by positivity)
      _ ≤ pw * (1 + 8 * u) := mul_le_mul_of_nonneg_left p2 hpw.le
  · rw [abs_le]
    have ha : pw * h * (1 - u) ^ 2 ≤ s1 * w := by
      have := mul_le_mul_of_nonneg_right h1.1 hw.le
      rw [mul_right_comm, hr] at this
      exact this
    have hb : s1 * w ≤ pw * h * (1 + u) ^ 2 := by
      have := mul_le_mul_of_nonneg_right h1.2 hw.le
      rw [mul_right_comm, hr] at this
      exact this
    have hpos : 0 < pw * h := by positivity
    have hs1w : 0 ≤ s1 * w := le_trans (by positivity) ha
    constructor
    · -- -(8u s1 w) ≤ pw h - s1 w, i.e. s1 w (1 - 8u) ≤ pw h
      have hneg : 0 ≤ 1 - 8 * u := by linarith
      have : s1 * w * (1 - 8 * u) ≤ pw * h := by
        calc s1 * w * (1 - 8 * u) ≤ pw * h * (1 + u) ^ 2 * (1 - 8 * u) :=
              mul_le_mul_of_nonneg_right hb hneg
          _ = pw * h * ((1 + u) ^ 2 * (1 - 8 * u)) := by ring
          _ ≤ pw * h * 1 := mul_le_mul_of_nonneg_left r1 hpos.le
          _ = pw * h := by ring
      linarith
    · -- pw h - s1 w ≤ 8u s1 w, i.e. pw h ≤ s1 w (1 + 8u)
      have : pw * h ≤ s1 * w * (1 + 8 * u) := by
        calc pw * h = pw * h * 1 := by ring
          _ ≤ pw * h * ((1 - u) ^ 2 * (1 + 8 * u)) := mul_le_mul_of_nonneg_left r2 hpos.le
          _ = pw * h * (1 - u) ^ 2 * (1 + 8 * u) := by ring
          _ ≤ s1 * w * (1 + 8 * u) := mul_le_mul_of_nonneg_right ha (by linarith)
      linarith
  · intro hphs1
    refine ⟨?_, haspect2⟩
    have hq2 : ph * w / h ≤ pw * (1 + u) ^ 2 := by
      rw [div_le_iff₀ hh]
      have hb : s1 * w ≤ pw * h * (1 + u) ^ 2 := by
        have := mul_le_mul_of_nonneg_right h1.2 hw.le
        rw [mul_right_comm, hr] at this
        exact this
      have : ph * w ≤ s1 * w := mul_le_mul_of_nonneg_right hphs1.le hw.le
      calc ph * w ≤ s1 * w := this
        _ ≤ pw * h * (1 + u) ^ 2 := hb
        _ = pw * (1 + u) ^ 2 * h := by ring
    calc s2 ≤ ph * w / h * (1 + u) ^ 2 := h2.2
      _ ≤ pw * (1 + u) ^ 2 * (1 + u) ^ 2 := mul_le_mul_of_nonneg_right hq2 (by positivity)
      _ = pw * (1 + u) ^ 4 := by ring
      _ ≤ pw * (1 + 8 * u) := mul_le_mul_of_nonneg_left p4 hpw.le


theorem unitRoundoff_bounds : 0 ≤ unitRoundoff ∧ unitRoundoff ≤ 1 / 100 ∧ unitRoundoff ≤ 1
    ∧ 8 * unitRoundoff = 2 ^ (-50 : Int) := by
  unfold unitRoundoff
  norm_num

theorem three_eq : Double.ofInt 3 = Double.finite false (3 * 2 ^ 51) (-51) := by decide

theorem four_eq : Double.ofInt 4 = Double.finite false (2 ^ 52) (-50) := by decide

theorem seventyTwo_eq : Double.ofInt 72 = Double.finite false (9 * 2 ^ 49) (-46) := by decide

theorem three_inRange : (Double.ofInt 3).InRange 1 2 ∧ (Double.ofInt 3).toRat = 3 := by
  rw [three_eq]
  refine ⟨⟨⟨_, _, rfl, by norm_num⟩, ?_, ?_⟩, ?_⟩ <;>
    simp only [Double.toRat, Bool.false_eq_true, if_false] <;> norm_num

theorem four_inRange : (Double.ofInt 4).InRange 2 2 ∧ (Double.ofInt 4).toRat = 4 := by
  rw [four_eq]
  refine ⟨⟨⟨_, _, rfl, by norm_num⟩, ?_, ?_⟩, ?_⟩ <;>
    simp only [Double.toRat, Bool.false_eq_true, if_false] <;> norm_num

theorem seventyTwo_inRange :
    (Double.ofInt 72).InRange 6 7 ∧ (Double.ofInt 72).toRat = 72 := by
  rw [seventyTwo_eq]
  refine ⟨⟨⟨_, _, rfl, by norm_num⟩, ?_, ?_⟩, ?_⟩ <;>
    simp only [Double.toRat, Bool.false_eq_true, if_false] <;> norm_num

theorem inRange_of_near {x : Double} {v : ℚ} {lo hi : Int} (hx : x.Positive)
    (hlo : (2 : ℚ) ^ lo ≤ v) (hhi : v ≤ 2 ^ hi)
    (h : |x.toRat - v| ≤ unitRoundoff * v) : x.InRange (lo - 1) (hi + 1) := by
  obtain ⟨h1, h2⟩ := near_bounds h
  obtain ⟨u0, u1, _, _⟩ := unitRoundoff_bounds
  have hv : 0 < v := lt_of_lt_of_le (two_zpow_pos lo) hlo
  refine ⟨hx, ?_, ?_⟩
  · rw [zpow_sub₀ (by norm_num), zpow_one]
    have : v / 2 ≤ v * (1 - unitRoundoff) := by nlinarith
    have h3 : (2 : ℚ) ^ lo / 2 ≤ v / 2 := by linarith
    linarith
  · rw [zpow_add₀ (by norm_num), zpow_one]
    have : v * (1 + unitRoundoff) ≤ v * 2 := by nlinarith
    linarith

theorem Double.mul_inRange (a b : Double) {l1 h1 l2 h2 : Int} (ha : a.InRange l1 h1)
    (hb : b.InRange l2 h2) (hl : -1022 ≤ l1 + l2) (hh : h1 + h2 < 1023) :
    (a.mul b).InRange (l1 + l2 - 1) (h1 + h2 + 1)
      ∧ |(a.mul b).toRat - a.toRat * b.toRat| ≤ unitRoundoff * (a.toRat * b.toRat) := by
  obtain ⟨pa, la, ua⟩ := ha
  obtain ⟨pb, lb, ub⟩ := hb
  have htwo : (1 : ℚ) < 2 := by norm_num
  have hlo : (2 : ℚ) ^ (l1 + l2) ≤ a.toRat * b.toRat := by
    rw [zpow_add₀ (by norm_num)]
    exact mul_le_mul la lb (two_zpow_pos _).le pa.toRat_pos.le
  have hhi : a.toRat * b.toRat ≤ (2 : ℚ) ^ (h1 + h2) := by
    rw [zpow_add₀ (by norm_num)]
    exact mul_le_mul ua ub pb.toRat_pos.le (two_zpow_pos _).le
  have hlo2 : (2 : ℚ) ^ (-1022 : Int) ≤ a.toRat * b.toRat :=
    le_trans ((zpow_le_zpow_iff_right₀ htwo).mpr hl) hlo
  have hhi2 : a.toRat * b.toRat < (2 : ℚ) ^ (1023 : Int) :=
    lt_of_le_of_lt hhi ((zpow_lt_zpow_iff_right₀ htwo).mpr hh)
  obtain ⟨hp, hn⟩ := Double.mul_near a b pa pb hlo2 hhi2
  exact ⟨inRange_of_near hp hlo hhi hn, hn⟩

theorem Double.div_inRange (a b : Double) {l1 h1 l2 h2 : Int} (ha : a.InRange l1 h1)
    (hb : b.InRange l2 h2) (hl : -1022 ≤ l1 - h2) (hh : h1 - l2 < 1023) :
    (a.div b).InRange (l1 - h2 - 1) (h1 - l2 + 1)
      ∧ |(a.div b).toRat - a.toRat / b.toRat| ≤ unitRoundoff * (a.toRat / b.toRat) := by
  obtain ⟨pa, la, ua⟩ := ha
  obtain ⟨pb, lb, ub⟩ := hb
  have htwo : (1 : ℚ) < 2 := by norm_num
  have hbpos := pb.toRat_pos
  have hlo : (2 : ℚ) ^ (l1 - h2) ≤ a.toRat / b.toRat := by
    rw [zpow_sub₀ (by norm_num)]
    exact div_le_div₀ (pa.toRat_pos.le) la hbpos ub
  have hhi : a.toRat / b.toRat ≤ (2 : ℚ) ^ (h1 - l2) := by
    rw [zpow_sub₀ (by norm_num)]
    exact div_le_div₀ (two_zpow_pos _).le ua (two_zpow_pos _) lb
  have hlo2 : (2 : ℚ) ^ (-1022 : Int) ≤ a.toRat / b.toRat :=
    le_trans ((zpow_le_zpow_iff_right₀ htwo).mpr hl) hlo
  have hhi2 : a.toRat / b.toRat < (2 : ℚ) ^ (1023 : Int) :=
    lt_of_le_of_lt hhi ((zpow_lt_zpow_iff_right₀ htwo).mpr hh)
  obtain ⟨hp, hn⟩ := Double.div_near a b pa pb hlo2 hhi2
  exact ⟨inRange_of_near hp hlo hhi hn, hn⟩

theorem threeQuarters_spec (x : Double) (hx : x.InRange (-800) 800) :
    (threeQuarters x).InRange (-803) 802
      ∧ 3 / 4 * x.toRat * (1 - unitRoundoff) ^ 2 ≤ (threeQuarters x).toRat
      ∧ (threeQuarters x).toRat ≤ 3 / 4 * x.toRat * (1 + unitRoundoff) ^ 2 := by
  obtain ⟨u0, _, u1, _⟩ := unitRoundoff_bounds
  obtain ⟨r1, n1⟩ := Double.mul_inRange x (Double.ofInt 3) hx three_inRange.1
    (by norm_num) (by norm_num)
  obtain ⟨r2, n2⟩ := Double.div_inRange (x.mul (Double.ofInt 3)) (Double.ofInt 4) r1
    four_inRange.1 (by norm_num) (by norm_num)
  rw [three_inRange.2] at n1
  rw [four_inRange.2] at n2
  have hn := near_div u0 u1 (by norm_num : (0 : ℚ) < 4) n1 n2
  have e : x.toRat * 3 / 4 = 3 / 4 * x.toRat := by ring
  rw [e] at hn
  exact ⟨r2, hn.1, hn.2⟩

theorem Double.InRange.widen {x : Double} {l1 h1 l2 h2 : Int} (h : x.InRange l1 h1)
    (hl : l2 ≤ l1) (hh : h1 ≤ h2) : x.InRange l2 h2 := by
  have htwo : (1 : ℚ) ≤ 2 := by norm_num
  exact ⟨h.1, le_trans (zpow_le_zpow_right₀ htwo hl) h.2.1,
    le_trans h.2.2 (zpow_le_zpow_right₀ htwo hh)⟩

theorem Double.ofInt_inRange (i : Int) (h0 : 0 < i) (h1 : i < 2 ^ 31) :
    (Double.ofInt i).InRange (-1) 32 := by
  have hneg : decide (i < 0) = false := by
    rw [decide_eq_false_iff_not]
    omega
  have hn : 0 < i.natAbs := by omega
  have hlo1 : (1 : ℚ) ≤ (i.natAbs : ℚ) := by exact_mod_cast hn
  have hhi1 : (i.natAbs : ℚ) ≤ 2 ^ 31 := by
    have : i.natAbs ≤ 2 ^ 31 := by omega
    exact_mod_cast this
  have hval : ((i.natAbs : Nat) : ℚ) / (1 : Nat) * 2 ^ (0 : Int) = (i.natAbs : ℚ) := by
    simp
  obtain ⟨m, x, hr, hm, herr⟩ := round_near i.natAbs 1 0 hn (by norm_num)
    (by
      rw [hval]
      refine le_trans ?_ hlo1
      rw [show (1 : ℚ) = 2 ^ (0 : Int) by norm_num]
      exact zpow_le_zpow_right₀ (by norm_num) (by norm_num))
    (by
      rw [hval]
      refine lt_of_le_of_lt hhi1 ?_
      rw [show (2 : ℚ) ^ 31 = 2 ^ (31 : Int) by norm_cast]
      exact (zpow_lt_zpow_iff_right₀ (by norm_num)).mpr (by norm_num))
  unfold Double.ofInt
  rw [hneg, hr]
  rw [hval] at herr
  have hnear : |(Double.finite false m x).toRat - (i.natAbs : ℚ)|
      ≤ unitRoundoff * (i.natAbs : ℚ) := by
    simp only [Double.toRat, Bool.false_eq_true, if_false]
    exact herr
  have := @inRange_of_near _ _ 0 31 ⟨m, x, rfl, hm⟩
    (by simpa using hlo1) (by
      rw [show (2 : ℚ) ^ (31 : Int) = 2 ^ 31 by norm_cast]
      exact hhi1) hnear
  exact this

theorem pixelsToPoints_inRange (pixels dpi : Int) (hp : 0 < pixels) (hp2 : pixels < 2 ^ 31)
    (hd : 0 < dpi) (hd2 : dpi < 2 ^ 31) : (pixelsToPoints pixels dpi).InRange (-100) 100 := by
  have r1 := (Double.div_inRange _ _ (Double.ofInt_inRange pixels hp hp2)
    (Double.ofInt_inRange dpi hd hd2) (by norm_num) (by norm_num)).1
  have r2 := (Double.mul_inRange _ _ r1 seventyTwo_inRange.1 (by norm_num) (by norm_num)).1
  exact r2.widen (by norm_num) (by norm_num)

theorem scaledImageSize_cases (w h W H : Double) :
    scaledImageSize w h W H =
      if w.gt (threeQuarters W) then
        if (((threeQuarters W).mul h).div w).gt (threeQuarters H) then
          (((threeQuarters H).mul w).div h, threeQuarters H)
        else (threeQuarters W, ((threeQuarters W).mul h).div w)
      else if h.gt (threeQuarters H) then (((threeQuarters H).mul w).div h, threeQuarters H)
      else (w, h) := by
  unfold scaledImageSize threeQuarters
  simp only
  split_ifs <;> simp_all

theorem Double.gt_false_iff (a b : Double) (ha : a.Positive) (hb : b.Positive) :
    a.gt b = false ↔ a.toRat ≤ b.toRat := by
  rw [← not_lt, ← Double.gt_iff a b ha hb]
  simp

theorem scaledImageSize_spec (w h W H : Double) (hw : w.InRange (-100) 100)
    (hh : h.InRange (-100) 100) (hW : W.InRange (-800) 800) (hH : H.InRange (-800) 800) :
    (scaledImageSize w h W H).1.Positive ∧ (scaledImageSize w h W H).2.Positive
      ∧ (scaledImageSize w h W H).2.toRat ≤ (threeQuarters H).toRat
      ∧ (scaledImageSize w h W H).1.toRat
          ≤ (threeQuarters W).toRat * (1 + 2 ^ (-50 : Int))
      ∧ |(scaledImageSize w h W H).1.toRat * h.toRat
            - (scaledImageSize w h W H).2.toRat * w.toRat|
          ≤ 2 ^ (-50 : Int) * ((scaledImageSize w h W H).2.toRat * w.toRat)
      ∧ (w.toRat ≤ (threeQuarters W).toRat → h.toRat ≤ (threeQuarters H).toRat →
          scaledImageSize w h W H = (w, h)) := by
  obtain ⟨u0, u100, u1, u8⟩ := unitRoundoff_bounds
  obtain ⟨rpw, -, -⟩ := threeQuarters_spec W hW
  obtain ⟨rph, -, -⟩ := threeQuarters_spec H hH
  obtain ⟨rt1, nt1⟩ := Double.mul_inRange (threeQuarters W) h rpw hh (by norm_num) (by norm_num)
  obtain ⟨rs1, ns1⟩ := Double.div_inRange _ w rt1 hw (by norm_num) (by norm_num)
  obtain ⟨rt2, nt2⟩ := Double.mul_inRange (threeQuarters H) w rph hw (by norm_num) (by norm_num)
  obtain ⟨rs2, ns2⟩ := Double.div_inRange _ h rt2 hh (by norm_num) (by norm_num)
  have b1 := near_div u0 u1 hw.1.toRat_pos nt1 ns1
  have b2 := near_div u0 u1 hh.1.toRat_pos nt2 ns2
  obtain ⟨cB, cA, cC⟩ := scaled_cases u0 u100 hw.1.toRat_pos hh.1.toRat_pos rpw.1.toRat_pos
    rph.1.toRat_pos b1 b2
  rw [u8] at cB cA cC
  have hpwpos := rpw.1.toRat_pos
  have hphpos := rph.1.toRat_pos
  have h50 : (0 : ℚ) < 2 ^ (-50 : Int) := two_zpow_pos _
  rw [scaledImageSize_cases]
  by_cases g1 : w.gt (threeQuarters W) = true
  · rw [if_pos g1]
    by_cases g2 : (((threeQuarters W).mul h).div w).gt (threeQuarters H) = true
    · rw [if_pos g2]
      have hlt := (Double.gt_iff _ _ rs1.1 rph.1).mp g2
      obtain ⟨c1, c2⟩ := cC hlt
      refine ⟨rs2.1, rph.1, le_refl _, c1, c2, ?_⟩
      intro hle
      exact absurd ((Double.gt_iff _ _ hw.1 rpw.1).mp g1) (not_lt.mpr hle)
    · rw [if_neg g2]
      have hle := (Double.gt_false_iff _ _ rs1.1 rph.1).mp (by simpa using g2)
      refine ⟨rpw.1, rs1.1, hle, ?_, cA, ?_⟩
      · have := mul_nonneg hpwpos.le h50.le
        linarith
      · intro hle2
        exact absurd ((Double.gt_iff _ _ hw.1 rpw.1).mp g1) (not_lt.mpr hle2)
  · rw [if_neg g1]
    have hwle := (Double.gt_false_iff _ _ hw.1 rpw.1).mp (by simpa using g1)
    by_cases g2 : h.gt (threeQuarters H) = true
    · rw [if_pos g2]
      have hlt := (Double.gt_iff _ _ hh.1 rph.1).mp g2
      obtain ⟨c1, c2⟩ := cB hwle hlt
      refine ⟨rs2.1, rph.1, le_refl _, c1, c2, ?_⟩
      intro _ hle
      exact absurd hlt (not_lt.mpr hle)
    · rw [if_neg g2]
      have hhle := (Double.gt_false_iff _ _ hh.1 rph.1).mp (by simpa using g2)
      refine ⟨hw.1, hh.1, hhle, ?_, ?_, fun _ _ => rfl⟩
      · have := mul_nonneg hpwpos.le h50.le
        linarith
      · have e : w.toRat * h.toRat - h.toRat * w.toRat = 0 := by ring
        rw [e, abs_zero]
        have := mul_pos hh.1.toRat_pos hw.1.toRat_pos
        positivity

theorem clipboardPasteImage_eq (s : Control) (imgWidth imgHeight dpi : Int) (page : XojPage)
    (hnr : getCurrentPageNo s < 2 ^ 31)
    (hpage : s.doc.getPage (getCurrentPageNo s) = some page) :
    clipboardPasteImage s imgWidth imgHeight dpi
      = clipboardPaste (s.docLock.emit (Event.docGetPage (getCurrentPageNo s))).docUnlock
          { kind := ElementKind.Image,
            size := some (scaledImageSize (pixelsToPoints imgWidth dpi)
              (pixelsToPoints imgHeight dpi) (s.doc.pageData page).width
              (s.doc.pageData page).height) } := by
  have hne : toInt (getCurrentPageNo s) ≠ -1 := by
    rw [toInt_of_lt _ hnr]
    omega
  unfold clipboardPasteImage
  simp only [if_neg hne, toSizeT_toInt_of_lt _ hnr]
  have hg : (s.docLock.emit (Event.docGetPage (getCurrentPageNo s))).doc.getPage
      (getCurrentPageNo s) = some page := hpage
  rw [hg]
  rfl

theorem clipboardPaste_eq (s : Control) (e : Element) (w : MainWindow) (view : Nat)
    (page : XojPage) (hwin : s.win = some w) (hview : w.viewFor (getCurrentPageNo s) = some view)
    (hnr : getCurrentPageNo s ≠ npos) (hpage : s.doc.getPage (getCurrentPageNo s) = some page) :
    clipboardPaste s e
      = some (pasteElement (s.docLock.emit (Event.docGetPage (getCurrentPageNo s))) w page view
          e) := by
  unfold clipboardPaste
  simp only [if_neg hnr, hwin, hview, hpage]

/-- C27, counterexample: an image of 477 by 477 pixels at 90 dpi, pasted on a page of
500 by 500 points, gets the size `(375 + 2 ^ (-44), 375)`: the width is above three
quarters of the page width, `3 * 500 / 4 = 375`, and the image, which was square,
is not square any more. -/
theorem pasted_image_wider_than_three_quarters :
    ((clipboardPasteImage squarePage 477 477 90).map (fun t => t.undoRedo.actions))
        = some [UndoAction.InsertUndoAction 10 { page := 10, index := 0 }
            { kind := ElementKind.Image,
              size := some (Double.finite false (375 * 2 ^ 44 + 1) (-44),
                            Double.finite false (375 * 2 ^ 44) (-44)) }]
      ∧ (squarePage.doc.pageData 10).width = Double.finite false (500 * 2 ^ 44) (-44)
      ∧ (Double.finite false (500 * 2 ^ 44) (-44)).toRat = 500
      ∧ 3 * (500 : ℚ) / 4 < (Double.finite false (375 * 2 ^ 44 + 1) (-44)).toRat
      ∧ (Double.finite false (375 * 2 ^ 44) (-44)).toRat = 3 * (500 : ℚ) / 4
      ∧ pixelsToPoints 477 90 = Double.finite false 6713178194549145 (-44) := by
  refine ⟨by decide, by decide, ?_, ?_, ?_, by decide⟩ <;>
    simp only [Double.toRat, Bool.false_eq_true, if_false] <;> norm_num

/-- C27, amended: in `clipboardPasteImage`, which computes in `double`: for an image of
`imgWidth` by `imgHeight` pixels and a resolution `dpi`, all between 1 and
`2 ^ 31 - 1`, and a current page whose width `W` and height `H` are finite and lie
between `2 ^ (-800)` and `2 ^ 800`, write `w`, `h` for the size of the image in
points, and `PW = threeQuarters W`, `PH = threeQuarters H` for the rounded
`W * 3.0 / 4.0` and `H * 3.0 / 4.0` (each within the factor `(1 ± 2 ^ (-53)) ^ 2` of
`3 W / 4`, `3 H / 4`).  The function ends in `clipboardPaste` of an image with a
size `(sw, sh)`, which is the element that is added to the page when the window
has a view of the page; `sw` and `sh` are positive and satisfy `sh ≤ PH`,
`sw ≤ PW * (1 + 2 ^ (-50))`, `|sw * h - sh * w| ≤ 2 ^ (-50) * (sh * w)`, and
`(sw, sh) = (w, h)` when `w ≤ PW` and `h ≤ PH`. -/
theorem clipboardPasteImage_scaled_size (s : Control) (imgWidth imgHeight dpi : Int)
    (page : XojPage)
    (hw : 0 < imgWidth) (hw2 : imgWidth < 2 ^ 31)
    (hh : 0 < imgHeight) (hh2 : imgHeight < 2 ^ 31)
    (hd : 0 < dpi) (hd2 : dpi < 2 ^ 31)
    (hnr : getCurrentPageNo s < 2 ^ 31)
    (hpage : s.doc.getPage (getCurrentPageNo s) = some page)
    (hW : (s.doc.pageData page).width.InRange (-800) 800)
    (hH : (s.doc.pageData page).height.InRange (-800) 800) :
    ∃ sw sh : Double,
      clipboardPasteImage s imgWidth imgHeight dpi
        = clipboardPaste (s.docLock.emit (Event.docGetPage (getCurrentPageNo s))).docUnlock
            { kind := ElementKind.Image, size := some (sw, sh) }
      ∧ (∀ w view, s.win = some w → w.viewFor (getCurrentPageNo s) = some view →
          clipboardPasteImage s imgWidth imgHeight dpi
            = some (pasteElement
                (((s.docLock.emit
                  (Event.docGetPage (getCurrentPageNo s))).docUnlock.docLock).emit
                  (Event.docGetPage (getCurrentPageNo s)))
                w page view { kind := ElementKind.Image, size := some (sw, sh) }))
      ∧ sw.Positive ∧ sh.Positive
      ∧ sh.toRat ≤ (threeQuarters (s.doc.pageData page).height).toRat
      ∧ sw.toRat ≤ (threeQuarters (s.doc.pageData page).width).toRat * (1 + 2 ^ (-50 : Int))
      ∧ |sw.toRat * (pixelsToPoints imgHeight dpi).toRat
            - sh.toRat * (pixelsToPoints imgWidth dpi).toRat|
          ≤ 2 ^ (-50 : Int) * (sh.toRat * (pixelsToPoints imgWidth dpi).toRat)
      ∧ ((pixelsToPoints imgWidth dpi).toRat
            ≤ (threeQuarters (s.doc.pageData page).width).toRat →
          (pixelsToPoints imgHeight dpi).toRat
            ≤ (threeQuarters (s.doc.pageData page).height).toRat →
          (sw, sh) = (pixelsToPoints imgWidth dpi, pixelsToPoints imgHeight dpi))
      ∧ (3 / 4 * (s.doc.pageData page).width.toRat * (1 - unitRoundoff) ^ 2
            ≤ (threeQuarters (s.doc.pageData page).width).toRat
          ∧ (threeQuarters (s.doc.pageData page).width).toRat
            ≤ 3 / 4 * (s.doc.pageData page).width.toRat * (1 + unitRoundoff) ^ 2)
      ∧ (3 / 4 * (s.doc.pageData page).height.toRat * (1 - unitRoundoff) ^ 2
            ≤ (threeQuarters (s.doc.pageData page).height).toRat
          ∧ (threeQuarters (s.doc.pageData page).height).toRat
            ≤ 3 / 4 * (s.doc.pageData page).height.toRat * (1 + unitRoundoff) ^ 2) := by
  have hwr := pixelsToPoints_inRange imgWidth dpi hw hw2 hd hd2
  have hhr := pixelsToPoints_inRange imgHeight dpi hh hh2 hd hd2
  obtain ⟨p1, p2, c1, c2, c3, c4⟩ := scaledImageSize_spec _ _ _ _ hwr hhr hW hH
  have heq := clipboardPasteImage_eq s imgWidth imgHeight dpi page hnr hpage
  have hne : getCurrentPageNo s ≠ npos := by
    unfold npos
    omega
  refine ⟨_, _, heq, ?_, p1, p2, c1, c2, c3, c4, (threeQuarters_spec _ hW).2,
    (threeQuarters_spec _ hH).2⟩
  intro w view hwin hview
  rw [heq]
  exact clipboardPaste_eq (s.docLock.emit (Event.docGetPage (getCurrentPageNo s))).docUnlock
    _ w view page hwin hview hne hpage

/-- C27, amended, witness: an image of 477 by 300 pixels at 90 dpi on the page of 500 by 500
points is pasted with the size `(375, 235.849...)`, which is recorded in the undo
log. -/
theorem clipboardPasteImage_scaled_size_witness :
    (0 : Int) < 477 ∧ getCurrentPageNo squarePage < 2 ^ 31
      ∧ squarePage.doc.getPage (getCurrentPageNo squarePage) = some 10
      ∧ (squarePage.doc.pageData 10).width.InRange (-800) 800
      ∧ ((clipboardPasteImage squarePage 477 300 90).map (fun t => t.undoRedo.actions))
          = some [UndoAction.InsertUndoAction 10 { page := 10, index := 0 }
              { kind := ElementKind.Image,
                size := some (Double.finite false (375 * 2 ^ 44) (-44),
                              Double.finite false 8298200964347171 (-45)) }]
      ∧ ∃ sw sh : Double,
          clipboardPasteImage squarePage 477 300 90
            = clipboardPaste
                (squarePage.docLock.emit
                  (Event.docGetPage (getCurrentPageNo squarePage))).docUnlock
                { kind := ElementKind.Image, size := some (sw, sh) }
          ∧ sh.toRat ≤ (threeQuarters (squarePage.doc.pageData 10).height).toRat :=
  have hr : (squarePage.doc.pageData 10).width.InRange (-800) 800 :=
    (Double.ofInt_inRange 500 (by decide) (by decide)).widen (by decide) (by decide)
  ⟨by decide, by decide, by decide, hr, by decide,
    (clipboardPasteImage_scaled_size squarePage 477 300 90 10 (by decide) (by decide)
      (by decide) (by decide) (by decide) (by decide) (by decide) (by decide) hr hr).imp
      fun _ hsw => hsw.imp fun _ h => ⟨h.1, h.2.2.2.2.1⟩⟩

/-! ### C28: the tool size actions -/

/-- C28: `actionPerformed(ACTION_SIZE_VERY_THIN, enabled = true)` passes
`TOOL_SIZE_VERY_FINE` to `setToolSize`, which hands it to the tool handler; with
this size `toolSizeChanged` selects `ACTION_SIZE_VERY_THICK` in `GROUP_SIZE`, not
`ACTION_SIZE_VERY_THIN`, while `penSizeChanged` selects
`ACTION_TOOL_PEN_SIZE_VERY_THIN` in `GROUP_PEN_SIZE`.  In the same way
`ACTION_SIZE_VERY_THICK` comes back as `ACTION_SIZE_VERY_THIN`.  The three middle
sizes come back as themselves. -/
theorem toolSizeChanged_swaps_extreme_sizes :
    emitted threePages (actionPerformed threePages (penOfSize ToolSize.TOOL_SIZE_MEDIUM)
        ActionType.ACTION_SIZE_VERY_THIN true false none usualDefaults discardAnswers)
      = [Event.call "layerController->actionPerformed",
         Event.toolHandlerSetSize ActionGroup.GROUP_SIZE ToolSize.TOOL_SIZE_VERY_FINE]
    ∧ emitted threePages (toolSizeChanged threePages (penOfSize ToolSize.TOOL_SIZE_VERY_FINE))
      = [Event.fireActionSelected ActionGroup.GROUP_PEN_SIZE
           ActionType.ACTION_TOOL_PEN_SIZE_VERY_THIN,
         Event.fireActionSelected ActionGroup.GROUP_SIZE ActionType.ACTION_SIZE_VERY_THICK,
         Event.call "cursor->updateCursor"]
    ∧ emitted threePages (actionPerformed threePages (penOfSize ToolSize.TOOL_SIZE_MEDIUM)
        ActionType.ACTION_SIZE_VERY_THICK true false none usualDefaults discardAnswers)
      = [Event.call "layerController->actionPerformed",
         Event.toolHandlerSetSize ActionGroup.GROUP_SIZE ToolSize.TOOL_SIZE_VERY_THICK]
    ∧ emitted threePages (toolSizeChanged threePages (penOfSize ToolSize.TOOL_SIZE_VERY_THICK))
      = [Event.fireActionSelected ActionGroup.GROUP_PEN_SIZE
           ActionType.ACTION_TOOL_PEN_SIZE_VERY_THICK,
         Event.fireActionSelected ActionGroup.GROUP_SIZE ActionType.ACTION_SIZE_VERY_THIN,
         Event.call "cursor->updateCursor"]
    ∧ emitted threePages (actionPerformed threePages (penOfSize ToolSize.TOOL_SIZE_MEDIUM)
        ActionType.ACTION_SIZE_FINE true false none usualDefaults discardAnswers)
      = [Event.call "layerController->actionPerformed",
         Event.toolHandlerSetSize ActionGroup.GROUP_SIZE ToolSize.TOOL_SIZE_FINE]
    ∧ emitted threePages (toolSizeChanged threePages (penOfSize ToolSize.TOOL_SIZE_FINE))
      = [Event.fireActionSelected ActionGroup.GROUP_PEN_SIZE
           ActionType.ACTION_TOOL_PEN_SIZE_FINE,
         Event.fireActionSelected ActionGroup.GROUP_SIZE ActionType.ACTION_SIZE_FINE,
         Event.call "cursor->updateCursor"] := by
  decide

/-! ### C29: the target name of renameLastAutosaveFile -/

/-- C29: at an input the code can receive, the last autosave path
"/home/u/docs/.notes.autosave.xopp", whose file name ".notes.autosave.xopp" has the
form of the autosave of a saved document, `renameLastAutosaveFile` copies the
file to the autosave base name followed by ".old.autosave.xopp", the name for a
fresh document, not to the base name followed by the file name.  The branch for
saved documents is taken for a path that itself starts with a dot. -/
theorem renameLastAutosaveFile_tests_path_not_filename :
    renameSucceeds.fileNameOf "/home/u/docs/.notes.autosave.xopp" = ".notes.autosave.xopp"
    ∧ renamedAutosaveFile renameSucceeds "/home/u/docs/.notes.autosave.xopp"
        = "/home/u/.xournalpp/autosaves/2020.old.autosave.xopp"
    ∧ emitted withAutosaveNextToDocument
        (renameLastAutosaveFile withAutosaveNextToDocument renameSucceeds)
        = [Event.call "g_message",
           Event.gFileCopy "/home/u/docs/.notes.autosave.xopp"
             "/home/u/.xournalpp/autosaves/2020.old.autosave.xopp",
           Event.gFileDelete "/home/u/docs/.notes.autosave.xopp"]
    ∧ renamedAutosaveFile renameSucceeds ".notes.autosave.xopp"
        = "/home/u/.xournalpp/autosaves/2020.notes.autosave.xopp" := by
  decide

/-! ### C30: files of the configuration folder are not opened -/

theorem shouldFileOpen_false_iff (tl : String → String) (cf : String) (s : Control)
    (filename : String) :
    (shouldFileOpen tl cf s filename).2 = false
      ↔ utf8Bytes (tl cf) <+: utf8Bytes (tl filename) := by
  unfold shouldFileOpen
  simp only
  by_cases h1 : (utf8Bytes (tl cf)).length > (utf8Bytes (tl filename)).length
  · simp only [h1, if_true]
    constructor
    · intro h; simp at h
    · intro h
      have := h.length_le
      omega
  · simp only [h1, if_false]
    by_cases h2 : (utf8Bytes (tl filename)).take (utf8Bytes (tl cf)).length = utf8Bytes (tl cf)
    · simp only [h2, if_true]
      exact ⟨fun _ => List.prefix_iff_eq_take.mpr h2.symm, fun _ => trivial⟩
    · simp only [h2, if_false]
      constructor
      · intro h; simp at h
      · intro h
        exact absurd (List.prefix_iff_eq_take.mp h).symm h2

theorem shouldFileOpen_state (tl : String → String) (cf : String) (s : Control)
    (filename : String) :
    (shouldFileOpen tl cf s filename).1
      = if (shouldFileOpen tl cf s filename).2 then s
        else s.emit (Event.showErrorToUser false) := by
  unfold shouldFileOpen
  simp only
  split_ifs <;> simp_all

/-- C30: `shouldFileOpen(filename)` returns `false` exactly when the bytes of the
lower-cased path of the configuration folder are a prefix of the bytes of the
lower-cased filename, hence `true` for every filename that is shorter; the
result is the same for two filenames with the same lower-cased form; and
`openFile` with `forceOpen` false for a filename that `shouldFileOpen` rejects
returns `false` after the error message only, with the document and the undo
log as they were. -/
theorem shouldFileOpen_rejects_config_folder (tl : String → String) (cf : String)
    (s : Control) (filename : String) :
    ((shouldFileOpen tl cf s filename).2 = false
      ↔ utf8Bytes (tl cf) <+: utf8Bytes (tl filename))
    ∧ ((utf8Bytes (tl filename)).length < (utf8Bytes (tl cf)).length →
        (shouldFileOpen tl cf s filename).2 = true)
    ∧ (∀ other, tl other = tl filename →
        (shouldFileOpen tl cf s other).2 = (shouldFileOpen tl cf s filename).2)
    ∧ (∀ (dflt : Defaults) (scrollToPage : Int) (a : OpenAnswers),
        (shouldFileOpen a.toLowerCase a.configFolder s filename).2 = false →
        (openFile s dflt filename scrollToPage false a).2 = false
        ∧ (openFile s dflt filename scrollToPage false a).1.doc = s.doc
        ∧ (openFile s dflt filename scrollToPage false a).1.undoRedo = s.undoRedo
        ∧ emitted s (openFile s dflt filename scrollToPage false a).1
            = [Event.showErrorToUser false]) := by
  refine ⟨shouldFileOpen_false_iff tl cf s filename, ?_, ?_, ?_⟩
  · intro h
    cases hr : (shouldFileOpen tl cf s filename).2 with
    | true => rfl
    | false =>
      have := ((shouldFileOpen_false_iff tl cf s filename).mp hr).length_le
      omega
  · intro other h
    unfold shouldFileOpen
    simp only [h]
  · intro dflt scrollToPage a h
    have hst := shouldFileOpen_state a.toLowerCase a.configFolder s filename
    rw [h] at hst
    simp only [Bool.false_eq_true, if_false] at hst
    unfold openFile
    simp only [Bool.false_eq_true, if_false]
    cases hc : shouldFileOpen a.toLowerCase a.configFolder s filename with
    | mk s1 ok =>
      rw [hc] at h hst
      simp only at h hst
      subst h
      subst hst
      exact ⟨rfl, rfl, rfl, emitted_append _ _ _ rfl⟩

/-- C30, witness: with the configuration folder "/c/" the file "/C/a.xopp" is
rejected, in either letter case, and the file "/d" is accepted. -/
theorem shouldFileOpen_rejects_config_folder_witness :
    utf8Bytes (lowerCase "/c/") <+: utf8Bytes (lowerCase "/C/a.xopp")
    ∧ (shouldFileOpen lowerCase "/c/" threePages "/C/a.xopp").2 = false
    ∧ (shouldFileOpen lowerCase "/c/" threePages "/c/A.xopp").2 = false
    ∧ (shouldFileOpen lowerCase "/c/" threePages "/d").2 = true :=
  ⟨by decide,
   (shouldFileOpen_rejects_config_folder lowerCase "/c/" threePages "/C/a.xopp").1.mpr
     (by decide),
   ((shouldFileOpen_rejects_config_folder lowerCase "/c/" threePages "/C/a.xopp").2.2.1
     "/c/A.xopp" (by decide)).trans
     ((shouldFileOpen_rejects_config_folder lowerCase "/c/" threePages "/C/a.xopp").1.mpr
       (by decide)),
   (shouldFileOpen_rejects_config_folder lowerCase "/c/" threePages "/d").2.1 (by decide)⟩

/-! ### The calls of saving and closing -/

theorem savingCalls_closingCalls (e : Event) (h : savingCalls e = true) :
    closingCalls e = true := by
  cases e <;> first | rfl | (simp [savingCalls] at h; done) | (simpa [savingCalls, closingCalls] using h)

theorem closingCalls_notShutdownCall (e : Event) (h : closingCalls e = true) :
    notShutdownCall e = true := by
  cases e <;> first | rfl | (simp [closingCalls] at h)

theorem updateWindowTitle_saving (s : Control) : Run savingCalls s (updateWindowTitle s) := by
  unfold updateWindowTitle Run
  simp only [Control.emit, Control.docLock, Control.docUnlock]
  split_ifs <;>
    exact RunD.of_append (by simp only [List.append_assoc]; rfl) (by simp [lockBalance])
      (by simp [savingCalls])

theorem resetSavedStatus_saving (s : Control) : Run savingCalls s (resetSavedStatus s) := by
  unfold resetSavedStatus
  refine RunD.trans ?_ (updateWindowTitle_saving _)
  simp only [Control.emit, Control.docLock, Control.docUnlock]
  exact RunD.of_append (by simp only [List.append_assoc]; rfl) (by simp [lockBalance])
      (by simp [savingCalls])

theorem clearSelectionEndText_saving (s : Control) :
    Run savingCalls s (clearSelectionEndText s) := by
  unfold clearSelectionEndText Run
  cases s.win with
  | none => exact RunD.refl _ _ _
  | some w =>
    exact RunD.of_append (by simp only [List.append_assoc]; rfl) (by simp [lockBalance])
      (by simp [savingCalls])

theorem showSaveDialog_saving (s : Control) (choice : Option String) :
    Run savingCalls s (showSaveDialog s choice).1 := by
  unfold showSaveDialog Run
  cases choice <;>
  · simp only [Control.emit, Control.docLock, Control.docUnlock]
    exact RunD.of_append (by simp only [List.append_assoc]; rfl) (by simp [lockBalance])
      (by simp [savingCalls])

theorem saveWithJob_saving (s : Control) (synchron jobResult : Bool) :
    Run savingCalls s (saveWithJob s synchron jobResult).1 := by
  unfold saveWithJob
  cases synchron with
  | true =>
    simp only [if_true]
    refine RunD.trans (RunD.emit 0 s (Event.saveJobSave jobResult) rfl rfl) ?_
    refine RunD.trans (RunD.of_trace_eq _ _ (unblockCall_trace _)) (resetSavedStatus_saving _)
  | false =>
    exact RunD.emit 0 s _ rfl rfl

theorem save_saving (s : Control) (synchron : Bool) (choice : Option String)
    (jobResult : Bool) :
    Run savingCalls s (save s synchron choice jobResult).1 := by
  unfold save
  refine RunD.trans (clearSelectionEndText_saving s) ?_
  have h1 : Run savingCalls (clearSelectionEndText s)
      ((clearSelectionEndText s).docLock.emit Event.docGetFilename).docUnlock := by
    simp only [Control.emit, Control.docLock, Control.docUnlock]
    exact RunD.of_append (by simp only [List.append_assoc]; rfl) (by simp [lockBalance])
      (by simp [savingCalls])
  refine RunD.trans h1 ?_
  simp only
  split_ifs
  · have h2 := showSaveDialog_saving
      ((clearSelectionEndText s).docLock.emit Event.docGetFilename).docUnlock choice
    cases hd : showSaveDialog
      ((clearSelectionEndText s).docLock.emit Event.docGetFilename).docUnlock choice with
    | mk s2 ok =>
      rw [hd] at h2
      cases ok with
      | false => exact h2
      | true => exact RunD.trans h2 (saveWithJob_saving _ _ _)
  · exact saveWithJob_saving _ _ _

theorem saveAs_saving (s : Control) (dflt : Defaults) (c1 c2 : Option String) (jr : Bool) :
    Run savingCalls s (saveAs s dflt c1 c2 jr).1 := by
  unfold saveAs
  have h1 := showSaveDialog_saving s c1
  cases hd : showSaveDialog s c1 with
  | mk s1 ok =>
    rw [hd] at h1
    cases ok with
    | false => exact h1
    | true =>
      refine RunD.trans h1 ?_
      have h2 : Run savingCalls s1 (s1.docLock.emit Event.docGetFilename).docUnlock := by
        simp only [Control.emit, Control.docLock, Control.docUnlock]
        exact RunD.of_append (by simp only [List.append_assoc]; rfl) (by simp [lockBalance])
          (by simp [savingCalls])
      refine RunD.trans h2 ?_
      simp only
      split_ifs
      · exact RunD.refl _ _ _
      · exact RunD.trans (RunD.emit 0 _ (Event.call "doc->setCreateBackupOnSave") (by decide) rfl)
          (save_saving _ _ _ _)

theorem closeReadFilename_saving (s : Control) :
    Run savingCalls s (closeReadFilename s) := by
  unfold closeReadFilename
  have h1 : Run savingCalls s
      (((clearSelectionEndText s).emit (Event.call "metadata->documentChanged")).emit
        Event.docGetFilename) :=
    RunD.trans (RunD.trans (clearSelectionEndText_saving s)
      (RunD.emit 0 _ (Event.call "metadata->documentChanged") (by decide) rfl))
      (RunD.emit 0 _ Event.docGetFilename rfl rfl)
  simp only
  split_ifs
  · exact h1
  · exact RunD.trans h1 (RunD.emit 0 _ Event.docGetFilename rfl rfl)

theorem closeDocument_closing (s : Control) : Run closingCalls s (closeDocument s) := by
  unfold closeDocument undoRedoChanged
  refine RunD.trans ?_ (RunD.mono savingCalls_closingCalls (updateWindowTitle_saving _))
  simp only [Control.emit, Control.docLock, Control.docUnlock]
  exact RunD.of_append (by simp only [List.append_assoc]; rfl) (by simp [lockBalance])
    (by simp [closingCalls])

theorem closeDecide_closing (s : Control) (dflt : Defaults) (allowDestroy allowCancel : Bool)
    (a : CloseAnswers) :
    Run closingCalls s (closeDecide s dflt allowDestroy allowCancel a).1 := by
  have hdlg : ∀ b1 b2, Run closingCalls s (s.emit (Event.showCloseDialog b1 b2)) :=
    fun b1 b2 => RunD.emit 0 s _ rfl rfl
  unfold closeDecide
  simp only
  by_cases hch : s.undoRedo.changed = true
  · rw [if_pos hch]
    cases a.response with
    | GTK_RESPONSE_ACCEPT =>
      simp only
      split_ifs
      · exact RunD.trans (hdlg _ _) (RunD.mono savingCalls_closingCalls (saveAs_saving _ _ _ _ _))
      · exact RunD.trans (hdlg _ _) (RunD.mono savingCalls_closingCalls (save_saving _ _ _ _))
    | GTK_RESPONSE_REJECT =>
      simp only
      split_ifs
      · exact RunD.trans (hdlg _ _) (closeDocument_closing _)
      · exact hdlg _ _
    | GTK_RESPONSE_CANCEL => exact hdlg _ _
    | GTK_RESPONSE_DELETE_EVENT => exact hdlg _ _
  · rw [if_neg hch]
    exact RunD.refl _ _ _

theorem close_closing (s : Control) (dflt : Defaults) (allowDestroy allowCancel : Bool)
    (a : CloseAnswers) :
    Run closingCalls s (close s dflt allowDestroy allowCancel a).1 := by
  unfold close
  exact RunD.trans (RunD.mono savingCalls_closingCalls (closeReadFilename_saving s))
    (closeDecide_closing _ _ _ _ _)

/-! ### Runs of the operations added for the last claims -/

theorem enableAutosave_run (s : Control) (enable : Bool) (source : Nat) :
    Run notShutdownCall s (enableAutosave s enable source) := by
  unfold enableAutosave Run
  simp only [Control.emit]
  split_ifs <;>
    first
    | exact RunD.refl _ _ _
    | exact RunD.of_append (by simp only [List.append_assoc]; rfl) (by simp [lockBalance])
        (by simp [notShutdownCall])

theorem deleteLastAutosaveFile_run (s : Control) (name : String) :
    Run notShutdownCall s (deleteLastAutosaveFile s name) := by
  unfold deleteLastAutosaveFile Run
  simp only [Control.emit]
  split_ifs <;>
    first
    | exact RunD.of_trace_eq _ 0 rfl
    | exact RunD.of_append (by simp only [List.append_assoc]; rfl) (by simp [lockBalance])
        (by simp [notShutdownCall])

theorem destructor_run (s : Control) : Run notShutdownCall s s.destructor := by
  have hall : ∀ e ∈ ([Event.call "g_source_remove"]
      ++ (if s.autosaveTimeout ≠ 0 then [Event.call "g_source_remove"] else [])
      ++ (if (!s.lastAutosaveFilename.isEmpty) = true then [Event.call "g_unlink"] else [])
      ++ [Event.call "scheduler->stop"]
      ++ s.changedPages.map Event.pageUnreference
      ++ [Event.call "delete pluginController", Event.call "delete clipboardHandler",
          Event.call "delete recent", Event.call "delete fullscreenHandler"]),
      isLockCall e = false ∧ notShutdownCall e = true := by
    intro e he
    simp only [List.mem_append, List.mem_map, List.mem_cons, List.mem_singleton,
      List.not_mem_nil, or_false] at he
    rcases he with ((((he | he) | he) | he) | ⟨p, _, he⟩) | he
    · subst he; exact ⟨rfl, rfl⟩
    · split_ifs at he
      · simp only [List.mem_singleton] at he
        subst he; exact ⟨rfl, rfl⟩
      · simp at he
    · split_ifs at he
      · simp only [List.mem_singleton] at he
        subst he; exact ⟨rfl, rfl⟩
      · simp at he
    · subst he; exact ⟨rfl, rfl⟩
    · subst he; exact ⟨rfl, rfl⟩
    · rcases he with he | he | he | he <;> subst he <;> exact ⟨rfl, rfl⟩
  exact ⟨_, destructor_trace s, lockBalance_of_no_lock_call _ (fun e he => (hall e he).1) 0,
    fun e he => (hall e he).2⟩

theorem loadMetadataCallback_run (s : Control) (md : MetadataEntry) (z : ZoomAnswers) :
    Run notShutdownCall s (loadMetadataCallback s md z).1 := by
  unfold loadMetadataCallback Run
  simp only [Control.emit]
  split_ifs <;>
    first
    | exact RunD.refl _ _ _
    | exact RunD.of_append (by simp only [List.append_assoc]; rfl) (by simp [lockBalance])
        (by simp [notShutdownCall])

theorem fireActionSelected_run (s : Control) (group : ActionGroup) (action : ActionType) :
    Run notShutdownCall s (s.emit (Event.fireActionSelected group action)) :=
  RunD.emit 0 s _ rfl rfl

theorem eraserSizeChanged_run (s : Control) (t : ToolAnswers) :
    Run notShutdownCall s (eraserSizeChanged s t) := by
  unfold eraserSizeChanged
  cases t.eraserSize <;> first | exact RunD.refl _ _ _ | exact fireActionSelected_run _ _ _

theorem penSizeChanged_run (s : Control) (t : ToolAnswers) :
    Run notShutdownCall s (penSizeChanged s t) := by
  unfold penSizeChanged
  cases t.penSize <;> first | exact RunD.refl _ _ _ | exact fireActionSelected_run _ _ _

theorem hilighterSizeChanged_run (s : Control) (t : ToolAnswers) :
    Run notShutdownCall s (hilighterSizeChanged s t) := by
  unfold hilighterSizeChanged
  cases t.hilighterSize <;> first | exact RunD.refl _ _ _ | exact fireActionSelected_run _ _ _

theorem toolSizeChanged_run (s : Control) (t : ToolAnswers) :
    Run notShutdownCall s (toolSizeChanged s t) := by
  unfold toolSizeChanged
  refine RunD.trans (RunD.trans ?_ (fireActionSelected_run _ _ _)) (call_run _ _)
  split_ifs
  · exact penSizeChanged_run s t
  · exact eraserSizeChanged_run s t
  · exact hilighterSizeChanged_run s t
  · exact RunD.refl _ _ _

theorem setToolSize_run (s : Control) (size : ToolSize) (sizeAction : Option UndoAction) :
    Run notShutdownCall s (setToolSize s size sizeAction) := by
  unfold setToolSize
  refine RunD.trans ?_ (RunD.emit 0 _ (Event.toolHandlerSetSize _ _) rfl rfl)
  cases hw : s.win with
  | none => exact RunD.refl _ _ _
  | some w =>
    simp only
    cases hs : w.selection with
    | none => exact RunD.refl _ _ _
    | some sel =>
      simp only
      cases sizeAction with
      | none => exact RunD.trans (call_run _ _) (call_run _ _)
      | some action => exact RunD.trans (call_run _ _) (addUndoAction_run _ _)

theorem toolHandlerSetSize_run (s : Control) (group : ActionGroup) (size : ToolSize) :
    Run notShutdownCall s (s.emit (Event.toolHandlerSetSize group size)) :=
  RunD.emit 0 s _ rfl rfl

theorem actionPerformed_quit (s : Control) (t : ToolAnswers) (enabled : Bool)
    (sizeAction : Option UndoAction) (dflt : Defaults) (a : CloseAnswers) :
    actionPerformed s t ActionType.ACTION_QUIT enabled false sizeAction dflt a
      = quit (s.emit (Event.call "layerController->actionPerformed")) dflt
          dflt.quitAllowCancel a := by
  unfold actionPerformed
  simp only [Bool.false_eq_true, if_false]

theorem actionPerformed_handled (s : Control) (t : ToolAnswers) (type : ActionType)
    (enabled : Bool) (sizeAction : Option UndoAction) (dflt : Defaults) (a : CloseAnswers) :
    actionPerformed s t type enabled true sizeAction dflt a
      = s.emit (Event.call "layerController->actionPerformed") := by
  unfold actionPerformed
  simp only [if_true]

theorem actionPerformed_run (s : Control) (t : ToolAnswers) (type : ActionType)
    (enabled layerHandled : Bool) (sizeAction : Option UndoAction) (dflt : Defaults)
    (a : CloseAnswers) (hq : type = ActionType.ACTION_QUIT → layerHandled = true) :
    Run notShutdownCall s (actionPerformed s t type enabled layerHandled sizeAction dflt a) := by
  unfold actionPerformed
  refine RunD.trans (call_run s "layerController->actionPerformed") ?_
  simp only
  cases layerHandled with
  | true => exact RunD.refl _ _ _
  | false =>
    simp only [Bool.false_eq_true, if_false]
    cases enabled <;> cases type <;> simp only [Bool.false_eq_true, if_false, if_true] <;>
      first
      | exact RunD.refl _ _ _
      | exact setToolSize_run _ _ _
      | exact RunD.trans (toolHandlerSetSize_run _ _ _) (eraserSizeChanged_run _ _)
      | exact RunD.trans (toolHandlerSetSize_run _ _ _) (penSizeChanged_run _ _)
      | exact RunD.trans (toolHandlerSetSize_run _ _ _) (hilighterSizeChanged_run _ _)
      | exact RunD.trans (RunD.emit 0 _ Event.warning rfl rfl) (call_run _ _)
      | exact absurd (hq rfl) (by decide)

theorem quit_run_of_close_false (s : Control) (dflt : Defaults) (allowCancel : Bool)
    (a : CloseAnswers) (h : (close s dflt false allowCancel a).2 = false) :
    quit s dflt allowCancel a =
      if allowCancel then (close s dflt false allowCancel a).1
      else (close s dflt false allowCancel a).1.emit Event.emergencySave := by
  unfold quit
  cases hc : close s dflt false allowCancel a with
  | mk s1 ok =>
    rw [hc] at h
    simp only at h
    subst h
    cases allowCancel <;> rfl

theorem quit_of_close_true (s : Control) (dflt : Defaults) (allowCancel : Bool)
    (a : CloseAnswers) (h : (close s dflt false allowCancel a).2 = true) :
    quit s dflt allowCancel a
      = quitShutdown (closeDocument (close s dflt false allowCancel a).1) := by
  unfold quit
  cases hc : close s dflt false allowCancel a with
  | mk s1 ok =>
    rw [hc] at h
    simp only at h
    subst h
    rfl

theorem quit_run_of_no_shutdown (s : Control) (dflt : Defaults) (allowCancel : Bool)
    (a : CloseAnswers) (hf : (close s dflt false allowCancel a).2 = false) :
    Run notShutdownCall s (quit s dflt allowCancel a) := by
  rw [quit_run_of_close_false s dflt allowCancel a hf]
  have hc := close_run s dflt false allowCancel a
  cases allowCancel with
  | true => exact hc
  | false => exact RunD.trans hc (RunD.emit 0 _ Event.emergencySave rfl rfl)

theorem operation_run (s t : Control) (op : Operation) (h : runOperation s op = some t)
    (hq : ∀ dflt allowCancel a, op = Operation.quit dflt allowCancel a →
      (close s dflt false allowCancel a).2 = false)
    (hq2 : ∀ tool enabled sizeAction dflt a,
      op = Operation.actionPerformed tool ActionType.ACTION_QUIT enabled false sizeAction dflt a →
      (close (s.emit (Event.call "layerController->actionPerformed")) dflt false
        dflt.quitAllowCancel a).2 = false) :
    ∃ d, RunD notShutdownCall 0 d s t := by
  cases op with
  | checkChangedDocument =>
    simp only [runOperation, Option.some.injEq] at h
    subst h
    exact ⟨0, checkChangedDocument_run _⟩
  | undoRedoPageChanged page =>
    simp only [runOperation, Option.some.injEq] at h
    subst h
    exact ⟨0, undoRedoPageChanged_run _ _⟩
  | clearSelectionEndText =>
    simp only [runOperation, Option.some.injEq] at h
    subst h
    exact ⟨0, clearSelectionEndText_run2 _⟩
  | clipboardPasteXournal projectString input =>
    exact clipboardPasteXournal_calls _ _ _ _ h
  | updateDeletePageButton =>
    simp only [runOperation, Option.some.injEq] at h
    subst h
    exact ⟨0, updateDeletePageButton_run _⟩
  | deletePage =>
    simp only [runOperation, Option.some.injEq] at h
    subst h
    exact ⟨0, deletePage_run _⟩
  | getCurrentPage =>
    simp only [runOperation, Option.some.injEq] at h
    subst h
    exact ⟨0, getCurrentPage_run _⟩
  | paperFormat width height =>
    exact ⟨0, paperFormat_run _ _ _ _ h⟩
  | updatePageNumbers page pdfPage =>
    simp only [runOperation, Option.some.injEq] at h
    subst h
    exact ⟨0, updatePageNumbers_run _ _ _⟩
  | unblock =>
    exact ⟨0, unblock_run _ _ h⟩
  | updateWindowTitle =>
    simp only [runOperation, Option.some.injEq] at h
    subst h
    exact ⟨0, updateWindowTitle_run2 _⟩
  | resetSavedStatus =>
    simp only [runOperation, Option.some.injEq] at h
    subst h
    exact ⟨0, resetSavedStatus_run2 _⟩
  | showSaveDialog choice =>
    simp only [runOperation, Option.some.injEq] at h
    subst h
    exact ⟨0, showSaveDialog_run2 _ _⟩
  | save synchron choice jobResult =>
    simp only [runOperation, Option.some.injEq] at h
    subst h
    exact ⟨0, save_run2 _ _ _ _⟩
  | autosaveCallback =>
    simp only [runOperation, Option.some.injEq] at h
    subst h
    exact ⟨0, autosaveCallback_run _⟩
  | block name =>
    exact ⟨0, block_run _ _ _ h⟩
  | exportBase job showFilechooser =>
    simp only [runOperation, Option.some.injEq] at h
    subst h
    exact ⟨0, exportBase_run _ _ _⟩
  | renameLastAutosaveFile a =>
    simp only [runOperation, Option.some.injEq] at h
    subst h
    exact ⟨0, renameLastAutosaveFile_run _ _⟩
  | undoRedoChanged =>
    simp only [runOperation, Option.some.injEq] at h
    subst h
    exact ⟨0, undoRedoChanged_run _⟩
  | closeDocument =>
    simp only [runOperation, Option.some.injEq] at h
    subst h
    exact ⟨0, closeDocument_run _⟩
  | saveAs dflt c1 c2 jobResult =>
    simp only [runOperation, Option.some.injEq] at h
    subst h
    exact ⟨0, saveAs_run _ _ _ _ _⟩
  | close dflt allowDestroy allowCancel a =>
    simp only [runOperation, Option.some.injEq] at h
    subst h
    exact ⟨0, close_run _ _ _ _ _⟩
  | closeAndDestroy dflt allowCancel a =>
    simp only [runOperation, Option.some.injEq] at h
    subst h
    exact ⟨0, closeAndDestroy_run _ _ _ _⟩
  | quit dflt allowCancel a =>
    simp only [runOperation, Option.some.injEq] at h
    subst h
    exact ⟨0, quit_run_of_no_shutdown s dflt allowCancel a (hq dflt allowCancel a rfl)⟩
  | addDefaultPage page data =>
    simp only [runOperation, Option.some.injEq] at h
    subst h
    exact ⟨0, addDefaultPage_run _ _ _⟩
  | loadMetadata md =>
    simp only [runOperation, Option.some.injEq] at h
    subst h
    exact ⟨0, loadMetadata_run _ _⟩
  | fileLoaded scrollToPage stored =>
    simp only [runOperation, Option.some.injEq] at h
    subst h
    exact ⟨0, fileLoaded_run _ _ _⟩
  | newFile dflt a =>
    simp only [runOperation, Option.some.injEq] at h
    subst h
    exact ⟨0, newFile_run _ _ _⟩
  | firePageSelected page =>
    simp only [runOperation, Option.some.injEq] at h
    subst h
    exact ⟨0, firePageSelected_run _ _⟩
  | insertPage page position visibleHeight =>
    simp only [runOperation, Option.some.injEq] at h
    subst h
    exact ⟨0, insertPage_run _ _ _ _⟩
  | changePageBackgroundColor color =>
    simp only [runOperation, Option.some.injEq] at h
    subst h
    exact ⟨0, changePageBackgroundColor_run _ _⟩
  | print =>
    simp only [runOperation, Option.some.injEq] at h
    subst h
    exact ⟨0, print_run _⟩
  | clipboardPaste e =>
    exact ⟨0, clipboardPaste_run _ _ _ h⟩
  | clipboardPasteImage imgWidth imgHeight dpi =>
    exact ⟨0, clipboardPasteImage_run _ _ _ _ _ h⟩
  | shouldFileOpen toLowerCase configFolder filename =>
    simp only [runOperation, Option.some.injEq] at h
    subst h
    exact ⟨0, shouldFileOpen_run _ _ _ _⟩
  | annotatePdf dflt filename a =>
    simp only [runOperation, Option.some.injEq] at h
    subst h
    exact ⟨0, annotatePdf_run _ _ _ _⟩
  | loadPdf dflt filename scrollToPage a =>
    simp only [runOperation, Option.some.injEq] at h
    subst h
    exact ⟨0, loadPdf_run _ _ _ _ _⟩
  | loadXoptTemplate dflt contents a =>
    simp only [runOperation, Option.some.injEq] at h
    subst h
    exact ⟨0, loadXoptTemplate_run _ _ _ _⟩
  | openFile dflt filename scrollToPage forceOpen a =>
    simp only [runOperation, Option.some.injEq] at h
    subst h
    exact ⟨0, openFile_run _ _ _ _ _ _⟩
  | enableAutosave enable source =>
    simp only [runOperation, Option.some.injEq] at h
    subst h
    exact ⟨0, enableAutosave_run _ _ _⟩
  | deleteLastAutosaveFile newAutosaveFile =>
    simp only [runOperation, Option.some.injEq] at h
    subst h
    exact ⟨0, deleteLastAutosaveFile_run _ _⟩
  | destructor =>
    simp only [runOperation, Option.some.injEq] at h
    subst h
    exact ⟨0, destructor_run _⟩
  | loadMetadataCallback md z =>
    simp only [runOperation, Option.some.injEq] at h
    subst h
    exact ⟨0, loadMetadataCallback_run _ _ _⟩
  | eraserSizeChanged t1 =>
    simp only [runOperation, Option.some.injEq] at h
    subst h
    exact ⟨0, eraserSizeChanged_run _ _⟩
  | penSizeChanged t1 =>
    simp only [runOperation, Option.some.injEq] at h
    subst h
    exact ⟨0, penSizeChanged_run _ _⟩
  | hilighterSizeChanged t1 =>
    simp only [runOperation, Option.some.injEq] at h
    subst h
    exact ⟨0, hilighterSizeChanged_run _ _⟩
  | toolSizeChanged t1 =>
    simp only [runOperation, Option.some.injEq] at h
    subst h
    exact ⟨0, toolSizeChanged_run _ _⟩
  | setToolSize size sizeAction =>
    simp only [runOperation, Option.some.injEq] at h
    subst h
    exact ⟨0, setToolSize_run _ _ _⟩
  | actionPerformed t1 type enabled layerHandled sizeAction dflt a =>
    simp only [runOperation, Option.some.injEq] at h
    subst h
    by_cases hty : type = ActionType.ACTION_QUIT
    · subst hty
      cases layerHandled with
      | true => exact ⟨0, actionPerformed_run _ _ _ _ _ _ _ _ (fun _ => rfl)⟩
      | false =>
        rw [actionPerformed_quit]
        exact ⟨0, RunD.trans (call_run s "layerController->actionPerformed")
          (quit_run_of_no_shutdown _ dflt dflt.quitAllowCancel a
            (hq2 t1 enabled sizeAction dflt a rfl))⟩
    · exact ⟨0, actionPerformed_run _ _ _ _ _ _ _ _ (fun h => absurd h hty)⟩

/-! ### C24: removeAllJobs is called at shutdown only -/

/-- C24: an operation of `Control` that calls `removeAllJobs` is `quit`, with a
`close(false, allowCancel)` that returned `true`, or it is `actionPerformed` with
`ACTION_QUIT`, which calls `quit()`, and the `close(false, allowCancel)` of that
`quit` returned `true`.  In such a `quit` the calls
are those up to the end of `closeDocument`, none of which is a call of the
shutdown, followed by `scheduler->lock()`, `stopRecording`, `settings->save()`,
`removeAllJobs`, `scheduler->unlock()` and `gtk_main_quit`, in this order.  When
`close` returns `false`, `quit` calls neither `removeAllJobs` nor
`settings->save()` nor `gtk_main_quit`, and it calls `emergencySave` exactly when
`allowCancel` is `false`. -/
theorem removeAllJobs_only_at_shutdown (s : Control) :
    (∀ op t, runOperation s op = some t → Event.schedulerRemoveAllJobs ∈ emitted s t →
      (∃ dflt allowCancel a, op = Operation.quit dflt allowCancel a
        ∧ (close s dflt false allowCancel a).2 = true)
      ∨ (∃ tool enabled sizeAction dflt a,
          op = Operation.actionPerformed tool ActionType.ACTION_QUIT enabled false sizeAction
            dflt a
          ∧ t = quit (s.emit (Event.call "layerController->actionPerformed")) dflt
              dflt.quitAllowCancel a
          ∧ (close (s.emit (Event.call "layerController->actionPerformed")) dflt false
              dflt.quitAllowCancel a).2 = true))
    ∧ (∀ dflt allowCancel a, (close s dflt false allowCancel a).2 = true →
        emitted s (quit s dflt allowCancel a)
          = emitted s (closeDocument (close s dflt false allowCancel a).1)
            ++ [Event.schedulerLock, Event.call "audioController->stopRecording",
                Event.call "settings->save", Event.schedulerRemoveAllJobs,
                Event.schedulerUnlock, Event.gtkMainQuit]
        ∧ (∀ e ∈ emitted s (closeDocument (close s dflt false allowCancel a).1),
            notShutdownCall e = true))
    ∧ (∀ dflt allowCancel a, (close s dflt false allowCancel a).2 = false →
        Event.schedulerRemoveAllJobs ∉ emitted s (quit s dflt allowCancel a)
        ∧ Event.call "settings->save" ∉ emitted s (quit s dflt allowCancel a)
        ∧ Event.gtkMainQuit ∉ emitted s (quit s dflt allowCancel a)
        ∧ (Event.emergencySave ∈ emitted s (quit s dflt allowCancel a)
            ↔ allowCancel = false)) := by
  refine ⟨?_, ?_, ?_⟩
  · intro op t h hmem
    by_contra hne
    have hq : ∀ dflt allowCancel a, op = Operation.quit dflt allowCancel a →
        (close s dflt false allowCancel a).2 = false := by
      intro dflt allowCancel a hop
      cases hc : (close s dflt false allowCancel a).2 with
      | false => rfl
      | true => exact absurd (Or.inl ⟨dflt, allowCancel, a, hop, hc⟩) hne
    have hq2 : ∀ tool enabled sizeAction dflt a,
        op = Operation.actionPerformed tool ActionType.ACTION_QUIT enabled false sizeAction
          dflt a →
        (close (s.emit (Event.call "layerController->actionPerformed")) dflt false
          dflt.quitAllowCancel a).2 = false := by
      intro tool enabled sizeAction dflt a hop
      cases hc : (close (s.emit (Event.call "layerController->actionPerformed")) dflt false
          dflt.quitAllowCancel a).2 with
      | false => rfl
      | true =>
        refine absurd (Or.inr ⟨tool, enabled, sizeAction, dflt, a, hop, ?_, hc⟩) hne
        subst hop
        simp only [runOperation, Option.some.injEq] at h
        rw [← h, actionPerformed_quit]
    obtain ⟨d, hd⟩ := operation_run s t op h hq hq2
    have := (RunD.emitted_balance hd).2 _ hmem
    simp [notShutdownCall] at this
  · intro dflt allowCancel a h
    have hdoc := RunD.trans (close_run s dflt false allowCancel a)
      (closeDocument_run (close s dflt false allowCancel a).1)
    refine ⟨?_, (RunD.emitted_balance hdoc).2⟩
    rw [quit_of_close_true s dflt allowCancel a h]
    exact emitted_of_run _ hdoc (by unfold quitShutdown; simp [Control.emit])
  · intro dflt allowCancel a h
    have hc := close_closing s dflt false allowCancel a
    have hall := (RunD.emitted_balance hc).2
    have hem : emitted s (quit s dflt allowCancel a)
        = emitted s (close s dflt false allowCancel a).1
          ++ (if allowCancel then [] else [Event.emergencySave]) := by
      rw [quit_run_of_close_false s dflt allowCancel a h]
      cases allowCancel with
      | true => simp
      | false => exact emitted_of_run _ hc rfl
    have hno : ∀ e, closingCalls e = false →
        e ∉ emitted s (close s dflt false allowCancel a).1 := by
      intro e he hmem
      rw [hall e hmem] at he
      exact Bool.noConfusion he
    rw [hem]
    refine ⟨?_, ?_, ?_, ?_⟩
    · intro hmem
      rcases List.mem_append.mp hmem with h1 | h1
      · exact hno Event.schedulerRemoveAllJobs rfl h1
      · cases allowCancel <;> simp at h1
    · intro hmem
      rcases List.mem_append.mp hmem with h1 | h1
      · exact hno (Event.call "settings->save") (by decide) h1
      · cases allowCancel <;> simp at h1
    · intro hmem
      rcases List.mem_append.mp hmem with h1 | h1
      · exact hno Event.gtkMainQuit rfl h1
      · cases allowCancel <;> simp at h1
    · constructor
      · intro hmem
        rcases List.mem_append.mp hmem with h1 | h1
        · exact absurd h1 (hno Event.emergencySave rfl)
        · cases allowCancel with
          | true => simp at h1
          | false => rfl
      · intro hac
        subst hac
        simp

/-- C24, witness: with an unsaved change, "Discard" makes `quit` call `removeAllJobs`
once, and so does `actionPerformed(ACTION_QUIT)`; "Cancel" makes `close` return
`false`, and `quit(false)` then calls `emergencySave` and not `removeAllJobs`. -/
theorem removeAllJobs_only_at_shutdown_witness :
    (close unsavedChange usualDefaults false true discardAnswers).2 = true
    ∧ (emitted unsavedChange (quit unsavedChange usualDefaults true discardAnswers)).count
        Event.schedulerRemoveAllJobs = 1
    ∧ (emitted unsavedChange
        (actionPerformed unsavedChange (penOfSize ToolSize.TOOL_SIZE_MEDIUM)
          ActionType.ACTION_QUIT true false none usualDefaults discardAnswers)).count
        Event.schedulerRemoveAllJobs = 1
    ∧ (close unsavedChange usualDefaults false false cancelAnswers).2 = false
    ∧ Event.schedulerRemoveAllJobs ∉
        emitted unsavedChange (quit unsavedChange usualDefaults false cancelAnswers)
    ∧ Event.emergencySave ∈
        emitted unsavedChange (quit unsavedChange usualDefaults false cancelAnswers) :=
  ⟨by decide, by decide, by decide, by decide,
   ((removeAllJobs_only_at_shutdown unsavedChange).2.2 usualDefaults false cancelAnswers
     (by decide)).1,
   ((removeAllJobs_only_at_shutdown unsavedChange).2.2 usualDefaults false cancelAnswers
     (by decide)).2.2.2.mpr rfl⟩

/-! ### C25: the decisions of close -/

theorem savingCalls_askingCalls (e : Event) (h : savingCalls e = true) :
    askingCalls e = true := by
  cases e <;> first | exact h | rfl

theorem closeReadFilename_frame (s : Control) :
    (closeReadFilename s).doc = s.doc ∧ (closeReadFilename s).undoRedo = s.undoRedo := by
  unfold closeReadFilename clearSelectionEndText
  cases s.win <;> simp only [Control.emit] <;> split_ifs <;> exact ⟨rfl, rfl⟩

theorem updateWindowTitle_frame (s : Control) :
    (updateWindowTitle s).undoRedo = s.undoRedo
    ∧ (updateWindowTitle s).doc.pages = s.doc.pages := by
  unfold updateWindowTitle
  simp only [Control.emit, Control.docLock, Control.docUnlock]
  split_ifs <;> exact ⟨rfl, rfl⟩

theorem closeDocument_cleared (s : Control) :
    (closeDocument s).undoRedo = s.undoRedo.clearContents
    ∧ (closeDocument s).doc.pages = [] := by
  unfold closeDocument undoRedoChanged
  simp only
  constructor
  · rw [(updateWindowTitle_frame _).1]
    rfl
  · rw [(updateWindowTitle_frame _).2]
    rfl

theorem closeDocument_clears (s : Control) :
    Event.undoRedoClearContents ∈ emitted s (closeDocument s)
    ∧ Event.docClearDocument ∈ emitted s (closeDocument s) := by
  unfold closeDocument
  constructor
  · exact mem_emitted_of_initial Event.undoRedoClearContents
      [Event.undoRedoClearContents, Event.docLock, Event.docClearDocument, Event.docUnlock]
      (by simp [Control.docLock, Control.docUnlock]) (by simp) (undoRedoChanged_run _)
  · exact mem_emitted_of_initial Event.docClearDocument
      [Event.undoRedoClearContents, Event.docLock, Event.docClearDocument, Event.docUnlock]
      (by simp [Control.docLock, Control.docUnlock]) (by simp) (undoRedoChanged_run _)

theorem close_eq (s : Control) (dflt : Defaults) (allowDestroy allowCancel : Bool)
    (a : CloseAnswers) :
    close s dflt allowDestroy allowCancel a =
      if s.undoRedo.changed = true then
        match a.response with
        | DialogResponse.GTK_RESPONSE_ACCEPT =>
          if (!s.doc.filename.isEmpty && !a.fileExists) = true then
            saveAs ((closeReadFilename s).emit (Event.showCloseDialog true allowCancel)) dflt
              a.saveAsChoice a.saveChoice a.saveJobResult
          else
            save ((closeReadFilename s).emit (Event.showCloseDialog false allowCancel)) true
              a.saveChoice a.saveJobResult
        | DialogResponse.GTK_RESPONSE_REJECT =>
          if allowDestroy = true then
            (closeDocument ((closeReadFilename s).emit
              (Event.showCloseDialog (!s.doc.filename.isEmpty && !a.fileExists) allowCancel)),
             true)
          else
            ((closeReadFilename s).emit
              (Event.showCloseDialog (!s.doc.filename.isEmpty && !a.fileExists) allowCancel),
             true)
        | _ =>
          ((closeReadFilename s).emit
            (Event.showCloseDialog (!s.doc.filename.isEmpty && !a.fileExists) allowCancel),
           false)
      else
        (closeReadFilename s, true) := by
  unfold close closeDecide
  obtain ⟨hd, hu⟩ := closeReadFilename_frame s
  simp only [hd, hu]
  by_cases hch : s.undoRedo.changed = true
  · simp only [hch, if_true]
    cases a.response <;> simp only
    by_cases hf : (!s.doc.filename.isEmpty && !a.fileExists) = true
    · simp only [hf, if_true]
    · simp only [hf, if_false]
      simp
  · simp only [hch, if_false]
    simp

theorem close_asking (s : Control) (dflt : Defaults) (allowDestroy allowCancel : Bool)
    (a : CloseAnswers)
    (h : ¬ (s.undoRedo.changed = true ∧ a.response = DialogResponse.GTK_RESPONSE_REJECT
      ∧ allowDestroy = true)) :
    Run askingCalls s (close s dflt allowDestroy allowCancel a).1 := by
  have hread := RunD.mono savingCalls_askingCalls (closeReadFilename_saving s)
  have hdlg : ∀ b, Run askingCalls s
      ((closeReadFilename s).emit (Event.showCloseDialog b allowCancel)) :=
    fun b => RunD.trans hread (RunD.emit 0 _ (Event.showCloseDialog b allowCancel) rfl rfl)
  rw [close_eq]
  by_cases hch : s.undoRedo.changed = true
  · rw [if_pos hch]
    cases hr : a.response with
    | GTK_RESPONSE_ACCEPT =>
      simp only
      split_ifs
      · exact RunD.trans (hdlg _) (RunD.mono savingCalls_askingCalls (saveAs_saving _ _ _ _ _))
      · exact RunD.trans (hdlg _) (RunD.mono savingCalls_askingCalls (save_saving _ _ _ _))
    | GTK_RESPONSE_REJECT =>
      simp only
      have had : ¬ allowDestroy = true := fun had => h ⟨hch, hr, had⟩
      rw [if_neg had]
      exact hdlg _
    | GTK_RESPONSE_CANCEL => exact hdlg _
    | GTK_RESPONSE_DELETE_EVENT => exact hdlg _
  · rw [if_neg hch]
    exact hread

/-- C25: the decisions of `close(allowDestroy, allowCancel)`.  With no unsaved change it
returns `true`, shows no dialog and leaves the document and the undo log as they
are.  With an unsaved change it shows the dialog; on "Discard" it returns `true`,
and the document and the undo log are cleared when `allowDestroy` is `true` and
left as they are when it is `false`; on "Save" it is `saveAs()` when the file of
the document was removed and `save(true)` otherwise, called after the dialog,
and returns what that call returns; on any other response it returns `false` and
leaves the document and the undo log as they are.  Hence it returns `true`
exactly when there is no unsaved change, or the response is "Discard", or it
is "Save" and the save returned `true`; and it calls `clearContents` and
`clearDocument`, that is `closeDocument`, exactly when there is an unsaved change,
the response is "Discard" and `allowDestroy` is `true`. -/
theorem close_decision_table (s : Control) (dflt : Defaults)
    (allowDestroy allowCancel : Bool) (a : CloseAnswers) :
    (s.undoRedo.changed = false →
      (close s dflt allowDestroy allowCancel a).2 = true
      ∧ (∀ b1 b2, Event.showCloseDialog b1 b2 ∉
          emitted s (close s dflt allowDestroy allowCancel a).1)
      ∧ (close s dflt allowDestroy allowCancel a).1.doc = s.doc
      ∧ (close s dflt allowDestroy allowCancel a).1.undoRedo = s.undoRedo)
    ∧ (s.undoRedo.changed = true →
      Event.showCloseDialog (!s.doc.filename.isEmpty && !a.fileExists) allowCancel ∈
        emitted s (close s dflt allowDestroy allowCancel a).1)
    ∧ (s.undoRedo.changed = true → a.response = DialogResponse.GTK_RESPONSE_REJECT →
      (close s dflt allowDestroy allowCancel a).2 = true
      ∧ (allowDestroy = true →
          (close s dflt allowDestroy allowCancel a).1.undoRedo = s.undoRedo.clearContents
          ∧ (close s dflt allowDestroy allowCancel a).1.doc.pages = [])
      ∧ (allowDestroy = false →
          (close s dflt allowDestroy allowCancel a).1.doc = s.doc
          ∧ (close s dflt allowDestroy allowCancel a).1.undoRedo = s.undoRedo))
    ∧ (s.undoRedo.changed = true → a.response = DialogResponse.GTK_RESPONSE_ACCEPT →
      close s dflt allowDestroy allowCancel a =
        if (!s.doc.filename.isEmpty && !a.fileExists) = true then
          saveAs ((closeReadFilename s).emit (Event.showCloseDialog true allowCancel)) dflt
            a.saveAsChoice a.saveChoice a.saveJobResult
        else
          save ((closeReadFilename s).emit (Event.showCloseDialog false allowCancel)) true
            a.saveChoice a.saveJobResult)
    ∧ (s.undoRedo.changed = true → a.response ≠ DialogResponse.GTK_RESPONSE_ACCEPT →
      a.response ≠ DialogResponse.GTK_RESPONSE_REJECT →
      (close s dflt allowDestroy allowCancel a).2 = false
      ∧ (close s dflt allowDestroy allowCancel a).1.doc = s.doc
      ∧ (close s dflt allowDestroy allowCancel a).1.undoRedo = s.undoRedo)
    ∧ ((close s dflt allowDestroy allowCancel a).2 = true ↔
      s.undoRedo.changed = false
      ∨ a.response = DialogResponse.GTK_RESPONSE_REJECT
      ∨ (a.response = DialogResponse.GTK_RESPONSE_ACCEPT
        ∧ (if (!s.doc.filename.isEmpty && !a.fileExists) = true then
            saveAs ((closeReadFilename s).emit (Event.showCloseDialog true allowCancel)) dflt
              a.saveAsChoice a.saveChoice a.saveJobResult
          else
            save ((closeReadFilename s).emit (Event.showCloseDialog false allowCancel)) true
              a.saveChoice a.saveJobResult).2 = true))
    ∧ (Event.undoRedoClearContents ∈ emitted s (close s dflt allowDestroy allowCancel a).1 ↔
      s.undoRedo.changed = true ∧ a.response = DialogResponse.GTK_RESPONSE_REJECT
        ∧ allowDestroy = true)
    ∧ (Event.docClearDocument ∈ emitted s (close s dflt allowDestroy allowCancel a).1 ↔
      s.undoRedo.changed = true ∧ a.response = DialogResponse.GTK_RESPONSE_REJECT
        ∧ allowDestroy = true) := by
  obtain ⟨hd, hu⟩ := closeReadFilename_frame s
  have hread := closeReadFilename_saving s
  have hmemdlg : ∀ b, Event.showCloseDialog b allowCancel ∈
      emitted s ((closeReadFilename s).emit (Event.showCloseDialog b allowCancel)) := by
    intro b
    rw [emitted_of_run [Event.showCloseDialog b allowCancel] hread rfl]
    simp
  have hclear : s.undoRedo.changed = true → a.response = DialogResponse.GTK_RESPONSE_REJECT →
      allowDestroy = true →
      close s dflt allowDestroy allowCancel a =
        (closeDocument ((closeReadFilename s).emit
          (Event.showCloseDialog (!s.doc.filename.isEmpty && !a.fileExists) allowCancel)),
         true) := by
    intro hch hr had
    rw [close_eq, if_pos hch, hr]
    simp only [had, if_true]
  have hiff : ∀ e, askingCalls e = false →
      (e ∈ emitted s (closeDocument ((closeReadFilename s).emit
          (Event.showCloseDialog (!s.doc.filename.isEmpty && !a.fileExists) allowCancel)))) →
      (e ∈ emitted s (close s dflt allowDestroy allowCancel a).1 ↔
        s.undoRedo.changed = true ∧ a.response = DialogResponse.GTK_RESPONSE_REJECT
          ∧ allowDestroy = true) := by
    intro e he hin
    constructor
    · intro hmem
      by_contra hnot
      have := (RunD.emitted_balance (close_asking s dflt allowDestroy allowCancel a hnot)).2 e hmem
      rw [he] at this
      exact Bool.noConfusion this
    · rintro ⟨hch, hr, had⟩
      rw [hclear hch hr had]
      exact hin
  have hdlgrun : ∀ b, ∃ evs, ((closeReadFilename s).emit
      (Event.showCloseDialog b allowCancel)).trace = s.trace ++ evs := by
    intro b
    obtain ⟨evs, hevs, _, _⟩ := hread
    exact ⟨evs ++ [Event.showCloseDialog b allowCancel], by
      show (closeReadFilename s).trace ++ _ = _
      rw [hevs, List.append_assoc]⟩
  have hinClear : ∀ t : Control, (∃ evs, t.trace = s.trace ++ evs) →
      Event.undoRedoClearContents ∈ emitted s (closeDocument t)
      ∧ Event.docClearDocument ∈ emitted s (closeDocument t) := by
    intro t ht
    obtain ⟨evs, hevs⟩ := ht
    obtain ⟨b, hb, _, _⟩ := closeDocument_run t
    have h1 := closeDocument_clears t
    rw [emitted_append t _ b hb] at h1
    rw [emitted_append s _ (evs ++ b) (by rw [hb, hevs, List.append_assoc])]
    exact ⟨List.mem_append_right _ h1.1, List.mem_append_right _ h1.2⟩
  refine ⟨?_, ?_, ?_, ?_, ?_, ?_, ?_, ?_⟩
  · intro hch
    have hch2 : ¬ s.undoRedo.changed = true := by simp [hch]
    rw [close_eq, if_neg hch2]
    refine ⟨rfl, ?_, hd, hu⟩
    intro b1 b2 hmem
    have := (RunD.emitted_balance hread).2 _ hmem
    simp [savingCalls] at this
  · intro hch
    rw [close_eq, if_pos hch]
    have hasking : ∀ t : Control, Run savingCalls
        ((closeReadFilename s).emit (Event.showCloseDialog
          (!s.doc.filename.isEmpty && !a.fileExists) allowCancel)) t →
        Event.showCloseDialog (!s.doc.filename.isEmpty && !a.fileExists) allowCancel ∈
          emitted s t := by
      intro t ht
      obtain ⟨evs, hevs, _, _⟩ := hread
      exact mem_emitted_of_initial _ (evs ++ [Event.showCloseDialog _ allowCancel])
        (by show (closeReadFilename s).trace ++ _ = _; rw [hevs, List.append_assoc])
        (by simp) ht
    cases hr : a.response with
    | GTK_RESPONSE_ACCEPT =>
      simp only
      by_cases hf : (!s.doc.filename.isEmpty && !a.fileExists) = true
      · rw [if_pos hf]
        have := hasking _ (saveAs_saving ((closeReadFilename s).emit
          (Event.showCloseDialog (!s.doc.filename.isEmpty && !a.fileExists) allowCancel))
          dflt a.saveAsChoice a.saveChoice a.saveJobResult)
        rw [hf] at this ⊢
        exact this
      · rw [if_neg hf]
        have hf2 : (!s.doc.filename.isEmpty && !a.fileExists) = false := by simpa using hf
        have := hasking _ (save_saving ((closeReadFilename s).emit
          (Event.showCloseDialog (!s.doc.filename.isEmpty && !a.fileExists) allowCancel))
          true a.saveChoice a.saveJobResult)
        rw [hf2] at this ⊢
        exact this
    | GTK_RESPONSE_REJECT =>
      simp only
      split_ifs
      · obtain ⟨evs, hevs, _, _⟩ := hread
        exact mem_emitted_of_initial _ (evs ++ [Event.showCloseDialog _ allowCancel])
          (by show (closeReadFilename s).trace ++ _ = _; rw [hevs, List.append_assoc])
          (by simp) (closeDocument_run _)
      · exact hmemdlg _
    | GTK_RESPONSE_CANCEL => exact hmemdlg _
    | GTK_RESPONSE_DELETE_EVENT => exact hmemdlg _
  · intro hch hr
    rw [close_eq, if_pos hch, hr]
    simp only
    refine ⟨by split_ifs <;> rfl, ?_, ?_⟩
    · intro had
      simp only [had, if_true]
      obtain ⟨h1, h2⟩ := closeDocument_cleared ((closeReadFilename s).emit
        (Event.showCloseDialog (!s.doc.filename.isEmpty && !a.fileExists) allowCancel))
      exact ⟨by rw [h1]; show (closeReadFilename s).undoRedo.clearContents = _; rw [hu], h2⟩
    · intro had
      simp only [had, Bool.false_eq_true, if_false]
      exact ⟨hd, hu⟩
  · intro hch hr
    rw [close_eq, if_pos hch, hr]
  · intro hch hr1 hr2
    rw [close_eq, if_pos hch]
    cases hr : a.response with
    | GTK_RESPONSE_ACCEPT => exact absurd hr hr1
    | GTK_RESPONSE_REJECT => exact absurd hr hr2
    | GTK_RESPONSE_CANCEL => exact ⟨rfl, hd, hu⟩
    | GTK_RESPONSE_DELETE_EVENT => exact ⟨rfl, hd, hu⟩
  · rw [close_eq]
    by_cases hch : s.undoRedo.changed = true
    · rw [if_pos hch]
      cases hr : a.response with
      | GTK_RESPONSE_ACCEPT => simp [hch]
      | GTK_RESPONSE_REJECT =>
        simp only
        constructor
        · intro _; exact Or.inr (Or.inl trivial)
        · intro _; split_ifs <;> rfl
      | GTK_RESPONSE_CANCEL => simp [hch]
      | GTK_RESPONSE_DELETE_EVENT => simp [hch]
    · rw [if_neg hch]
      simp [hch]
  · exact hiff _ rfl (hinClear _ (hdlgrun _)).1
  · exact hiff _ rfl (hinClear _ (hdlgrun _)).2

/-- C25, witness: with an unsaved change and the answer "Discard", `close(true, true)`
returns `true` and clears the document and the undo log; with the answer
"Cancel" it returns `false`. -/
theorem close_decision_table_witness :
    unsavedChange.undoRedo.changed = true
    ∧ (close unsavedChange usualDefaults true true discardAnswers).2 = true
    ∧ (close unsavedChange usualDefaults true true discardAnswers).1.doc.pages = []
    ∧ (close unsavedChange usualDefaults true true discardAnswers).1.undoRedo.actions = []
    ∧ (close unsavedChange usualDefaults true true cancelAnswers).2 = false :=
  ⟨rfl,
   ((close_decision_table unsavedChange usualDefaults true true discardAnswers).2.2.1
     rfl rfl).1,
   (((close_decision_table unsavedChange usualDefaults true true discardAnswers).2.2.1
     rfl rfl).2.1 rfl).2,
   by rw [(((close_decision_table unsavedChange usualDefaults true true discardAnswers).2.2.1
     rfl rfl).2.1 rfl).1]; rfl,
   ((close_decision_table unsavedChange usualDefaults true true cancelAnswers).2.2.2.2.1
     rfl (by decide) (by decide)).1⟩

/-! ### C7: which document accesses are made under the lock -/

theorem isLockedAccessOfPaperFormat_le (e : Event) (h : isLockedAccessOfPaperFormat e = true) :
    isLockedAccess e = true := by
  cases e <;> first | exact h | rfl

end Xournalpp
